import Mathlib

/-! Booking backend: seat allocator, seat layout generator, block and flight validators,
the query helpers (limitation, sorting, filtering) and the create-seat endpoint.

A shallow embedding of `services/seat.go`, `services/flight.go`, `models/block.go`,
`models/flight.go`, `models/seat.go`, `models/models.go`, `models/query.go`,
`helpers/query.go`, `controllers/controllers.go`, `controllers/seat.go` and
`persistence/sqldb/sqldb.go`, with the properties of the allocator, the generator, the
validators, the query helpers and the endpoint proved over it.

Go `int` is the 64-bit signed integer: values live in `Int`, and every sum the
program accumulates is reduced with `wrapInt`.
-/

namespace Booking

/-! ## Machine integers -/

/-- Two's complement reduction of an integer to the range of a 64-bit Go `int`. -/
def wrapInt (x : Int) : Int := (x + 2 ^ 63) % 2 ^ 64 - 2 ^ 63

/-- Largest value of a 64-bit Go `int`. -/
def maxInt : Int := 2 ^ 63 - 1

/-! ## Go strings

A Go `string` is a sequence of bytes; a byte is kept as its value, a natural number
below 256. Text constants of the program are written as Lean string literals and
stand for their UTF-8 bytes. -/

/-- A Go `string`: its bytes. -/
abbrev GoString := List Nat

/-- The bytes of a text constant. -/
def gostr (s : String) : GoString := s.toUTF8.data.toList.map UInt8.toNat

instance : Coe String GoString := ⟨gostr⟩

/-! ## models/seat.go -/

/-- SeatType is seat type (`type SeatType int`). -/
abbrev SeatType := Int

/-- SeatTypeAisle is aisle seat type (`iota + 1`). -/
def SeatTypeAisle : SeatType := 1

/-- SeatTypeWindow is window seat type. -/
def SeatTypeWindow : SeatType := 2

/-- SeatTypeMiddle is middle seat type. -/
def SeatTypeMiddle : SeatType := 3

/-- Seat contains seat data (field `Typ` is the source's `Type`). -/
structure Seat where
  ID : Int
  FlightID : Int
  Index : Int
  Typ : SeatType
  Row : Int
  Line : String
  Assigned : Bool
  CreatedAt : Int
  UpdatedAt : Int
deriving DecidableEq

/-! ## persistence/sqldb/sqldb.go

The relational store is an external collaborator. It is modelled as the list of
committed rows of table `seats` (in storage order), the writes of open
transactions that are not committed yet, a table of injected failures, and the
log of the calls made, each with the transaction handle it was given. -/

/-- Errors of the store: `sql.ErrNoRows` and any other failure. -/
inductive DBError where
  | ErrNoRows
  | Other (msg : String)
deriving DecidableEq

/-- Failure injected into each store operation (`none`: the operation works). -/
structure Faults where
  onBegin : Option DBError
  onSelectOne : Option DBError
  onUpdate : Option DBError
  onRollback : Option DBError
  onCommit : Option DBError
deriving DecidableEq

/-- No store operation fails. -/
def Faults.none : Faults := ⟨Option.none, Option.none, Option.none, Option.none, Option.none⟩

/-- One call on `DBInterface`, with the `trans` argument it was given. -/
inductive Call where
  | Begin (handle : Nat)
  | SelectOne (trans : Option Nat)
  | Update (trans : Option Nat)
  | Rollback (trans : Nat)
  | Commit (trans : Nat)
deriving DecidableEq

/-- The queries on table `seats` issued through `SelectOne` by the seat service. -/
inductive SeatQuery where
  /-- `SELECT * FROM seats WHERE flight_id = ? AND assigned = false
  ORDER BY row ASC, type ASC, line ASC LIMIT 1` -/
  | NextUnassigned (flightID : Int)
  /-- `SELECT * FROM seats WHERE flight_id = ? AND row = ? AND line = ?` -/
  | ByRowLine (flightID : Int) (row : Int) (line : String)
deriving DecidableEq

/-- The store. -/
structure DB where
  seats : List Seat
  pending : List (Nat × Seat)
  nextTrans : Nat
  faults : Faults
  calls : List Call

/-- The sort key of `ORDER BY row ASC, type ASC, line ASC`, compared lexicographically. -/
def orderKey (s : Seat) : ℤ ×ₗ (ℤ ×ₗ String) := toLex (s.Row, toLex (s.Typ, s.Line))

/-- The first row of `ORDER BY row ASC, type ASC, line ASC`: a row with the least key
(of several rows with the same key, the earliest in storage order). -/
def firstByOrder : List Seat → Option Seat
  | [] => none
  | s :: rest =>
    match firstByOrder rest with
    | none => some s
    | some m => if orderKey s ≤ orderKey m then some s else some m

/-- The `WHERE flight_id = ? AND assigned = false` clause. -/
def unassignedOf (flightID : Int) (rows : List Seat) : List Seat :=
  rows.filter (fun s => s.FlightID = flightID ∧ s.Assigned = false)

/-- Rows a query returns on a table. -/
def SeatQuery.run (rows : List Seat) : SeatQuery → List Seat
  | .NextUnassigned flightID => (firstByOrder (unassignedOf flightID rows)).toList
  | .ByRowLine flightID row line =>
    rows.filter (fun s => s.FlightID = flightID ∧ s.Row = row ∧ s.Line = line)

/-- `UPDATE seats SET ... WHERE id = ?`: the row with the primary key of `seat` is replaced. -/
def updateRow (rows : List Seat) (seat : Seat) : List Seat :=
  rows.map (fun r => if r.ID = seat.ID then seat else r)

/-- The rows a handle reads: the committed rows, and for a transaction also its own
writes so far. -/
def DB.view (db : DB) : Option Nat → List Seat
  | none => db.seats
  | some t => ((db.pending.filter (fun p => p.1 = t)).map Prod.snd).foldl updateRow db.seats

/-- Begin begins transaction. -/
def DB.Begin (db : DB) : Except DBError Nat × DB :=
  match db.faults.onBegin with
  | some err => (.error err, db)
  | none =>
    (.ok db.nextTrans,
      { db with nextTrans := db.nextTrans + 1, calls := db.calls ++ [Call.Begin db.nextTrans] })

/-- SelectOne selects one row from the db table: on the transaction when `trans` is
given, on the connection pool otherwise. No row is `sql.ErrNoRows`; more than one
row is an error of the mapper. -/
def DB.SelectOne (db : DB) (trans : Option Nat) (query : SeatQuery) : Except DBError Seat × DB :=
  let db1 : DB := { db with calls := db.calls ++ [Call.SelectOne trans] }
  match db.faults.onSelectOne with
  | some err => (.error err, db1)
  | none =>
    match query.run (db.view trans) with
    | [] => (.error DBError.ErrNoRows, db1)
    | [seat] => (.ok seat, db1)
    | _ => (.error (DBError.Other "gorp: multiple rows returned"), db1)

/-- Update updates data in the db table: inside the transaction when `trans` is given
(visible to others at commit), at once otherwise. -/
def DB.Update (db : DB) (trans : Option Nat) (seat : Seat) : Except DBError Unit × DB :=
  let db1 : DB := { db with calls := db.calls ++ [Call.Update trans] }
  match db.faults.onUpdate with
  | some err => (.error err, db1)
  | none =>
    match trans with
    | some t => (.ok (), { db1 with pending := db1.pending ++ [(t, seat)] })
    | none => (.ok (), { db1 with seats := updateRow db1.seats seat })

/-- Rollback rollbacks transaction: its writes are dropped. -/
def DB.Rollback (db : DB) (trans : Nat) : Option DBError × DB :=
  (db.faults.onRollback,
    { db with
      pending := db.pending.filter (fun p => p.1 ≠ trans),
      calls := db.calls ++ [Call.Rollback trans] })

/-- Commit commits transaction: its writes reach the table, unless the commit fails. -/
def DB.Commit (db : DB) (trans : Nat) : Option DBError × DB :=
  match db.faults.onCommit with
  | some err =>
    (some err,
      { db with
        pending := db.pending.filter (fun p => p.1 ≠ trans),
        calls := db.calls ++ [Call.Commit trans] })
  | none =>
    (none,
      { db with
        seats := db.view (some trans),
        pending := db.pending.filter (fun p => p.1 ≠ trans),
        calls := db.calls ++ [Call.Commit trans] })

/-! ## services/seat.go -/

/-- Assign assignes seat. `now` is `time.Now().Unix()`. The result is the pair
`(*models.Seat, error)` and the store after the call. -/
def Assign (db : DB) (now : Int) (flightID : Int) : (Option Seat × Option DBError) × DB :=
  match db.Begin with
  | (.error err, db) => ((none, some err), db)
  | (.ok tx, db) =>
    match db.SelectOne none (SeatQuery.NextUnassigned flightID) with
    | (.error err, db) =>
      let db := (db.Rollback tx).2
      if err = DBError.ErrNoRows then ((none, none), db) else ((none, some err), db)
    | (.ok seat, db) =>
      let seat : Seat := { seat with Assigned := true, UpdatedAt := now }
      match db.Update (some tx) seat with
      | (.error err, db) => ((none, some err), (db.Rollback tx).2)
      | (.ok _, db) =>
        match db.Commit tx with
        | (some err, db) => ((none, some err), db)
        | (none, db) => ((some seat, none), db)

/-- Successive `Assign` calls for one flight, one per timestamp, with nothing else
touching the store in between: the results in call order, and the final store. -/
def assignMany (db : DB) (flightID : Int) : List Int → List (Option Seat × Option DBError) × DB
  | [] => ([], db)
  | now :: later =>
    let r := Assign db now flightID
    let rs := assignMany r.2 flightID later
    (r.1 :: rs.1, rs.2)

/-- A store at rest: no transaction is open and nothing is injected. -/
def DB.ofSeats (seats : List Seat) : DB :=
  { seats := seats, pending := [], nextTrans := 0, faults := Faults.none, calls := [] }

/-- Well-formed store: `id` is the primary key of table `seats`, and every pending
write belongs to a transaction that was begun. -/
def DB.WellFormed (db : DB) : Prop :=
  (db.seats.map Seat.ID).Nodup ∧ ∀ p ∈ db.pending, p.1 < db.nextTrans

instance (db : DB) : Decidable db.WellFormed := by
  unfold DB.WellFormed
  infer_instance

/-- The seat as `Assign` writes it back. -/
def markAssigned (seat : Seat) (now : Int) : Seat :=
  { seat with Assigned := true, UpdatedAt := now }

/-- The order of `ORDER BY row ASC, type ASC, line ASC`, spelled out. -/
def seatOrderLe (a b : Seat) : Prop :=
  a.Row < b.Row ∨ (a.Row = b.Row ∧ (a.Typ < b.Typ ∨ (a.Typ = b.Typ ∧ a.Line ≤ b.Line)))

/-- The store after a successful `Assign` that picked `m`. -/
def afterAssign (db : DB) (m : Seat) (now : Int) : DB :=
  { seats := updateRow db.seats (markAssigned m now)
    pending := db.pending
    nextTrans := db.nextTrans + 1
    faults := db.faults
    calls := db.calls ++ [Call.Begin db.nextTrans, Call.SelectOne none,
      Call.Update (some db.nextTrans), Call.Commit db.nextTrans] }

/-- The store after an `Assign` that found no row. -/
def afterNoRows (db : DB) : DB :=
  { seats := db.seats
    pending := db.pending
    nextTrans := db.nextTrans + 1
    faults := db.faults
    calls := db.calls ++ [Call.Begin db.nextTrans, Call.SelectOne none,
      Call.Rollback db.nextTrans] }

/-- A store with five seats: flight 7 has a free Middle seat in row 2, a free Middle
and a free Aisle seat in row 1 and a taken Aisle seat in row 1; flight 8 has one free seat. -/
def exampleSeats : List Seat :=
  [ ⟨1, 7, 4, SeatTypeMiddle, 2, "A", false, 10, 0⟩,
    ⟨2, 7, 2, SeatTypeMiddle, 1, "B", false, 10, 0⟩,
    ⟨3, 7, 3, SeatTypeAisle, 1, "C", false, 10, 0⟩,
    ⟨4, 7, 1, SeatTypeAisle, 1, "A", true, 10, 11⟩,
    ⟨5, 8, 1, SeatTypeAisle, 1, "A", false, 10, 0⟩ ]

/-- The store holding `exampleSeats`. -/
def exampleDB : DB := DB.ofSeats exampleSeats

/-- A store in which every seat of flight 7 is taken. -/
def fullDB : DB :=
  DB.ofSeats
    [ ⟨4, 7, 1, SeatTypeAisle, 1, "A", true, 10, 11⟩,
      ⟨5, 8, 1, SeatTypeAisle, 1, "A", false, 10, 0⟩ ]

/-! ## models/error.go, models/block.go, models/flight.go -/

/-- Error contains error details. -/
structure Error where
  Code : GoString
  Message : GoString
  Field : GoString
deriving DecidableEq

/-- maxFieldLength is max field length. -/
def maxFieldLength : Nat := 255

/-- maxLines is max line number. -/
def maxLines : Int := 20

/-- maxRows is max rows number. -/
def maxRows : Int := 200

/-- Block is seat block. -/
structure Block where
  ID : Int
  FlightID : Int
  Rows : Int
  SideSeatNumbers : List Int
  MiddleSeatNumbers : List Int
deriving DecidableEq

/-- FlightCreate is data for flight creation. -/
structure FlightCreate where
  Name : String
  Blocks : List Block
deriving DecidableEq

/-- The error `rows.TooSmall`. -/
def errRowsTooSmall : Error :=
  ⟨"rows.TooSmall", "Rows must be more than zero", "rows"⟩

/-- The error `side_seat_numbers.Invalid`. -/
def errSideInvalid : Error :=
  ⟨"side_seat_numbers.Invalid", "Must be precisely two side seats", "side_seat_numbers"⟩

/-- The error `side_seat_numbers.TooSmall`. -/
def errSideTooSmall : Error :=
  ⟨"side_seat_numbers.TooSmall", "Side seats must be more than zero", "side_seat_numbers"⟩

/-- The error `middle_seat_numbers.TooSmall`. -/
def errMiddleTooSmall : Error :=
  ⟨"middle_seat_numbers.TooSmall", "Middle seats must be more than zero", "middle_seat_numbers"⟩

/-- The error `seat_number.TooLarge`. -/
def errSeatNumberTooLarge : Error :=
  ⟨"seat_number.TooLarge", "Seat number must be less than 20",
    "side_seat_numbers,middle_seat_numbers"⟩

/-- The error `name.TooLarge`. -/
def errNameTooLarge : Error :=
  ⟨"name.TooLarge", "Name must be less than 255 characters", "name"⟩

/-- The error `rows.TooLarge`. -/
def errRowsTooLarge : Error :=
  ⟨"rows.TooLarge", "Rows must be less than 200", "rows"⟩

/-- One `for _, number := range numbers` loop of `Block.Validate`: an error per
non-positive number, and `lines += number` in machine arithmetic. -/
def checkNumbers (err : Error) : List Int → List Error × Int → List Error × Int
  | [], st => st
  | number :: rest, st =>
    checkNumbers err rest
      (if number ≤ 0 then st.1 ++ [err] else st.1, wrapInt (st.2 + number))

/-- Validate validates block data. -/
def Block.Validate (block : Block) : List Error :=
  let errs : List Error := []
  let errs := if block.Rows ≤ 0 then errs ++ [errRowsTooSmall] else errs
  let errs := if block.SideSeatNumbers.length ≠ 2 then errs ++ [errSideInvalid] else errs
  let st := checkNumbers errSideTooSmall block.SideSeatNumbers (errs, 0)
  let st := checkNumbers errMiddleTooSmall block.MiddleSeatNumbers st
  if st.2 > maxLines then st.1 ++ [errSeatNumberTooLarge] else st.1

/-- The `for _, block := range flight.Blocks` loop of `FlightCreate.Validate`: the
errors of each block are appended, and `rows += block.Rows` in machine arithmetic. -/
def checkBlocks : List Block → List Error × Int → List Error × Int
  | [], st => st
  | block :: rest, st =>
    checkBlocks rest (st.1 ++ block.Validate, wrapInt (st.2 + block.Rows))

/-- Validate validates flight data. -/
def FlightCreate.Validate (flight : FlightCreate) : List Error :=
  let errs : List Error := []
  let errs := if flight.Name.length > maxFieldLength then errs ++ [errNameTooLarge] else errs
  let st := checkBlocks flight.Blocks (errs, 0)
  if st.2 > maxRows then st.1 ++ [errRowsTooLarge] else st.1

/-! ## services/flight.go: seat generation in `FlightService.Create` -/

/-- The conversion `string(line)` of an `int`: the UTF-8 text of the code point, and
`"�"` for a value that is not a valid code point. -/
def stringOfInt (n : Int) : String :=
  if 0 ≤ n ∧ n ≤ 0x10FFFF ∧ ¬ (0xD800 ≤ n ∧ n ≤ 0xDFFF) then
    String.singleton (Char.ofNat n.toNat)
  else "�"

/-- The variables a row of the generation carries: `seats`, `line` and `index`. -/
structure GenState where
  seats : List Seat
  line : Int
  index : Int
deriving DecidableEq

/-- Seat type in the first side group of size `n`. -/
def firstSideType (n j : Int) : SeatType :=
  if j = n - 1 then SeatTypeAisle
  else if j = 0 then SeatTypeWindow
  else SeatTypeMiddle

/-- Seat type in a middle group of size `number`. -/
def middleType (number j : Int) : SeatType :=
  if j = 0 ∨ j = number - 1 then SeatTypeAisle else SeatTypeMiddle

/-- Seat type in the second side group of size `n`. -/
def secondSideType (n j : Int) : SeatType :=
  if j = 0 then SeatTypeAisle
  else if j = n - 1 then SeatTypeWindow
  else SeatTypeMiddle

/-- The body shared by the three seat loops: append the seat, then `line++` and
`index++`. `now` is `time.Now().Unix()`; the fields not set are Go zero values. -/
def emitSeat (flightID now i : Int) (seatType : SeatType) (st : GenState) : GenState :=
  { seats := st.seats ++
      [{ ID := 0, FlightID := flightID, Index := wrapInt (st.index + 1), Typ := seatType,
         Row := i + 1, Line := stringOfInt st.line, Assigned := false,
         CreatedAt := now, UpdatedAt := 0 }]
    line := wrapInt (st.line + 1)
    index := wrapInt (st.index + 1) }

/-- The values `0, 1, ..., n - 1` that the counter of `for j := 0; j < n; j++` takes. -/
def loopRange (n : Int) : List Int := (List.range n.toNat).map Int.ofNat

/-- A loop `for j := 0; j < n; j++` emitting one seat of type `seatType j` per turn. -/
def seatLoop (flightID now i : Int) (seatType : Int → SeatType) (n : Int) (st : GenState) :
    GenState :=
  (loopRange n).foldl (fun st j => emitSeat flightID now i (seatType j) st) st

/-- The seats the three loops of row `i` of a block append, and the value of `index`
after the row; `none` when `SideSeatNumbers[0]` or `SideSeatNumbers[1]` is out of range
(the program panics). The row is taken whole whatever its size: whether the slice
`seats` can hold it is the matter of `rowSlice`. -/
def rowSeats (flightID now : Int) (block : Block) (i index : Int) : Option (List Seat × Int) :=
  match block.SideSeatNumbers[0]?, block.SideSeatNumbers[1]? with
  | some n0, some n1 =>
    let st : GenState := { seats := [], line := 65, index := index }
    let st := seatLoop flightID now i (firstSideType n0) n0 st
    let st := block.MiddleSeatNumbers.foldl
      (fun st number => seatLoop flightID now i (middleType number) number st) st
    let st := seatLoop flightID now i (secondSideType n1) n1 st
    some (st.seats, st.index)
  | _, _ => none

/-- The loop over the rows `i` of one block. -/
def rowsLoop (flightID now : Int) (block : Block) : List Int → Int → Option (List Seat × Int)
  | [], index => some ([], index)
  | i :: later, index =>
    match rowSeats flightID now block i index with
    | none => none
    | some (seats, index) =>
      match rowsLoop flightID now block later index with
      | none => none
      | some (more, index) => some (seats ++ more, index)

/-- The loop over the blocks of the flight. -/
def blocksLoop (flightID now : Int) : List Block → Int → Option (List Seat × Int)
  | [], index => some ([], index)
  | block :: rest, index =>
    match rowsLoop flightID now block (loopRange block.Rows) index with
    | none => none
    | some (seats, index) =>
      match blocksLoop flightID now rest index with
      | none => none
      | some (more, index) => some (seats ++ more, index)

/-- The seats the loops of `FlightService.Create` append, in order (`index := 0` before
the loops), every row taken whole whatever its size; `none` when a side entry is out of
range. These are the seats handed to `seatService.Create` whenever every row can be held
in its slice, see `GenerateSeats`, which gives the same seats when it gives any. -/
def CreateSeats (flightID now : Int) (blocks : List Block) : Option (List Seat) :=
  (blocksLoop flightID now blocks 0).map Prod.fst

/-! ## Layout of the generated seats, position by position -/

/-- The seat emitted for a position: type, line code and value of `index` before it. -/
def genSeat (flightID now i : Int) (seatType : SeatType) (line index : Int) : Seat :=
  { ID := 0, FlightID := flightID, Index := wrapInt (index + 1), Typ := seatType,
    Row := i + 1, Line := stringOfInt line, Assigned := false,
    CreatedAt := now, UpdatedAt := 0 }

/-- The seats of a run of positions with the given types, the first at line code
`wrapInt l` when the counter stands at `wrapInt c`. -/
def layoutSeats (flightID now i : Int) : List SeatType → Nat → Nat → List Seat
  | [], _, _ => []
  | ty :: rest, l, c =>
    genSeat flightID now i ty (wrapInt l) (wrapInt c) :: layoutSeats flightID now i rest (l + 1) (c + 1)

/-- The seat types of one row, group after group. -/
def rowTypes (n0 : Int) (middle : List Int) (n1 : Int) : List SeatType :=
  (loopRange n0).map (firstSideType n0)
    ++ middle.flatMap (fun number => (loopRange number).map (middleType number))
    ++ (loopRange n1).map (secondSideType n1)

/-- The seat types of one row of a block (a missing side entry counts as no seat). -/
def Block.rowTypes (block : Block) : List SeatType :=
  Booking.rowTypes (block.SideSeatNumbers.getD 0 0) block.MiddleSeatNumbers
    (block.SideSeatNumbers.getD 1 0)

/-- The seats of the rows `rows` of a block, the counter standing at `wrapInt c`. -/
def blockSeats (flightID now : Int) (types : List SeatType) : List Int → Nat → List Seat
  | [], _ => []
  | i :: later, c =>
    layoutSeats flightID now i types 65 c ++ blockSeats flightID now types later (c + types.length)

/-- Number of seats of a block: rows times seats per row, counts below zero taken as zero. -/
def Block.seatCount (block : Block) : Nat := block.Rows.toNat * block.rowTypes.length

/-- The seats of a list of blocks, the counter standing at `wrapInt c`. -/
def flightSeats (flightID now : Int) : List Block → Nat → List Seat
  | [], _ => []
  | block :: rest, c =>
    blockSeats flightID now block.rowTypes (loopRange block.Rows) c
      ++ flightSeats flightID now rest (c + block.seatCount)

/-- Number of seats of a flight. -/
def seatTotal (blocks : List Block) : Nat := (blocks.map Block.seatCount).sum

/-- The seat total as the sum over blocks of `rows * (side[0] + side[1] + sum(middle))`. -/
def claimedTotal (blocks : List Block) : Int :=
  (blocks.map (fun b => b.Rows *
    (b.SideSeatNumbers.getD 0 0 + b.SideSeatNumbers.getD 1 0 + b.MiddleSeatNumbers.sum))).sum

/-- Two blocks: two rows of 3 + 1 + 4 + 2 seats, then one row of 1 + 1 + 1 seats. -/
def exampleBlocks : List Block :=
  [⟨0, 0, 2, [3, 2], [1, 4]⟩, ⟨0, 0, 1, [1, 1], [1]⟩]

/-- One block with a negative side entry. -/
def negativeSideBlocks : List Block := [⟨0, 0, 1, [-1, 2], []⟩]

/-! ## The reference rule for seat types, in the words of the specification -/

/-- Reference rule, first side group of size `n`: position `n - 1` is Aisle, otherwise
position 0 is Window, otherwise Middle. -/
def specFirstSide (n : Nat) : List SeatType :=
  (List.range n).map (fun j =>
    if j = n - 1 then SeatTypeAisle else if j = 0 then SeatTypeWindow else SeatTypeMiddle)

/-- Reference rule, middle group of size `n`: positions 0 and `n - 1` are Aisle, all
others Middle. -/
def specMiddleGroup (n : Nat) : List SeatType :=
  (List.range n).map (fun j => if j = 0 ∨ j = n - 1 then SeatTypeAisle else SeatTypeMiddle)

/-- Reference rule, second side group of size `n`: position 0 is Aisle, otherwise
position `n - 1` is Window, otherwise Middle. -/
def specSecondSide (n : Nat) : List SeatType :=
  (List.range n).map (fun j =>
    if j = 0 then SeatTypeAisle else if j = n - 1 then SeatTypeWindow else SeatTypeMiddle)

/-- Reference rule for one row of a block: first side group, the middle groups in
declared order, second side group (a count below zero is a group of no seat). -/
def specRowTypes (block : Block) : List SeatType :=
  specFirstSide (block.SideSeatNumbers.getD 0 0).toNat
    ++ block.MiddleSeatNumbers.flatMap (fun number => specMiddleGroup number.toNat)
    ++ specSecondSide (block.SideSeatNumbers.getD 1 0).toNat

/-- Row number and type of every seat the reference rule gives a flight, in order. -/
def specFlightTypes (blocks : List Block) : List (Int × SeatType) :=
  blocks.flatMap (fun block =>
    (List.range block.Rows.toNat).flatMap (fun i =>
      (specRowTypes block).map (fun ty => ((i : Int) + 1, ty))))

/-- A block whose two side entries are both the largest `int`: their sum leaves the
range of `int`. -/
def overflowBlock : Block := ⟨0, 0, 1, [9223372036854775807, 9223372036854775807], []⟩

/-- A flight with the block `overflowBlock`. -/
def overflowFlight : FlightCreate := ⟨"F1", [overflowBlock]⟩

/-- A flight of four blocks of 2 ^ 62 rows each, with two single side seats. -/
def manyRowsFlight : FlightCreate :=
  ⟨"F2", [⟨0, 0, 4611686018427387904, [1, 1], []⟩, ⟨0, 0, 4611686018427387904, [1, 1], []⟩,
    ⟨0, 0, 4611686018427387904, [1, 1], []⟩, ⟨0, 0, 4611686018427387904, [1, 1], []⟩]⟩

/-! ## Library functions used by the query helpers

`net/url`, `strconv`, `strings`, `fmt` and `encoding/csv` are not part of the
repository; the functions the helpers call are modelled from their documented
behaviour. -/

/-- Hexadecimal digit test of `net/url` (`ishex`). -/
def ishex (c : Nat) : Bool :=
  (48 ≤ c ∧ c ≤ 57) ∨ (97 ≤ c ∧ c ≤ 102) ∨ (65 ≤ c ∧ c ≤ 70)

/-- Value of a hexadecimal digit (`unhex`). -/
def unhex (c : Nat) : Nat :=
  if 48 ≤ c ∧ c ≤ 57 then c - 48
  else if 97 ≤ c ∧ c ≤ 102 then c - 97 + 10
  else if 65 ≤ c ∧ c ≤ 70 then c - 65 + 10
  else 0

/-- The function `url.QueryUnescape`: `%XX` becomes the byte `XX` and `+` a space;
`none` is the error for a `%` that is not followed by two hexadecimal digits. -/
def QueryUnescape : GoString → Option GoString
  | [] => some []
  | c :: rest =>
    if c = 37 then
      match rest with
      | h1 :: h2 :: rest2 =>
        if ishex h1 ∧ ishex h2 then
          (QueryUnescape rest2).map (fun out => (unhex h1 * 16 + unhex h2) :: out)
        else none
      | _ => none
    else (QueryUnescape rest).map (fun out => (if c = 43 then 32 else c) :: out)

/-- Decimal digits read from the left onto `acc`; `none` at a byte that is not a digit. -/
def parseDigits : GoString → Nat → Option Nat
  | [], acc => some acc
  | c :: rest, acc =>
    if 48 ≤ c ∧ c ≤ 57 then parseDigits rest (acc * 10 + (c - 48)) else none

/-- The function `strconv.ParseInt(s, 10, bitSize)`: an optional sign and at least one
decimal digit, the value within the signed `bitSize`-bit range; `none` is any error. -/
def ParseInt (s : GoString) (bitSize : Nat) : Option Int :=
  match s with
  | [] => none
  | c :: rest =>
    let neg : Bool := c = 45
    let digits := if c = 43 ∨ c = 45 then rest else s
    if digits = [] then none
    else
      match parseDigits digits 0 with
      | none => none
      | some un =>
        let cutoff : Nat := 2 ^ (bitSize - 1)
        if ¬ neg ∧ un ≥ cutoff then none
        else if neg ∧ un > cutoff then none
        else some (if neg then -(un : Int) else (un : Int))

/-- The function `strconv.ParseBool`. -/
def ParseBool (str : GoString) : Option Bool :=
  if str = "1" ∨ str = "t" ∨ str = "T" ∨ str = "true" ∨ str = "TRUE" ∨ str = "True" then
    some true
  else if str = "0" ∨ str = "f" ∨ str = "F" ∨ str = "false" ∨ str = "FALSE"
      ∨ str = "False" then
    some false
  else none

/-- Decimal text of a natural number. -/
def formatNat (n : Nat) : GoString := (Nat.toDigits 10 n).map Char.toNat

/-- The verb `%v` of `fmt.Sprintf` on an integer. -/
def formatInt (n : Int) : GoString :=
  if n < 0 then 45 :: formatNat n.natAbs else formatNat n.natAbs

/-- The verb `%v` of `fmt.Sprintf` on a boolean. -/
def formatBool (b : Bool) : GoString := if b then "true" else "false"

/-- The function `strings.Split(s, sep)` for a separator of one byte. -/
def Split (sep : Nat) : GoString → List GoString
  | [] => [[]]
  | c :: rest =>
    if c = sep then [] :: Split sep rest
    else
      match Split sep rest with
      | [] => [[c]]
      | part :: parts => (c :: part) :: parts

/-- The function `strings.Join`. -/
def Join (elems : List GoString) (sep : GoString) : GoString :=
  match elems with
  | [] => []
  | [e] => e
  | e :: rest => e ++ sep ++ Join rest sep

/-- The function `strings.Replace(s, old, new, -1)` for `old` of one byte. -/
def Replace (s : GoString) (old : Nat) (new : GoString) : GoString :=
  s.flatMap (fun c => if c = old then new else [c])

/-- Lower case of an ASCII byte. -/
def lowerByte (c : Nat) : Nat := if 65 ≤ c ∧ c ≤ 90 then c + 32 else c

/-- Upper case of an ASCII byte. -/
def upperByte (c : Nat) : Nat := if 97 ≤ c ∧ c ≤ 122 then c - 32 else c

/-- The function `strings.ToLower`: exact on ASCII and on the two letters outside ASCII
whose lower case is an ASCII letter, U+0130 (bytes C4 B0, to `i`) and U+212A (bytes
E2 84 AA, to `k`). Every other byte outside ASCII is kept, so the result equals an
ASCII text exactly when the result of `strings.ToLower` does. -/
def ToLower : GoString → GoString
  | [] => []
  | [c] => [lowerByte c]
  | [c, d] => if c = 0xC4 ∧ d = 0xB0 then [105] else lowerByte c :: ToLower [d]
  | c :: d :: e :: rest =>
    if c = 0xC4 ∧ d = 0xB0 then 105 :: ToLower (e :: rest)
    else if c = 0xE2 ∧ d = 0x84 ∧ e = 0xAA then 107 :: ToLower rest
    else lowerByte c :: ToLower (d :: e :: rest)

/-- The function `strings.ToUpper`: exact on ASCII and on the two letters outside ASCII
whose upper case is an ASCII letter, U+0131 (bytes C4 B1, to `I`) and U+017F (bytes
C5 BF, to `S`). Every other byte outside ASCII is kept. -/
def ToUpper : GoString → GoString
  | [] => []
  | [c] => [upperByte c]
  | c :: d :: rest =>
    if c = 0xC4 ∧ d = 0xB1 then 73 :: ToUpper rest
    else if c = 0xC5 ∧ d = 0xBF then 83 :: ToUpper rest
    else upperByte c :: ToUpper (d :: rest)

/-! ### `encoding/csv` with `Comma = ':'` and `LazyQuotes = true` -/

/-- Line endings as `Reader.readLine` delivers them: `\r\n` becomes `\n`, and a `\r`
that is the last byte of the input is dropped. -/
def normalizeLines : GoString → GoString
  | [] => []
  | [c] => if c = 13 then [] else [c]
  | c :: d :: rest =>
    if c = 13 ∧ d = 10 then 10 :: normalizeLines rest
    else c :: normalizeLines (d :: rest)

/-- Where the reader stands: before a record, before a field of the record begun,
inside a field without quotes, inside a quoted field, or just after a quote met inside
a quoted field. -/
inductive CsvState where
  | recordStart
  | fieldStart
  | unquoted
  | quoted
  | afterQuote
deriving DecidableEq

/-- The records of the input: `field` is the field being read, `record` the fields of
the record begun. An empty line is skipped; in a quoted field a doubled quote is a
quote, a quote before the comma or the end of the line closes the field, and any
other quote is kept (lazy quotes); the end of the input closes an open field. -/
def csvRecords (comma : Nat) :
    CsvState → GoString → List GoString → GoString → List (List GoString)
  | .recordStart, _, _, [] => []
  | _, field, record, [] => [record ++ [field]]
  | .recordStart, _, _, c :: rest =>
    if c = 10 then csvRecords comma .recordStart [] [] rest
    else if c = 34 then csvRecords comma .quoted [] [] rest
    else if c = comma then csvRecords comma .fieldStart [] [[]] rest
    else csvRecords comma .unquoted [c] [] rest
  | .fieldStart, _, record, c :: rest =>
    if c = 10 then (record ++ [[]]) :: csvRecords comma .recordStart [] [] rest
    else if c = 34 then csvRecords comma .quoted [] record rest
    else if c = comma then csvRecords comma .fieldStart [] (record ++ [[]]) rest
    else csvRecords comma .unquoted [c] record rest
  | .unquoted, field, record, c :: rest =>
    if c = 10 then (record ++ [field]) :: csvRecords comma .recordStart [] [] rest
    else if c = comma then csvRecords comma .fieldStart [] (record ++ [field]) rest
    else csvRecords comma .unquoted (field ++ [c]) record rest
  | .quoted, field, record, c :: rest =>
    if c = 34 then csvRecords comma .afterQuote field record rest
    else csvRecords comma .quoted (field ++ [c]) record rest
  | .afterQuote, field, record, c :: rest =>
    if c = 34 then csvRecords comma .quoted (field ++ [34]) record rest
    else if c = comma then csvRecords comma .fieldStart [] (record ++ [field]) rest
    else if c = 10 then (record ++ [field]) :: csvRecords comma .recordStart [] [] rest
    else csvRecords comma .quoted (field ++ [34, c]) record rest

/-- The method `Reader.ReadAll`: all the records, or `none` for the error
`ErrFieldCount` when a record has not the number of fields of the first one (the
only error left with lazy quotes). -/
def ReadAll (comma : Nat) (input : GoString) : Option (List (List GoString)) :=
  let records := csvRecords comma .recordStart [] [] (normalizeLines input)
  match records with
  | [] => some []
  | first :: others =>
    if others.all (fun r => r.length = first.length) then some records else none

/-! ## models/models.go, models/seat.go, models/flight.go: the field schemas -/

/-- The `query` and `search` tags of one struct field (`Tag.Get` gives `""` for a tag
that is not there). -/
structure FieldTags where
  query : GoString
  search : GoString
deriving DecidableEq

/-- The tags of the fields of `Seat`, in declaration order. -/
def seatTags : List FieldTags :=
  [⟨"id", "id"⟩, ⟨"-", "-"⟩, ⟨"index", "index"⟩, ⟨"type", "type"⟩, ⟨"row", "row"⟩,
    ⟨"line", "line"⟩, ⟨"assigned", "assigned"⟩, ⟨"created_at", "created_at"⟩,
    ⟨"updated_at", "updated_at"⟩]

/-- The tags of the fields of `Flight`, in declaration order (`Blocks` has neither tag). -/
def flightTags : List FieldTags :=
  [⟨"id", "id"⟩, ⟨"name", "name"⟩, ⟨"created_at", "created_at"⟩, ⟨"", ""⟩]

/-- CheckQueryTag checks availability of query tag. -/
def CheckQueryTag (field : GoString) : List FieldTags → Bool
  | [] => false
  | tags :: rest => if field = tags.query then true else CheckQueryTag field rest

/-- GetSearchTag gets search tag. -/
def GetSearchTag (field : GoString) : List FieldTags → GoString
  | [] => ""
  | tags :: rest => if field = tags.query then tags.search else GetSearchTag field rest

/-- GetAllSearchTags gets all search tags. -/
def GetAllSearchTags : List FieldTags → List GoString
  | [] => []
  | tags :: rest =>
    if tags.search ≠ "" ∧ tags.search ≠ "-" then tags.search :: GetAllSearchTags rest
    else GetAllSearchTags rest

/-- The quoting shared by the string cases: each `'` doubled, the whole in `'...'`. -/
def quoteValue (value : GoString) : GoString :=
  let value := if 39 ∈ value then Replace value 39 "''" else value
  "'" ++ value ++ "'"

/-- Verify verifies sort field (`Seat`). -/
def Seat.Verify (field : GoString) : Bool := CheckQueryTag field seatTags

/-- Validate validates search field (`Seat`). -/
def Seat.Validate (field value : GoString) : GoString × GoString × List Error :=
  let searchField := GetSearchTag field seatTags
  if field = "id" ∨ field = "created_at" ∨ field = "updated_at" then
    match ParseInt value 64 with
    | none => (searchField, "", [⟨field ++ ".Invalid", field ++ " is not integer", field⟩])
    | some _ => (searchField, value, [])
  else if field = "index" ∨ field = "type" ∨ field = "row" then
    match ParseInt value 32 with
    | none => (searchField, "", [⟨field ++ ".Invalid", field ++ " is not integer", field⟩])
    | some _ => (searchField, value, [])
  else if field = "line" then
    if value.length ≠ 1 then
      (searchField, "", [⟨field ++ ".Invalid", field ++ " is not one character", field⟩])
    else (searchField, quoteValue value, [])
  else if field = "assigned" then
    match ParseBool value with
    | none => (searchField, "", [⟨field ++ ".Invalid", field ++ " is not boolean", field⟩])
    | some val => (searchField, formatBool val, [])
  else (searchField, "", [⟨"field.Unknown", field ++ " field is unknown", "field"⟩])

/-- GetAllFields gets all search fields (`Seat`). -/
def Seat.GetAllFields : List GoString := GetAllSearchTags seatTags

/-- ValidateAll validates all seach fields (`Seat`). -/
def Seat.ValidateAll (value : GoString) : GoString := quoteValue value

/-- Flight contains flight data; only its methods on the schema are modelled. -/
structure Flight where
  ID : Int
  Name : String
  CreatedAt : Int
  Blocks : List Block

/-- Verify verifies sort field (`Flight`). -/
def Flight.Verify (field : GoString) : Bool := CheckQueryTag field flightTags

/-- Validate validates search field (`Flight`). -/
def Flight.Validate (field value : GoString) : GoString × GoString × List Error :=
  let searchField := GetSearchTag field flightTags
  if field = "id" ∨ field = "created_at" then
    match ParseInt value 64 with
    | none => (searchField, "", [⟨field ++ ".Invalid", field ++ " is not integer", field⟩])
    | some _ => (searchField, value, [])
  else if field = "name" then (searchField, quoteValue value, [])
  else (searchField, "", [⟨"field.Unknown", field ++ " field is unknown", "field"⟩])

/-- GetAllFields gets all search fields (`Flight`). -/
def Flight.GetAllFields : List GoString := GetAllSearchTags flightTags

/-- ValidateAll validates all seach fields (`Flight`). -/
def Flight.ValidateAll (value : GoString) : GoString := quoteValue value

/-! ## models/query.go -/

/-- SortFieldChecker is sort field checker interface. -/
structure SortFieldChecker where
  Verify : GoString → Bool

/-- OrderExp is order expression. -/
structure OrderExp where
  Field : GoString
  Order : GoString
deriving DecidableEq

/-- SearchFieldChecker is search field checker interface. -/
structure SearchFieldChecker where
  Validate : GoString → GoString → GoString × GoString × List Error
  ValidateAll : GoString → GoString
  GetAllFields : List GoString

/-- FilterExp is filter expression. -/
structure FilterExp where
  Fields : List GoString
  Op : GoString
  Value : GoString
deriving DecidableEq

/-- The sort checker `&models.Seat{}`. -/
def seatSortChecker : SortFieldChecker := ⟨Seat.Verify⟩

/-- The sort checker `&models.Flight{}`. -/
def flightSortChecker : SortFieldChecker := ⟨Flight.Verify⟩

/-- The search checker `&models.Seat{}`. -/
def seatSearchChecker : SearchFieldChecker :=
  ⟨Seat.Validate, Seat.ValidateAll, Seat.GetAllFields⟩

/-- The search checker `&models.Flight{}`. -/
def flightSearchChecker : SearchFieldChecker :=
  ⟨Flight.Validate, Flight.ValidateAll, Flight.GetAllFields⟩

/-! ## helpers/query.go

The query values are taken as `c.Request.URL.Query()` gives them: `offset` and `limit`
by `Get` (the empty string when the parameter is absent), `sort` and `filter` as the
lists of their values in the order of the request. -/

/-- defaultLimit is default limit. -/
def defaultLimit : Int := 100

/-- delimiter is expression operand delimiter (`':'`). -/
def delimiter : Nat := 58

/-- The error `sort.Bad`. -/
def errSortBad : Error := ⟨"sort.Bad", "Sort can't be unescaped", "sort"⟩

/-- The error `sort.WrongLength`. -/
def errSortWrongLength : Error :=
  ⟨"sort.WrongLength", "Sort has wrong length of elements", "sort"⟩

/-- The error `sort.UnknownField`. -/
def errSortUnknownField : Error :=
  ⟨"sort.UnknownField", "Sort contains unknown field", "sort"⟩

/-- The error `sort.UnknownOrder`. -/
def errSortUnknownOrder : Error :=
  ⟨"sort.UnknownOrder", "Sort contains unknown order", "sort"⟩

/-- The error `filter.Bad`. -/
def errFilterBad : Error := ⟨"filter.Bad", "Filter can't be unescaped", "filter"⟩

/-- The error `filter.InvalidFormat`. -/
def errFilterInvalidFormat : Error :=
  ⟨"filter.InvalidFormat", "Filter is not in csv format", "filter"⟩

/-- The error `filter.WrongLength`. -/
def errFilterWrongLength : Error :=
  ⟨"filter.WrongLength", "Filter has wrong length of elements", "filter"⟩

/-- The error `filter.UnknownOperation`. -/
def errFilterUnknownOperation : Error :=
  ⟨"filter.UnknownOperation", "Filter contains unknown operation", "filter"⟩

/-- One turn of the loop of `GetLimitation` over `fields`: the value of the parameter
(0 when it is empty), or the error that ends the call. -/
def limitationField (name message data : GoString) : Except (List Error) Int :=
  match QueryUnescape data with
  | none => .error [⟨name ++ ".Bad", message ++ " can't be unescaped", name⟩]
  | some value =>
    if value ≠ [] then
      match ParseInt value 64 with
      | none => .error [⟨name ++ ".Invalid", message ++ " is not integer", name⟩]
      | some valueInt =>
        if valueInt < 0 then
          .error [⟨name ++ ".Negative", message ++ " can't be negative", name⟩]
        else .ok valueInt
    else .ok 0

/-- GetLimitation get limitation from the query. -/
def GetLimitation (offset limit : GoString) : GoString × List Error :=
  match limitationField "offset" "Offset" offset with
  | .error errs => ("", errs)
  | .ok offsetValue =>
    match limitationField "limit" "Limit" limit with
    | .error errs => ("", errs)
    | .ok limitValue =>
      if limitValue > 0 then
        (" LIMIT " ++ formatInt offsetValue ++ ", " ++ formatInt limitValue, [])
      else (" LIMIT " ++ formatInt offsetValue ++ ", " ++ formatInt defaultLimit, [])

/-- The loop `for _, order := range orders` of `GetSorting`: the order expressions
collected onto `sorts`, or the error that ends the call. -/
def sortingLoop (checker : SortFieldChecker) :
    List GoString → List OrderExp → Except (List Error) (List OrderExp)
  | [], sorts => .ok sorts
  | order :: rest, sorts =>
    match QueryUnescape order with
    | none => .error [errSortBad]
    | some element =>
      if element = [] then sortingLoop checker rest sorts
      else
        match Split delimiter element with
        | [fieldElement, orderElement] =>
          if ¬ checker.Verify fieldElement then .error [errSortUnknownField]
          else if ToLower orderElement ≠ "asc" ∧ ToLower orderElement ≠ "desc" then
            .error [errSortUnknownOrder]
          else sortingLoop checker rest (sorts ++ [⟨fieldElement, ToUpper orderElement⟩])
        | _ => .error [errSortWrongLength]

/-- GetSorting gets sorting from the query. -/
def GetSorting (checker : SortFieldChecker) (orders : List GoString) :
    GoString × List Error :=
  match sortingLoop checker orders [] with
  | .error errs => ("", errs)
  | .ok sorts =>
    if sorts.length ≠ 0 then
      (" ORDER BY" ++ Join (sorts.map (fun sort => " " ++ sort.Field ++ " " ++ sort.Order)) ",",
        [])
    else ("", [])

/-- The `switch strings.ToLower(opElement)` of `GetFiltering`: the operator token and
the value (with every `*` turned into `%` for `lk`), or `none` for the default case. -/
def filterOp (opElement value : GoString) : Option (GoString × GoString) :=
  if ToLower opElement = "eq" then some ("=", value)
  else if ToLower opElement = "lt" then some ("<", value)
  else if ToLower opElement = "le" then some ("<=", value)
  else if ToLower opElement = "gt" then some (">", value)
  else if ToLower opElement = "ge" then some (">=", value)
  else if ToLower opElement = "ne" then some ("!=", value)
  else if ToLower opElement = "lk" then some ("LIKE", Replace value 42 "%")
  else none

/-- The loop `for _, expression := range expressions` of `GetFiltering`: the filter
expressions collected onto `filters`, or the errors that end the call. -/
def filteringLoop (checker : SearchFieldChecker) :
    List GoString → List FilterExp → Except (List Error) (List FilterExp)
  | [], filters => .ok filters
  | expression :: rest, filters =>
    match QueryUnescape expression with
    | none => .error [errFilterBad]
    | some element =>
      match ReadAll delimiter element with
      | none => .error [errFilterInvalidFormat]
      | some [] => filteringLoop checker rest filters
      | some (record :: _) =>
        match record with
        | [fieldElement, opElement, valueElement] =>
          let allFields : Bool := fieldElement = "*"
          let validated : GoString × GoString × List Error :=
            if allFields then ("", checker.ValidateAll valueElement, [])
            else checker.Validate fieldElement valueElement
          if ¬ allFields ∧ validated.2.2.length ≠ 0 then .error validated.2.2
          else
            match filterOp opElement validated.2.1 with
            | none => .error [errFilterUnknownOperation]
            | some (op, value) =>
              if allFields then
                filteringLoop checker rest (filters ++ [⟨checker.GetAllFields, op, value⟩])
              else filteringLoop checker rest (filters ++ [⟨[validated.1], op, value⟩])
        | _ => .error [errFilterWrongLength]

/-- GetFiltering gets filtering from the query. -/
def GetFiltering (checker : SearchFieldChecker) (expressions : List GoString) :
    GoString × List Error :=
  match filteringLoop checker expressions [] with
  | .error errs => ("", errs)
  | .ok filters =>
    if filters.length ≠ 0 then
      (" AND " ++ Join (filters.map (fun filter =>
          "(" ++ Join (filter.Fields.map (fun field =>
            field ++ " " ++ filter.Op ++ " " ++ filter.Value)) " OR " ++ ")")) " AND ",
        [])
    else ("", [])

/-! ## Words of the specification about the query values -/

/-- A text made of decimal digits only. -/
def allDigits (s : GoString) : Prop := ∀ c ∈ s, 48 ≤ c ∧ c ≤ 57

instance (s : GoString) : Decidable (allDigits s) := by
  unfold allDigits
  infer_instance

/-- The number a text of decimal digits denotes (0 for the empty text). -/
def decimalValue (s : GoString) : Nat := s.foldl (fun acc c => acc * 10 + (c - 48)) 0

/-- A value of `offset` or `limit` that is absent or empty, or a non-negative base-10
integer below `2 ^ 63`. -/
def smallNatural (s : GoString) : Prop := allDigits s ∧ decimalValue s < 2 ^ 63

instance (s : GoString) : Decidable (smallNatural s) := by
  unfold smallNatural
  infer_instance

/-- A base-10 integer literal: an optional sign `+` or `-`, then at least one decimal
digit. -/
def isIntLiteral (s : GoString) : Prop :=
  match s with
  | [] => False
  | c :: rest =>
    if c = 43 ∨ c = 45 then rest ≠ [] ∧ allDigits rest else allDigits (c :: rest)

instance (s : GoString) : Decidable (isIntLiteral s) := by
  unfold isIntLiteral
  split <;> infer_instance

/-- The integer a base-10 literal denotes. -/
def literalValue (s : GoString) : Int :=
  match s with
  | [] => 0
  | c :: rest =>
    if c = 45 then -(decimalValue rest : Int)
    else if c = 43 then (decimalValue rest : Int)
    else (decimalValue (c :: rest) : Int)

/-- A text that denotes an integer of the signed range of `bitSize` bits. -/
def isIntOfSize (bitSize : Nat) (s : GoString) : Prop :=
  isIntLiteral s ∧ -(2 ^ (bitSize - 1) : Int) ≤ literalValue s
    ∧ literalValue s < (2 ^ (bitSize - 1) : Int)

instance (bitSize : Nat) (s : GoString) : Decidable (isIntOfSize bitSize s) := by
  unfold isIntOfSize
  infer_instance

/-- What is wrong with a value of `offset` or `limit`. -/
inductive LimitFault where
  | Bad
  | Invalid
  | Negative
deriving DecidableEq

/-- The fault of a value of `offset` or `limit`, in the words of the specification:
a value that cannot be URL-unescaped is `Bad`; otherwise a non-empty value that is not
a base-10 integer of the signed 64-bit range is `Invalid`; otherwise a negative integer
is `Negative`. -/
def limitFault (data : GoString) : Option LimitFault :=
  match QueryUnescape data with
  | none => some .Bad
  | some value =>
    if value = [] then none
    else if ¬ isIntOfSize 64 value then some .Invalid
    else if literalValue value < 0 then some .Negative
    else none

/-- The error reported for a fault of the parameter `name`. -/
def limitError (name message : GoString) : LimitFault → Error
  | .Bad => ⟨name ++ ".Bad", message ++ " can't be unescaped", name⟩
  | .Invalid => ⟨name ++ ".Invalid", message ++ " is not integer", name⟩
  | .Negative => ⟨name ++ ".Negative", message ++ " can't be negative", name⟩

/-- The fault of one sort value, in the words of the specification: a value that
cannot be URL-unescaped is `sort.Bad`; an empty unescaped value has no fault; otherwise
`sort.WrongLength` when splitting on `:` does not give exactly two parts, otherwise
`sort.UnknownField` when the checker rejects the field part, otherwise
`sort.UnknownOrder` when the direction is not `asc` or `desc` ignoring case. -/
def sortFault (checker : SortFieldChecker) (order : GoString) : Option Error :=
  match QueryUnescape order with
  | none => some errSortBad
  | some element =>
    if element = [] then none
    else if (Split delimiter element).length ≠ 2 then some errSortWrongLength
    else if checker.Verify ((Split delimiter element).getD 0 []) = false then
      some errSortUnknownField
    else if ToLower ((Split delimiter element).getD 1 []) ≠ "asc"
        ∧ ToLower ((Split delimiter element).getD 1 []) ≠ "desc" then
      some errSortUnknownOrder
    else none

/-- The order expression of one sort value: field part and upper-cased direction (no
expression for a value that is empty or has not two parts). -/
def sortExp (order : GoString) : List OrderExp :=
  match QueryUnescape order with
  | none => []
  | some element =>
    if element = [] then []
    else
      match Split delimiter element with
      | [fieldElement, orderElement] => [⟨fieldElement, ToUpper orderElement⟩]
      | _ => []

/-- The sort value `field:dir`, and the empty value for `none`. -/
def sortValue : Option (GoString × GoString) → GoString
  | none => []
  | some (field, dir) => field ++ ":" ++ dir

/-- The entry `field DIR` of a sort value `field:dir`. -/
def sortEntry (item : GoString × GoString) : GoString :=
  item.1 ++ " " ++ (if ToLower item.2 = "asc" then ("ASC" : GoString) else "DESC")

/-- The sorting text of the specification: nothing for no entry, else ` ORDER BY `
followed by the entries joined by `, `. -/
def sortText (entries : List GoString) : GoString :=
  if entries = [] then "" else " ORDER BY " ++ Join entries ", "

/-- The sort values of the test: `line:asc`, `id:desc` and an empty value. -/
def exampleSortItems : List (Option (GoString × GoString)) :=
  [some (gostr "line", gostr "asc"), some (gostr "id", gostr "desc"), none]

/-- One turn of the loop of `GetFiltering`: the filter expression of the value (none
for a value with no record), or the errors that end the call. -/
def filterStep (checker : SearchFieldChecker) (expression : GoString) :
    Except (List Error) (List FilterExp) :=
  match QueryUnescape expression with
  | none => .error [errFilterBad]
  | some element =>
    match ReadAll delimiter element with
    | none => .error [errFilterInvalidFormat]
    | some [] => .ok []
    | some (record :: _) =>
      match record with
      | [fieldElement, opElement, valueElement] =>
        let allFields : Bool := fieldElement = "*"
        let validated : GoString × GoString × List Error :=
          if allFields then ("", checker.ValidateAll valueElement, [])
          else checker.Validate fieldElement valueElement
        if ¬ allFields ∧ validated.2.2.length ≠ 0 then .error validated.2.2
        else
          match filterOp opElement validated.2.1 with
          | none => .error [errFilterUnknownOperation]
          | some (op, value) =>
            if allFields then .ok [⟨checker.GetAllFields, op, value⟩]
            else .ok [⟨[validated.1], op, value⟩]
      | _ => .error [errFilterWrongLength]

/-- The result of a helper has a single error and no string, or no error. -/
def singleError (r : GoString × List Error) : Prop :=
  (r.2 ≠ [] → r.2.length = 1 ∧ r.1 = []) ∧ (r.1 ≠ [] → r.2 = [])

/-- The operator token of an operator code, in the words of the specification:
`eq` is `=`, `ne` is `!=`, `lt` is `<`, `le` is `<=`, `gt` is `>`, `ge` is `>=` and `lk`
is `LIKE`, the code taken ignoring letter case; `none` for any other code. -/
def opToken (op : GoString) : Option GoString :=
  if ToLower op = "eq" then some "="
  else if ToLower op = "ne" then some "!="
  else if ToLower op = "lt" then some "<"
  else if ToLower op = "le" then some "<="
  else if ToLower op = "gt" then some ">"
  else if ToLower op = "ge" then some ">="
  else if ToLower op = "lk" then some "LIKE"
  else none

/-- The value an operator compares with: for `lk` every `*` is rewritten to `%`. -/
def likeValue (op value : GoString) : GoString :=
  if ToLower op = "lk" then Replace value 42 "%" else value

/-- The record of parts a filter value parses to: the first record of the unescaped
value (`none` when the value cannot be unescaped, is not in csv format or has no
record). -/
def filterRecord (expression : GoString) : Option (List GoString) :=
  match QueryUnescape expression with
  | none => none
  | some element =>
    match ReadAll delimiter element with
    | some (record :: _) => some record
    | _ => none

/-- The filtering text of the specification: nothing for no group, else ` AND `
followed by the groups joined by ` AND `. -/
def filterText (groups : List GoString) : GoString :=
  if groups = [] then "" else " AND " ++ Join groups " AND "

/-- The group of a filter on one field, `(field TOKEN value)`. -/
def specificGroup (field token value : GoString) : GoString :=
  "(" ++ (field ++ " " ++ token ++ " " ++ value) ++ ")"

/-- The group of a wildcard filter: one atom `field TOKEN value` for each field, the
atoms joined by ` OR `. -/
def wildcardGroup (fields : List GoString) (token value : GoString) : GoString :=
  "(" ++ Join (fields.map (fun field => field ++ " " ++ token ++ " " ++ value)) " OR " ++ ")"

/-- A filter value of the form `field:op:value` with a field other than `*`, a value
valid for the field and one of the seven operator codes; or the empty value. -/
def specificFilter (checker : SearchFieldChecker) (expression : GoString) : Bool :=
  match filterRecord expression with
  | some [f, o, x] =>
    decide (f ≠ "*") && decide ((checker.Validate f x).2.2 = []) && (opToken o).isSome
  | _ => decide (expression = [])

/-- The filter expression of a filter value `field:op:value` (none for another value):
the field, the token of the operator, and the validated value, in which for `lk` every
`*` is rewritten to `%`. -/
def specificExps (checker : SearchFieldChecker) (expression : GoString) : List FilterExp :=
  match filterRecord expression with
  | some [f, o, x] => [⟨[f], (opToken o).getD "", likeValue o (checker.Validate f x).2.1⟩]
  | _ => []

/-- The group of a filter value `field:op:value` (none for another value). -/
def specificGroups (checker : SearchFieldChecker) (expression : GoString) : List GoString :=
  (specificExps checker expression).map (fun filter =>
    specificGroup (filter.Fields.headD "") filter.Op filter.Value)

/-- The filter values of the test, and an empty value. -/
def exampleFilters : List GoString :=
  [gostr "line:eq:v", gostr "id:gt:100", gostr "id:lt:2", gostr "id:le:3", gostr "id:ge:4",
    gostr "id:ne:5", gostr "", gostr "id:lk:6"]

/-- The text between the outer quotes of a literal: the first and the last byte are
removed. -/
def stripOuter (s : GoString) : GoString := (s.drop 1).dropLast

/-- Each pair of quotes `''`, met from the left, becomes one quote `'`
(`strings.Replace(s, "''", "'", -1)`). -/
def unescapeQuotes : GoString → GoString
  | [] => []
  | [c] => [c]
  | c :: d :: rest =>
    if c = 39 ∧ d = 39 then 39 :: unescapeQuotes rest else c :: unescapeQuotes (d :: rest)

/-- No quote of the text is unpaired: read from the left, every quote `'` is followed
at once by a second quote, and the two are passed together. -/
def quotesPaired : GoString → Bool
  | [] => true
  | [c] => decide (c ≠ 39)
  | c :: d :: rest =>
    if c = 39 then (if d = 39 then quotesPaired rest else false) else quotesPaired (d :: rest)

/-- The width in bits of the integer fields of `Seat`: 64 for `id`, `created_at` and
`updated_at`, 32 for `index`, `type` and `row`; `none` for a field of another kind. -/
def seatIntegerBits (field : GoString) : Option Nat :=
  if field = "id" ∨ field = "created_at" ∨ field = "updated_at" then some 64
  else if field = "index" ∨ field = "type" ∨ field = "row" then some 32
  else none

/-- The filter value `f:eq:"w"`, where `w` is `v` with each `"` doubled. -/
def quotedFilter (f v : GoString) : GoString :=
  f ++ ":eq:\"" ++ Replace v 34 "\"\"" ++ "\""

/-- The filter `f:lk:v` in the order of the specification: every `*` of the value is
rewritten to `%` first, then the value is validated and escaped for the field (or
escaped as a string for the wildcard), then the group is rendered with `LIKE`. -/
def likeFilterSpec (checker : SearchFieldChecker) (f v : GoString) : GoString × List Error :=
  let w := Replace v 42 "%"
  if f = "*" then
    (" AND " ++ wildcardGroup checker.GetAllFields "LIKE" (checker.ValidateAll w), [])
  else if (checker.Validate f w).2.2 ≠ [] then ("", (checker.Validate f w).2.2)
  else (" AND " ++ specificGroup (checker.Validate f w).1 "LIKE" (checker.Validate f w).2.1, [])

/-! ## controllers/controllers.go, controllers/seat.go

The handlers write a status and a body to the response. The flight service is an
external collaborator: `retrieve` stands for `flightService.Retrieve`, which gives the
flight, no flight (`nil, nil`), or an error. -/

/-- What a handler writes as the body of the response: nothing (`c.Status`), a list of
errors, or a seat pointer (`c.JSON(status, seat)`; a nil pointer is the JSON `null`). -/
inductive Body where
  | empty
  | errors (errs : List Error)
  | seat (seat : Option Seat)
deriving DecidableEq

/-- The response of a handler. -/
structure Response where
  status : Nat
  body : Body
deriving DecidableEq

/-- The status `http.StatusCreated`. -/
def StatusCreated : Nat := 201

/-- The status `http.StatusBadRequest`. -/
def StatusBadRequest : Nat := 400

/-- The status `http.StatusNotFound`. -/
def StatusNotFound : Nat := 404

/-- The status `http.StatusInternalServerError`. -/
def StatusInternalServerError : Nat := 500

/-- The function `getFlight`: the flight of the path parameter `flightId`, or the
response written when there is none. -/
def getFlight (flightId : GoString) (retrieve : Int → Except DBError (Option Flight)) :
    Except Response Flight :=
  match ParseInt flightId 64 with
  | none =>
    .error ⟨StatusBadRequest,
      .errors [⟨"flightId.Invalid", "Flight id is not integer", "flightId"⟩]⟩
  | some flightID =>
    match retrieve flightID with
    | .error _ => .error ⟨StatusInternalServerError, .empty⟩
    | .ok none => .error ⟨StatusNotFound, .empty⟩
    | .ok (some flight) => .ok flight

/-- Create creates seat (`SeatController.Create`): the response, and the store after
the call. -/
def SeatController.Create (flightId : GoString)
    (retrieve : Int → Except DBError (Option Flight)) (db : DB) (now : Int) : Response × DB :=
  match getFlight flightId retrieve with
  | .error response => (response, db)
  | .ok flight =>
    match Assign db now flight.ID with
    | ((_, some _), db) => (⟨StatusInternalServerError, .empty⟩, db)
    | ((seat, none), db) => (⟨StatusCreated, .seat seat⟩, db)

/-- A flight service in which every flight exists. -/
def retrieveAny (flightID : Int) : Except DBError (Option Flight) :=
  .ok (some ⟨flightID, "F", 0, []⟩)

/-- The seat without the flight id and the timestamp of its creation. -/
def Seat.place (s : Seat) : Seat := { s with FlightID := 0, CreatedAt := 0 }

/-- A flight with the blocks `exampleBlocks`. -/
def exampleFlight : FlightCreate := ⟨"F", exampleBlocks⟩

/-- A flight of two blocks, each of one row with two single side seats. -/
def twoBlockFlight : FlightCreate := ⟨"F3", [⟨0, 0, 1, [1, 1], []⟩, ⟨0, 0, 1, [1, 1], []⟩]⟩

/-! ## services/flight.go: the rows as the program holds them

`FlightService.Create` builds the seats of one row in the slice `seats` by `append`
and hands them to `seatService.Create` only when the row is complete. The length of a
slice is an `int`, so a row of more than `maxInt` seats is never completed: the program
stops inside `append` (on a real machine much earlier, when memory runs out), and no
seat of that row reaches the store. -/

/-- Number of seats of one row of a block: the side and middle counts added up, a count
below zero or a missing side entry being no seat. -/
def Block.rowCount (block : Block) : Nat :=
  (block.SideSeatNumbers.getD 0 0).toNat + (block.MiddleSeatNumbers.map Int.toNat).sum
    + (block.SideSeatNumbers.getD 1 0).toNat

/-- The slice `seats` of row `i` of a block when the row is complete, and the value of
`index` after it; `none` when the row has more seats than a slice holds, or when a side
entry is out of range. -/
def rowSlice (flightID now : Int) (block : Block) (i index : Int) : Option (List Seat × Int) :=
  if (block.rowCount : Int) > maxInt then none else rowSeats flightID now block i index

/-- The loop over the rows `i` of one block, each row built in its slice. -/
def rowsSlices (flightID now : Int) (block : Block) : List Int → Int → Option (List Seat × Int)
  | [], index => some ([], index)
  | i :: later, index =>
    match rowSlice flightID now block i index with
    | none => none
    | some (seats, index) =>
      match rowsSlices flightID now block later index with
      | none => none
      | some (more, index) => some (seats ++ more, index)

/-- The loop over the blocks of the flight, each row built in its slice. -/
def blocksSlices (flightID now : Int) : List Block → Int → Option (List Seat × Int)
  | [], index => some ([], index)
  | block :: rest, index =>
    match rowsSlices flightID now block (loopRange block.Rows) index with
    | none => none
    | some (seats, index) =>
      match blocksSlices flightID now rest index with
      | none => none
      | some (more, index) => some (seats ++ more, index)

/-- The seats `FlightService.Create` generates for the blocks, in the order in which
they are handed to `seatService.Create`, when no store call fails; `none` when the
generation does not come to its end: a side entry is out of range, or a row cannot be
held in its slice. -/
def GenerateSeats (flightID now : Int) (blocks : List Block) : Option (List Seat) :=
  (blocksSlices flightID now blocks 0).map Prod.fst

/-- The line of position `k` of a row, counting from 0: the letter `k` places after
`A`. -/
def lineLetter (k : Nat) : String := String.singleton (Char.ofNat (65 + k))

/-- Row number and line of every seat of a list of blocks in the words of the
specification: in each block the rows 1, 2, ... in turn, and in each row the letters
`A`, `B`, ... in turn, as many as the row has seats, starting again at `A` in every
row. -/
def specFlightLines (blocks : List Block) : List (Int × String) :=
  blocks.flatMap (fun block =>
    (List.range block.Rows.toNat).flatMap (fun i =>
      (List.range block.rowCount).map (fun k => ((i : Int) + 1, lineLetter k))))

/-- The field names a filter value is rendered with: every filterable field of the
schema for the wildcard `*`, else the field part of the value itself (none for a value
without a three-part record). -/
def filterFields (checker : SearchFieldChecker) (expression : GoString) : List GoString :=
  match filterRecord expression with
  | some [f, _, _] => if f = "*" then checker.GetAllFields else [f]
  | _ => []

/-- The group of a filter value `field:op:value` in the words of the specification (no
group for a value without a three-part record): one atom `name TOKEN value` for each
name of `filterFields`, joined by ` OR `, with the token of the operator and the value
escaped as a string (wildcard) or validated for the field, every `*` rewritten to `%`
for `lk`. -/
def filterGroups (checker : SearchFieldChecker) (expression : GoString) : List GoString :=
  match filterRecord expression with
  | some [f, o, x] =>
    [wildcardGroup (filterFields checker expression) ((opToken o).getD "")
      (likeValue o (if f = "*" then checker.ValidateAll x else (checker.Validate f x).2.1))]
  | _ => []

/-! # Theorems -/

/-! ## The allocator: supporting lemmas -/

theorem orderKey_le_iff (a b : Seat) : orderKey a ≤ orderKey b ↔ seatOrderLe a b := by
  unfold orderKey seatOrderLe
  rw [Prod.Lex.le_iff]
  simp only [ofLex_toLex]
  rw [Prod.Lex.le_iff]

theorem seatOrderLe_row {a b : Seat} (h : seatOrderLe a b) : a.Row ≤ b.Row := by
  rcases h with h | ⟨h, _⟩
  · exact le_of_lt h
  · exact le_of_eq h

theorem firstByOrder_eq_none {l : List Seat} : firstByOrder l = none ↔ l = [] := by
  cases l with
  | nil => simp [firstByOrder]
  | cons s rest =>
    simp only [firstByOrder]
    cases firstByOrder rest with
    | none => simp
    | some m => by_cases h : orderKey s ≤ orderKey m <;> simp [h]

theorem firstByOrder_mem {l : List Seat} {m : Seat} (h : firstByOrder l = some m) : m ∈ l := by
  induction l generalizing m with
  | nil => simp [firstByOrder] at h
  | cons s rest ih =>
    simp only [firstByOrder] at h
    cases hr : firstByOrder rest with
    | none =>
      rw [hr] at h
      simp only [Option.some.injEq] at h
      simp [h]
    | some m0 =>
      rw [hr] at h
      by_cases hle : orderKey s ≤ orderKey m0
      · simp only [hle, if_true, Option.some.injEq] at h
        simp [h]
      · simp only [hle, if_false, Option.some.injEq] at h
        subst h
        exact List.mem_cons_of_mem _ (ih hr)

theorem firstByOrder_le {l : List Seat} {m : Seat} (h : firstByOrder l = some m) :
    ∀ x ∈ l, orderKey m ≤ orderKey x := by
  induction l generalizing m with
  | nil => simp
  | cons s rest ih =>
    simp only [firstByOrder] at h
    cases hr : firstByOrder rest with
    | none =>
      rw [hr] at h
      simp only [Option.some.injEq] at h
      subst h
      have hnil : rest = [] := firstByOrder_eq_none.mp hr
      subst hnil
      intro x hx
      simp only [List.mem_singleton] at hx
      subst hx
      exact le_refl _
    | some m0 =>
      rw [hr] at h
      have ih0 := ih hr
      by_cases hle : orderKey s ≤ orderKey m0
      · simp only [hle, if_true, Option.some.injEq] at h
        subst h
        intro x hx
        rcases List.mem_cons.mp hx with hx | hx
        · subst hx
          exact le_refl _
        · exact le_trans hle (ih0 x hx)
      · simp only [hle, if_false, Option.some.injEq] at h
        subst h
        intro x hx
        rcases List.mem_cons.mp hx with hx | hx
        · subst hx
          exact le_of_lt (not_le.mp hle)
        · exact ih0 x hx

theorem mem_unassignedOf {flightID : Int} {rows : List Seat} {s : Seat} :
    s ∈ unassignedOf flightID rows ↔ s ∈ rows ∧ s.FlightID = flightID ∧ s.Assigned = false := by
  simp [unassignedOf]

theorem map_ID_updateRow (rows : List Seat) (seat : Seat) :
    (updateRow rows seat).map Seat.ID = rows.map Seat.ID := by
  unfold updateRow
  rw [List.map_map]
  apply List.map_congr_left
  intro r _
  by_cases h : r.ID = seat.ID <;> simp [h]

/-- With `id` a key, the update touches the row of the seat and no other. -/
theorem updateRow_markAssigned {rows : List Seat} {m : Seat} (now : Int)
    (hnd : (rows.map Seat.ID).Nodup) (hm : m ∈ rows) :
    updateRow rows (markAssigned m now)
      = rows.map (fun r => if r = m then markAssigned m now else r) := by
  unfold updateRow
  apply List.map_congr_left
  intro r hr
  have hiff : r.ID = (markAssigned m now).ID ↔ r = m := by
    constructor
    · intro h
      exact List.inj_on_of_nodup_map hnd hr hm h
    · intro h
      subst h
      rfl
  by_cases h : r = m
  · simp [h, markAssigned]
  · have h2 : ¬ r.ID = (markAssigned m now).ID := fun hc => h (hiff.mp hc)
    simp [h, h2]

theorem pending_filter_eq_nil {pending : List (Nat × Seat)} {t : Nat}
    (h : ∀ p ∈ pending, p.1 < t) : pending.filter (fun p => p.1 = t) = [] := by
  rw [List.filter_eq_nil_iff]
  intro p hp
  have := h p hp
  simp only [decide_eq_true_eq]
  omega

theorem pending_filter_ne_eq {pending : List (Nat × Seat)} {t : Nat}
    (h : ∀ p ∈ pending, p.1 < t) : pending.filter (fun p => p.1 ≠ t) = pending := by
  rw [List.filter_eq_self]
  intro p hp
  have := h p hp
  simp only [ne_eq, decide_not, Bool.not_eq_eq_eq_not, Bool.not_true, decide_eq_false_iff_not]
  omega

theorem Assign_of_first_some {db : DB} {m : Seat} (now flightID : Int)
    (hb : db.faults.onBegin = none) (hs : db.faults.onSelectOne = none)
    (hu : db.faults.onUpdate = none) (hc : db.faults.onCommit = none)
    (hp : ∀ p ∈ db.pending, p.1 < db.nextTrans)
    (hm : firstByOrder (unassignedOf flightID db.seats) = some m) :
    Assign db now flightID = ((some (markAssigned m now), none), afterAssign db m now) := by
  have h1 := pending_filter_eq_nil hp
  have h2 := pending_filter_ne_eq hp
  simp only [ne_eq] at h2
  simp [Assign, DB.Begin, DB.SelectOne, DB.Update, DB.Commit, DB.view, SeatQuery.run, hb, hs, hu,
    hc, hm, afterAssign, markAssigned, List.filter_append, h1, h2]
  intro a b hab heq
  have := hp (a, b) hab
  simp only at this
  omega

theorem Assign_of_first_none {db : DB} (now flightID : Int)
    (hb : db.faults.onBegin = none) (hs : db.faults.onSelectOne = none)
    (hp : ∀ p ∈ db.pending, p.1 < db.nextTrans)
    (hm : firstByOrder (unassignedOf flightID db.seats) = none) :
    Assign db now flightID = ((none, none), afterNoRows db) := by
  have h2 := pending_filter_ne_eq hp
  simp only [ne_eq] at h2
  simp [Assign, DB.Begin, DB.SelectOne, DB.Rollback, DB.view, SeatQuery.run, hb, hs,
    hm, afterNoRows, h2]
  intro a b hab heq
  have := hp (a, b) hab
  simp only at this
  omega

theorem unassignedOf_replace (flightID : Int) (m : Seat) (now : Int) (rows : List Seat) :
    unassignedOf flightID (rows.map (fun r => if r = m then markAssigned m now else r))
      = (unassignedOf flightID rows).filter (fun r => r ≠ m) := by
  induction rows with
  | nil => rfl
  | cons r rest ih =>
    unfold unassignedOf at ih ⊢
    rw [List.map_cons, List.filter_cons, List.filter_cons, ih]
    by_cases hrm : r = m
    · subst hrm
      by_cases hp : r.FlightID = flightID ∧ r.Assigned = false
      · simp [markAssigned, hp]
      · simp [markAssigned, hp]
    · by_cases hp : r.FlightID = flightID ∧ r.Assigned = false
      · simp [hrm, hp]
      · simp [hrm, hp]

theorem unassignedOf_afterAssign {db : DB} {m : Seat} (now flightID : Int)
    (hnd : (db.seats.map Seat.ID).Nodup) (hm : m ∈ db.seats) :
    unassignedOf flightID (afterAssign db m now).seats
      = (unassignedOf flightID db.seats).erase m := by
  have hnd2 : (unassignedOf flightID db.seats).Nodup :=
    (List.Nodup.of_map _ hnd).filter _
  rw [List.Nodup.erase_eq_filter hnd2]
  simp only [afterAssign]
  rw [updateRow_markAssigned now hnd hm, unassignedOf_replace]
  apply List.filter_congr
  intro x _
  by_cases h : x = m <;> simp [h]

theorem afterAssign_wellFormed {db : DB} (m : Seat) (now : Int) (hwf : db.WellFormed) :
    (afterAssign db m now).WellFormed := by
  refine ⟨?_, ?_⟩
  · simp only [afterAssign]
    rw [map_ID_updateRow]
    exact hwf.1
  · intro p hp
    have := hwf.2 p hp
    simp only [afterAssign]
    omega

/-- Runs of `Assign` until the flight is exhausted: the seats picked, as they were
before the run, are the unassigned seats of the flight in the order of the query. -/
theorem assignMany_picks (flightID : Int) :
    ∀ (nows : List Int) (db : DB), db.WellFormed → db.faults = Faults.none →
      nows.length = (unassignedOf flightID db.seats).length + 1 →
      ∃ picked : List Seat,
        picked.Perm (unassignedOf flightID db.seats) ∧
        picked.Pairwise seatOrderLe ∧
        (assignMany db flightID nows).1
          = List.zipWith (fun m t => (some (markAssigned m t), none)) picked nows
            ++ [(none, none)] := by
  intro nows
  induction nows with
  | nil =>
    intro db _ _ hlen
    simp at hlen
  | cons now later ih =>
    intro db hwf hf hlen
    have hb : db.faults.onBegin = none := by rw [hf]; rfl
    have hs : db.faults.onSelectOne = none := by rw [hf]; rfl
    have hu : db.faults.onUpdate = none := by rw [hf]; rfl
    have hc : db.faults.onCommit = none := by rw [hf]; rfl
    cases hfirst : firstByOrder (unassignedOf flightID db.seats) with
    | none =>
      have hnil := firstByOrder_eq_none.mp hfirst
      rw [hnil] at hlen
      simp only [List.length_cons, List.length_nil, zero_add, add_left_eq_self,
        List.length_eq_zero] at hlen
      subst hlen
      refine ⟨[], ?_, List.Pairwise.nil, ?_⟩
      · rw [hnil]
      · simp [assignMany, Assign_of_first_none now flightID hb hs hwf.2 hfirst]
    | some m =>
      have hmU := firstByOrder_mem hfirst
      have hmin := firstByOrder_le hfirst
      have hmS : m ∈ db.seats := (mem_unassignedOf.mp hmU).1
      have hA := Assign_of_first_some now flightID hb hs hu hc hwf.2 hfirst
      have hU := unassignedOf_afterAssign now flightID hwf.1 hmS
      have hlen2 : later.length
          = (unassignedOf flightID (afterAssign db m now).seats).length + 1 := by
        rw [hU, List.length_erase_of_mem hmU]
        simp only [List.length_cons] at hlen
        have hpos : 0 < (unassignedOf flightID db.seats).length :=
          List.length_pos_of_mem hmU
        omega
      obtain ⟨picked, hperm, hsorted, hres⟩ :=
        ih (afterAssign db m now) (afterAssign_wellFormed m now hwf) hf hlen2
      refine ⟨m :: picked, ?_, ?_, ?_⟩
      · rw [hU] at hperm
        exact (List.Perm.cons m hperm).trans (List.perm_cons_erase hmU).symm
      · refine List.Pairwise.cons ?_ hsorted
        intro x hx
        have hx2 : x ∈ (unassignedOf flightID db.seats).erase m := by
          rw [← hU]
          exact hperm.subset hx
        exact (orderKey_le_iff m x).mp (hmin x (List.mem_of_mem_erase hx2))
      · simp only [assignMany, hA, List.zipWith_cons_cons, List.cons_append]
        rw [hres]

/-! ## The allocator: `SeatService.Assign` -/

/-- C1: in a store where the flight has an unassigned seat and no store operation
fails, `Assign` returns a seat of that flight that was unassigned before the call and
is least among the unassigned seats of the flight in the order row, then type
(Aisle 1, Window 2, Middle 3), then line; afterwards that seat is stored with
`assigned = true` and every other seat is unchanged. -/
theorem Assign_returns_least_unassigned (db : DB) (now flightID : Int)
    (hwf : db.WellFormed) (hf : db.faults = Faults.none)
    (hfree : ∃ s ∈ db.seats, s.FlightID = flightID ∧ s.Assigned = false) :
    ∃ m ∈ db.seats, m.FlightID = flightID ∧ m.Assigned = false ∧
      (∀ x ∈ db.seats, x.FlightID = flightID → x.Assigned = false → seatOrderLe m x) ∧
      (Assign db now flightID).1 = (some (markAssigned m now), none) ∧
      (markAssigned m now).Assigned = true ∧
      markAssigned m now ∈ (Assign db now flightID).2.seats ∧
      (Assign db now flightID).2.seats
        = db.seats.map (fun r => if r = m then markAssigned m now else r) := by
  have hb : db.faults.onBegin = none := by rw [hf]; rfl
  have hs : db.faults.onSelectOne = none := by rw [hf]; rfl
  have hu : db.faults.onUpdate = none := by rw [hf]; rfl
  have hc : db.faults.onCommit = none := by rw [hf]; rfl
  obtain ⟨s, hs1, hs2, hs3⟩ := hfree
  have hsU : s ∈ unassignedOf flightID db.seats := mem_unassignedOf.mpr ⟨hs1, hs2, hs3⟩
  cases hfirst : firstByOrder (unassignedOf flightID db.seats) with
  | none =>
    rw [firstByOrder_eq_none.mp hfirst] at hsU
    simp at hsU
  | some m =>
    have hmU := mem_unassignedOf.mp (firstByOrder_mem hfirst)
    have hmin := firstByOrder_le hfirst
    have hA := Assign_of_first_some now flightID hb hs hu hc hwf.2 hfirst
    have hseats : (Assign db now flightID).2.seats
        = db.seats.map (fun r => if r = m then markAssigned m now else r) := by
      rw [hA]
      exact updateRow_markAssigned now hwf.1 hmU.1
    refine ⟨m, hmU.1, hmU.2.1, hmU.2.2, ?_, ?_, rfl, ?_, hseats⟩
    · intro x hx hxf hxa
      exact (orderKey_le_iff m x).mp (hmin x (mem_unassignedOf.mpr ⟨hx, hxf, hxa⟩))
    · rw [hA]
    · rw [hseats]
      exact List.mem_map.mpr ⟨m, hmU.1, by simp⟩

/-- C1 at the example store: flight 7 has three unassigned seats. -/
theorem Assign_returns_least_unassigned_witness :
    ∃ m ∈ exampleDB.seats, m.FlightID = 7 ∧ m.Assigned = false ∧
      (∀ x ∈ exampleDB.seats, x.FlightID = 7 → x.Assigned = false → seatOrderLe m x) ∧
      (Assign exampleDB 100 7).1 = (some (markAssigned m 100), none) ∧
      (markAssigned m 100).Assigned = true ∧
      markAssigned m 100 ∈ (Assign exampleDB 100 7).2.seats ∧
      (Assign exampleDB 100 7).2.seats
        = exampleDB.seats.map (fun r => if r = m then markAssigned m 100 else r) :=
  Assign_returns_least_unassigned exampleDB 100 7 (by decide) rfl
    ⟨⟨1, 7, 4, SeatTypeMiddle, 2, "A", false, 10, 0⟩, by decide, rfl, rfl⟩

/-- C2: when the flight has no unassigned seat (and the transaction can be begun and
the query runs), `Assign` returns no seat and no error, and no seat in the store is
changed; a failing rollback does not alter this. -/
theorem Assign_none_available (db : DB) (now flightID : Int)
    (hb : db.faults.onBegin = none) (hs : db.faults.onSelectOne = none)
    (hfull : ∀ s ∈ db.seats, s.FlightID = flightID → s.Assigned = true) :
    (Assign db now flightID).1 = (none, none) ∧ (Assign db now flightID).2.seats = db.seats := by
  have hnil : unassignedOf flightID db.seats = [] := by
    unfold unassignedOf
    rw [List.filter_eq_nil_iff]
    intro s hsm
    have := hfull s hsm
    simp only [decide_eq_true_eq, not_and, Bool.not_eq_false]
    exact this
  simp [Assign, DB.Begin, DB.SelectOne, DB.Rollback, DB.view, SeatQuery.run, hb, hs, hnil,
    firstByOrder]

/-- C2 at a store where the only seat of flight 7 is taken. -/
theorem Assign_none_available_witness :
    (Assign fullDB 100 7).1 = (none, none) ∧ (Assign fullDB 100 7).2.seats = fullDB.seats :=
  Assign_none_available fullDB 100 7 rfl rfl (by decide)

/-- C3: from a flight with `n` unassigned seats, with no other update and no store
failure, the first `n` of `n + 1` successive `Assign` calls return `n` seats, pairwise
distinct, each unassigned at the start, in non-decreasing row order (in the order of
the query, so an earlier row is exhausted before a later one is used), covering all the
unassigned seats; the last call returns none available. -/
theorem assignMany_exhausts_flight (db : DB) (flightID : Int) (nows : List Int)
    (hwf : db.WellFormed) (hf : db.faults = Faults.none)
    (hlen : nows.length = (unassignedOf flightID db.seats).length + 1) :
    ∃ picked : List Seat,
      picked.length = (unassignedOf flightID db.seats).length ∧
      (assignMany db flightID nows).1
        = List.zipWith (fun m t => (some (markAssigned m t), none)) picked nows
          ++ [(none, none)] ∧
      (picked.map Seat.ID).Nodup ∧
      (∀ m ∈ picked, m ∈ db.seats ∧ m.FlightID = flightID ∧ m.Assigned = false) ∧
      (∀ x ∈ db.seats, x.FlightID = flightID → x.Assigned = false → x ∈ picked) ∧
      picked.Pairwise (fun a b => a.Row ≤ b.Row) ∧
      picked.Pairwise seatOrderLe := by
  obtain ⟨picked, hperm, hsorted, hres⟩ := assignMany_picks flightID nows db hwf hf hlen
  refine ⟨picked, hperm.length_eq, hres, ?_, ?_, ?_, ?_, hsorted⟩
  · have h1 : ((unassignedOf flightID db.seats).map Seat.ID).Nodup :=
      (List.filter_sublist db.seats).map Seat.ID |>.nodup hwf.1
    exact ((hperm.map Seat.ID).nodup_iff).mpr h1
  · intro m hm
    exact mem_unassignedOf.mp (hperm.subset hm)
  · intro x hx hxf hxa
    exact hperm.symm.subset (mem_unassignedOf.mpr ⟨hx, hxf, hxa⟩)
  · exact hsorted.imp (fun h => seatOrderLe_row h)

/-- C3 at the example store: four calls for flight 7, which has three unassigned seats. -/
theorem assignMany_exhausts_flight_witness :
    ∃ picked : List Seat,
      picked.length = (unassignedOf 7 exampleDB.seats).length ∧
      (assignMany exampleDB 7 [100, 101, 102, 103]).1
        = List.zipWith (fun m t => (some (markAssigned m t), none)) picked [100, 101, 102, 103]
          ++ [(none, none)] ∧
      (picked.map Seat.ID).Nodup ∧
      (∀ m ∈ picked, m ∈ exampleDB.seats ∧ m.FlightID = 7 ∧ m.Assigned = false) ∧
      (∀ x ∈ exampleDB.seats, x.FlightID = 7 → x.Assigned = false → x ∈ picked) ∧
      picked.Pairwise (fun a b => a.Row ≤ b.Row) ∧
      picked.Pairwise seatOrderLe :=
  assignMany_exhausts_flight exampleDB 7 [100, 101, 102, 103] (by decide) rfl (by decide)

/-- C4 (the code departs from it): whenever `Assign` finds a seat, the calls it makes
on the store are `Begin`, giving transaction `t`; `SelectOne` with no transaction
(`nil`); `Update` on `t`; `Commit` of `t`. The read that selects the seat is not
executed on the transaction of the write. -/
theorem Assign_selects_outside_transaction (db : DB) (now flightID : Int)
    (hwf : db.WellFormed) (hf : db.faults = Faults.none)
    (hfree : ∃ s ∈ db.seats, s.FlightID = flightID ∧ s.Assigned = false) :
    (Assign db now flightID).2.calls
      = db.calls ++ [Call.Begin db.nextTrans, Call.SelectOne none,
          Call.Update (some db.nextTrans), Call.Commit db.nextTrans] := by
  have hb : db.faults.onBegin = none := by rw [hf]; rfl
  have hs : db.faults.onSelectOne = none := by rw [hf]; rfl
  have hu : db.faults.onUpdate = none := by rw [hf]; rfl
  have hc : db.faults.onCommit = none := by rw [hf]; rfl
  obtain ⟨s, hs1, hs2, hs3⟩ := hfree
  have hsU : s ∈ unassignedOf flightID db.seats := mem_unassignedOf.mpr ⟨hs1, hs2, hs3⟩
  cases hfirst : firstByOrder (unassignedOf flightID db.seats) with
  | none =>
    rw [firstByOrder_eq_none.mp hfirst] at hsU
    simp at hsU
  | some m =>
    rw [Assign_of_first_some now flightID hb hs hu hc hwf.2 hfirst]
    rfl

/-- C4 at the example store: the select carries no transaction, the update carries
transaction 0. -/
theorem Assign_selects_outside_transaction_witness :
    (Assign exampleDB 100 7).2.calls
      = exampleDB.calls ++ [Call.Begin exampleDB.nextTrans, Call.SelectOne none,
          Call.Update (some exampleDB.nextTrans), Call.Commit exampleDB.nextTrans] :=
  Assign_selects_outside_transaction exampleDB 100 7 (by decide) rfl
    ⟨⟨1, 7, 4, SeatTypeMiddle, 2, "A", false, 10, 0⟩, by decide, rfl, rfl⟩

/-! ## Machine integers: lemmas -/

theorem wrapInt_wrapInt_add (a b : Int) : wrapInt (wrapInt a + b) = wrapInt (a + b) := by
  unfold wrapInt
  have h : (a + 2 ^ 63) % 2 ^ 64 - 2 ^ 63 + b + 2 ^ 63 = (a + 2 ^ 63) % 2 ^ 64 + b := by ring
  rw [h, Int.emod_add_emod]
  congr 2
  ring

theorem wrapInt_of_inRange {x : Int} (h1 : -(2 ^ 63) ≤ x) (h2 : x ≤ maxInt) : wrapInt x = x := by
  unfold wrapInt
  unfold maxInt at h2
  omega

/-! ## The generator: supporting lemmas -/

theorem layoutSeats_append (flightID now i : Int) (a b : List SeatType) (l c : Nat) :
    layoutSeats flightID now i (a ++ b) l c
      = layoutSeats flightID now i a l c
        ++ layoutSeats flightID now i b (l + a.length) (c + a.length) := by
  induction a generalizing l c with
  | nil => simp [layoutSeats]
  | cons ty rest ih =>
    have e1 : l + 1 + rest.length = l + (rest.length + 1) := by omega
    have e2 : c + 1 + rest.length = c + (rest.length + 1) := by omega
    rw [List.cons_append, layoutSeats, layoutSeats, ih, List.length_cons, List.cons_append,
      e1, e2]

theorem layoutSeats_length (flightID now i : Int) (types : List SeatType) (l c : Nat) :
    (layoutSeats flightID now i types l c).length = types.length := by
  induction types generalizing l c with
  | nil => rfl
  | cons ty rest ih => simp [layoutSeats, ih]

theorem loopRange_length (n : Int) : (loopRange n).length = n.toNat := by
  simp [loopRange]

theorem emitSeat_eq (flightID now i : Int) (ty : SeatType) (st : GenState) (l c : Nat)
    (hl : st.line = wrapInt l) (hc : st.index = wrapInt c) :
    emitSeat flightID now i ty st
      = { seats := st.seats ++ layoutSeats flightID now i [ty] l c
          line := wrapInt ((l + 1 : Nat) : Int)
          index := wrapInt ((c + 1 : Nat) : Int) } := by
  simp only [emitSeat, layoutSeats, genSeat, hl, hc, wrapInt_wrapInt_add, Nat.cast_add,
    Nat.cast_one]

theorem foldl_emitSeat (flightID now i : Int) (seatType : Int → SeatType) (js : List Int) :
    ∀ (st : GenState) (l c : Nat), st.line = wrapInt l → st.index = wrapInt c →
      js.foldl (fun st j => emitSeat flightID now i (seatType j) st) st
        = { seats := st.seats ++ layoutSeats flightID now i (js.map seatType) l c
            line := wrapInt ((l + js.length : Nat) : Int)
            index := wrapInt ((c + js.length : Nat) : Int) } := by
  induction js with
  | nil =>
    intro st l c hl hc
    cases st
    simp only at hl hc
    simp only [List.foldl_nil, List.map_nil, layoutSeats, List.append_nil, List.length_nil,
      Nat.add_zero, hl, hc]
  | cons j rest ih =>
    intro st l c hl hc
    rw [List.foldl_cons, emitSeat_eq flightID now i (seatType j) st l c hl hc]
    rw [ih { seats := st.seats ++ layoutSeats flightID now i [seatType j] l c
             line := wrapInt ((l + 1 : Nat) : Int)
             index := wrapInt ((c + 1 : Nat) : Int) } (l + 1) (c + 1) rfl rfl]
    have e1 : l + 1 + rest.length = l + (rest.length + 1) := by omega
    have e2 : c + 1 + rest.length = c + (rest.length + 1) := by omega
    simp only [List.map_cons, List.length_cons, layoutSeats, List.append_assoc,
      List.singleton_append, List.nil_append, e1, e2]

theorem seatLoop_eq (flightID now i : Int) (seatType : Int → SeatType) (n : Int)
    (st : GenState) (l c : Nat) (hl : st.line = wrapInt l) (hc : st.index = wrapInt c) :
    seatLoop flightID now i seatType n st
      = { seats := st.seats ++ layoutSeats flightID now i ((loopRange n).map seatType) l c
          line := wrapInt ((l + n.toNat : Nat) : Int)
          index := wrapInt ((c + n.toNat : Nat) : Int) } := by
  unfold seatLoop
  rw [foldl_emitSeat flightID now i seatType (loopRange n) st l c hl hc, loopRange_length]

theorem foldl_seatLoop_middle (flightID now i : Int) (middle : List Int) :
    ∀ (st : GenState) (l c : Nat), st.line = wrapInt l → st.index = wrapInt c →
      middle.foldl (fun st number => seatLoop flightID now i (middleType number) number st) st
        = { seats := st.seats ++ layoutSeats flightID now i
              (middle.flatMap (fun number => (loopRange number).map (middleType number))) l c
            line := wrapInt ((l + (middle.flatMap
              (fun number => (loopRange number).map (middleType number))).length : Nat) : Int)
            index := wrapInt ((c + (middle.flatMap
              (fun number => (loopRange number).map (middleType number))).length : Nat) : Int) } := by
  induction middle with
  | nil =>
    intro st l c hl hc
    cases st
    simp only at hl hc
    simp only [List.foldl_nil, List.flatMap_nil, layoutSeats, List.append_nil, List.length_nil,
      Nat.add_zero, hl, hc]
  | cons number rest ih =>
    intro st l c hl hc
    rw [List.foldl_cons, seatLoop_eq flightID now i (middleType number) number st l c hl hc]
    rw [ih { seats := st.seats ++ layoutSeats flightID now i
               ((loopRange number).map (middleType number)) l c
             line := wrapInt ((l + number.toNat : Nat) : Int)
             index := wrapInt ((c + number.toNat : Nat) : Int) }
          (l + number.toNat) (c + number.toNat) rfl rfl]
    simp only [List.flatMap_cons, layoutSeats_append, List.length_append, List.length_map,
      loopRange_length, List.append_assoc, Nat.add_assoc]

theorem Block.rowTypes_of_sides {block : Block} {n0 n1 : Int}
    (hside : block.SideSeatNumbers = [n0, n1]) :
    block.rowTypes = Booking.rowTypes n0 block.MiddleSeatNumbers n1 := by
  simp [Block.rowTypes, hside]

theorem seatLoop_mk (flightID now i : Int) (seatType : Int → SeatType) (n : Int)
    (seats : List Seat) (l c : Nat) :
    seatLoop flightID now i seatType n ⟨seats, wrapInt l, wrapInt c⟩
      = { seats := seats ++ layoutSeats flightID now i ((loopRange n).map seatType) l c
          line := wrapInt ((l + n.toNat : Nat) : Int)
          index := wrapInt ((c + n.toNat : Nat) : Int) } :=
  seatLoop_eq flightID now i seatType n ⟨seats, wrapInt l, wrapInt c⟩ l c rfl rfl

theorem foldl_seatLoop_middle_mk (flightID now i : Int) (middle : List Int)
    (seats : List Seat) (l c : Nat) :
    middle.foldl (fun st number => seatLoop flightID now i (middleType number) number st)
        ⟨seats, wrapInt l, wrapInt c⟩
      = { seats := seats ++ layoutSeats flightID now i
            (middle.flatMap (fun number => (loopRange number).map (middleType number))) l c
          line := wrapInt ((l + (middle.flatMap
            (fun number => (loopRange number).map (middleType number))).length : Nat) : Int)
          index := wrapInt ((c + (middle.flatMap
            (fun number => (loopRange number).map (middleType number))).length : Nat) : Int) } :=
  foldl_seatLoop_middle flightID now i middle ⟨seats, wrapInt l, wrapInt c⟩ l c rfl rfl

theorem rowSeats_eq (flightID now : Int) (block : Block) (i : Int) (c : Nat)
    (hside : block.SideSeatNumbers.length = 2) :
    rowSeats flightID now block i (wrapInt c)
      = some (layoutSeats flightID now i block.rowTypes 65 c,
          wrapInt ((c + block.rowTypes.length : Nat) : Int)) := by
  obtain ⟨n0, n1, hs⟩ : ∃ n0 n1, block.SideSeatNumbers = [n0, n1] := by
    match hb : block.SideSeatNumbers, hside with
    | [a, b], _ => exact ⟨a, b, rfl⟩
  have h65 : (65 : Int) = wrapInt ((65 : Nat) : Int) := by decide
  rw [Block.rowTypes_of_sides hs]
  simp only [rowSeats, hs, List.getElem?_cons_zero, List.getElem?_cons_succ]
  rw [h65, seatLoop_mk, foldl_seatLoop_middle_mk, seatLoop_mk]
  simp only [Booking.rowTypes, layoutSeats_append, List.length_append, List.length_map,
    loopRange_length, List.nil_append, List.append_assoc, Nat.add_assoc]

theorem rowsLoop_eq (flightID now : Int) (block : Block)
    (hside : block.SideSeatNumbers.length = 2) :
    ∀ (rows : List Int) (c : Nat),
      rowsLoop flightID now block rows (wrapInt c)
        = some (blockSeats flightID now block.rowTypes rows c,
            wrapInt ((c + rows.length * block.rowTypes.length : Nat) : Int)) := by
  intro rows
  induction rows with
  | nil =>
    intro c
    simp [rowsLoop, blockSeats]
  | cons i later ih =>
    intro c
    simp only [rowsLoop, rowSeats_eq flightID now block i c hside, ih, blockSeats,
      List.length_cons]
    have e : c + block.rowTypes.length + later.length * block.rowTypes.length
        = c + (later.length + 1) * block.rowTypes.length := by ring
    rw [e]

theorem blocksLoop_eq (flightID now : Int) :
    ∀ (blocks : List Block) (c : Nat), (∀ b ∈ blocks, b.SideSeatNumbers.length = 2) →
      blocksLoop flightID now blocks (wrapInt c)
        = some (flightSeats flightID now blocks c,
            wrapInt ((c + seatTotal blocks : Nat) : Int)) := by
  intro blocks
  induction blocks with
  | nil =>
    intro c _
    simp [blocksLoop, flightSeats, seatTotal]
  | cons block rest ih =>
    intro c hside
    have hb : block.SideSeatNumbers.length = 2 := hside block (List.mem_cons_self _ _)
    have hrest : ∀ b ∈ rest, b.SideSeatNumbers.length = 2 :=
      fun b hb => hside b (List.mem_cons_of_mem _ hb)
    simp only [blocksLoop, rowsLoop_eq flightID now block hb, loopRange_length]
    have e : c + block.Rows.toNat * block.rowTypes.length = c + block.seatCount := rfl
    rw [e, ih (c + block.seatCount) hrest]
    simp only [flightSeats, seatTotal, List.map_cons, List.sum_cons, Nat.add_assoc]

/-- With two side entries in every block the generation does not panic, and its seats
are those of the position-by-position layout. -/
theorem CreateSeats_eq (flightID now : Int) (blocks : List Block)
    (hside : ∀ b ∈ blocks, b.SideSeatNumbers.length = 2) :
    CreateSeats flightID now blocks = some (flightSeats flightID now blocks 0) := by
  have h0 : (0 : Int) = wrapInt ((0 : Nat) : Int) := by decide
  unfold CreateSeats
  rw [h0, blocksLoop_eq flightID now blocks 0 hside]
  rfl

/-! ## The generator: indices -/

theorem layoutSeats_index (flightID now i : Int) (types : List SeatType) :
    ∀ (l c : Nat), (layoutSeats flightID now i types l c).map Seat.Index
      = (List.range' (c + 1) types.length).map (fun (k : Nat) => wrapInt (k : Int)) := by
  induction types with
  | nil => intro l c; rfl
  | cons ty rest ih =>
    intro l c
    simp only [layoutSeats, List.map_cons, ih, List.length_cons, List.range'_succ, genSeat,
      wrapInt_wrapInt_add, Nat.cast_add, Nat.cast_one]

theorem range'_map_append (f : Nat → Int) (s m n : Nat) :
    (List.range' s m).map f ++ (List.range' (s + m) n).map f = (List.range' s (m + n)).map f := by
  rw [← List.map_append, List.range'_append_1, Nat.add_comm n m]

theorem blockSeats_index (flightID now : Int) (types : List SeatType) (rows : List Int) :
    ∀ (c : Nat), (blockSeats flightID now types rows c).map Seat.Index
      = (List.range' (c + 1) (rows.length * types.length)).map (fun (k : Nat) => wrapInt (k : Int)) := by
  induction rows with
  | nil => intro c; simp [blockSeats]
  | cons i later ih =>
    intro c
    simp only [blockSeats, List.map_append, layoutSeats_index, ih, List.length_cons]
    have e1 : c + types.length + 1 = c + 1 + types.length := by omega
    have e2 : (later.length + 1) * types.length
        = types.length + later.length * types.length := by ring
    rw [e1, range'_map_append, e2]

theorem flightSeats_index (flightID now : Int) (blocks : List Block) :
    ∀ (c : Nat), (flightSeats flightID now blocks c).map Seat.Index
      = (List.range' (c + 1) (seatTotal blocks)).map (fun (k : Nat) => wrapInt (k : Int)) := by
  induction blocks with
  | nil => intro c; simp [flightSeats, seatTotal]
  | cons block rest ih =>
    intro c
    simp only [flightSeats, List.map_append, blockSeats_index, ih, loopRange_length]
    have e1 : c + block.seatCount + 1 = c + 1 + block.seatCount := by omega
    rw [e1]
    have e2 : block.Rows.toNat * block.rowTypes.length = block.seatCount := rfl
    rw [e2, range'_map_append]
    simp [seatTotal]

theorem flightSeats_length (flightID now : Int) (blocks : List Block) (c : Nat) :
    (flightSeats flightID now blocks c).length = seatTotal blocks := by
  have h := congrArg List.length (flightSeats_index flightID now blocks c)
  simpa using h

theorem rowTypes_length (n0 : Int) (middle : List Int) (n1 : Int) :
    (rowTypes n0 middle n1).length = n0.toNat + (middle.map Int.toNat).sum + n1.toNat := by
  have hm : (middle.flatMap (fun number => (loopRange number).map (middleType number))).length
      = (middle.map Int.toNat).sum := by
    induction middle with
    | nil => rfl
    | cons number rest ih =>
      simp only [List.flatMap_cons, List.length_append, List.length_map, loopRange_length, ih,
        List.map_cons, List.sum_cons]
  simp only [rowTypes, List.length_append, List.length_map, loopRange_length, hm]

theorem sum_map_toNat {l : List Int} (h : ∀ n ∈ l, 0 ≤ n) :
    (((l.map Int.toNat).sum : Nat) : Int) = l.sum := by
  induction l with
  | nil => rfl
  | cons a rest ih =>
    have ha : 0 ≤ a := h a (List.mem_cons_self _ _)
    have hr := ih (fun n hn => h n (List.mem_cons_of_mem _ hn))
    simp only [List.map_cons, List.sum_cons, Nat.cast_add, hr, Int.toNat_of_nonneg ha]

/-- With no negative count, the number of seats generated is the sum over blocks of
`rows * (side[0] + side[1] + sum(middle))`. -/
theorem seatTotal_eq_claimedTotal {blocks : List Block}
    (hside : ∀ b ∈ blocks, b.SideSeatNumbers.length = 2)
    (hpos : ∀ b ∈ blocks, 0 ≤ b.Rows ∧ (∀ n ∈ b.SideSeatNumbers, 0 ≤ n) ∧
      ∀ n ∈ b.MiddleSeatNumbers, 0 ≤ n) :
    ((seatTotal blocks : Nat) : Int) = claimedTotal blocks := by
  induction blocks with
  | nil => rfl
  | cons block rest ih =>
    have hb := hpos block (List.mem_cons_self _ _)
    have hs := hside block (List.mem_cons_self _ _)
    have hr := ih (fun b hb => hside b (List.mem_cons_of_mem _ hb))
      (fun b hb => hpos b (List.mem_cons_of_mem _ hb))
    obtain ⟨n0, n1, hsn⟩ : ∃ n0 n1, block.SideSeatNumbers = [n0, n1] := by
      match hh : block.SideSeatNumbers, hs with
      | [a, b], _ => exact ⟨a, b, rfl⟩
    have h0 : 0 ≤ n0 := hb.2.1 n0 (by simp [hsn])
    have h1 : 0 ≤ n1 := hb.2.1 n1 (by simp [hsn])
    have hm := sum_map_toNat hb.2.2
    unfold seatTotal claimedTotal at *
    simp only [List.map_cons, List.sum_cons, Nat.cast_add, hr]
    congr 1
    simp only [Block.seatCount, Block.rowTypes_of_sides hsn, rowTypes_length, hsn,
      Nat.cast_mul, Nat.cast_add, Int.toNat_of_nonneg hb.1, Int.toNat_of_nonneg h0,
      Int.toNat_of_nonneg h1, hm, List.getD_cons_zero, List.getD_cons_succ]
    ring

theorem map_wrapInt_range' (s n : Nat) (h : ((s + n : Nat) : Int) ≤ maxInt + 1) :
    (List.range' s n).map (fun (k : Nat) => wrapInt (k : Int)) = (List.range' s n).map Int.ofNat := by
  apply List.map_congr_left
  intro k hk
  rw [List.mem_range'_1] at hk
  apply wrapInt_of_inRange
  · have : (0 : Int) ≤ k := Int.ofNat_nonneg k
    omega
  · have : (k : Int) < ((s + n : Nat) : Int) := by exact_mod_cast hk.2
    omega

/-- C5, as stated, fails: for the single block with one row, side entries `[-1, 2]`
and no middle group (two side entries), the sum `rows * (side[0] + side[1] + sum(middle))`
is 1, while the seats generated carry the indices 1 and 2. -/
theorem CreateSeats_indices_claim_fails :
    (∀ b ∈ negativeSideBlocks, b.SideSeatNumbers.length = 2) ∧
      claimedTotal negativeSideBlocks = 1 ∧
      (CreateSeats 1 0 negativeSideBlocks).map (List.map Seat.Index) = some [1, 2] ∧
      (CreateSeats 1 0 negativeSideBlocks).map (List.map Seat.Index)
        ≠ some ((List.range' 1 (claimedTotal negativeSideBlocks).toNat).map Int.ofNat) := by
  decide

/-- C5, amended: for every list of blocks each having exactly two side entries, the
seats generated carry, in generation order, the indices 1, 2, ..., N with no gap and no
repeat, where N is the sum over blocks of rows times seats per row with every count
below zero taken as zero, provided N fits the machine integer; N is the sum over blocks
of `rows * (side[0] + side[1] + sum(middle))` whenever no count is negative. The
counter runs through rows and blocks without a reset. -/
theorem CreateSeats_indices (flightID now : Int) (blocks : List Block)
    (hside : ∀ b ∈ blocks, b.SideSeatNumbers.length = 2)
    (hfit : ((seatTotal blocks : Nat) : Int) ≤ maxInt) :
    ∃ seats, CreateSeats flightID now blocks = some seats ∧
      seats.length = seatTotal blocks ∧
      seats.map Seat.Index = (List.range' 1 (seatTotal blocks)).map Int.ofNat ∧
      ((∀ b ∈ blocks, 0 ≤ b.Rows ∧ (∀ n ∈ b.SideSeatNumbers, 0 ≤ n) ∧
          ∀ n ∈ b.MiddleSeatNumbers, 0 ≤ n) →
        ((seatTotal blocks : Nat) : Int) = claimedTotal blocks) := by
  refine ⟨flightSeats flightID now blocks 0, CreateSeats_eq flightID now blocks hside,
    flightSeats_length flightID now blocks 0, ?_, seatTotal_eq_claimedTotal hside⟩
  rw [flightSeats_index]
  apply map_wrapInt_range'
  push_cast
  omega

/-- C5 amended, at two blocks with 2 * 10 + 1 * 3 = 23 seats. -/
theorem CreateSeats_indices_witness :
    ∃ seats, CreateSeats 1 0 exampleBlocks = some seats ∧
      seats.length = seatTotal exampleBlocks ∧
      seats.map Seat.Index = (List.range' 1 (seatTotal exampleBlocks)).map Int.ofNat ∧
      ((seatTotal exampleBlocks : Nat) : Int) = claimedTotal exampleBlocks := by
  obtain ⟨seats, h1, h2, h3, h4⟩ :=
    CreateSeats_indices 1 0 exampleBlocks (by decide) (by decide)
  exact ⟨seats, h1, h2, h3, h4 (by decide)⟩

/-! ## The generator: seat types -/

theorem firstSide_eq_spec (n : Int) :
    (loopRange n).map (firstSideType n) = specFirstSide n.toNat := by
  unfold loopRange specFirstSide
  rw [List.map_map]
  apply List.map_congr_left
  intro j hj
  rw [List.mem_range] at hj
  have h1 : ((j : Int) = n - 1) ↔ (j = n.toNat - 1) := by omega
  have h2 : ((j : Int) = 0) ↔ (j = 0) := by omega
  simp only [Function.comp_apply, firstSideType, Int.ofNat_eq_coe, h1, h2]

theorem middleGroup_eq_spec (n : Int) :
    (loopRange n).map (middleType n) = specMiddleGroup n.toNat := by
  unfold loopRange specMiddleGroup
  rw [List.map_map]
  apply List.map_congr_left
  intro j hj
  rw [List.mem_range] at hj
  have h1 : ((j : Int) = n - 1) ↔ (j = n.toNat - 1) := by omega
  have h2 : ((j : Int) = 0) ↔ (j = 0) := by omega
  simp only [Function.comp_apply, middleType, Int.ofNat_eq_coe, h1, h2]

theorem secondSide_eq_spec (n : Int) :
    (loopRange n).map (secondSideType n) = specSecondSide n.toNat := by
  unfold loopRange specSecondSide
  rw [List.map_map]
  apply List.map_congr_left
  intro j hj
  rw [List.mem_range] at hj
  have h1 : ((j : Int) = n - 1) ↔ (j = n.toNat - 1) := by omega
  have h2 : ((j : Int) = 0) ↔ (j = 0) := by omega
  simp only [Function.comp_apply, secondSideType, Int.ofNat_eq_coe, h1, h2]

theorem rowTypes_eq_spec (block : Block) : block.rowTypes = specRowTypes block := by
  unfold Block.rowTypes rowTypes specRowTypes
  rw [firstSide_eq_spec, secondSide_eq_spec]
  congr 2
  apply List.flatMap_congr
  intro number _
  exact middleGroup_eq_spec number

theorem layoutSeats_rowType (flightID now i : Int) (types : List SeatType) :
    ∀ (l c : Nat), (layoutSeats flightID now i types l c).map (fun s => (s.Row, s.Typ))
      = types.map (fun ty => (i + 1, ty)) := by
  induction types with
  | nil => intro l c; rfl
  | cons ty rest ih =>
    intro l c
    simp only [layoutSeats, List.map_cons, ih, genSeat]

theorem blockSeats_rowType (flightID now : Int) (types : List SeatType) (rows : List Int) :
    ∀ (c : Nat), (blockSeats flightID now types rows c).map (fun s => (s.Row, s.Typ))
      = rows.flatMap (fun i => types.map (fun ty => (i + 1, ty))) := by
  induction rows with
  | nil => intro c; rfl
  | cons i later ih =>
    intro c
    simp only [blockSeats, List.map_append, layoutSeats_rowType, ih, List.flatMap_cons]

theorem flightSeats_rowType (flightID now : Int) (blocks : List Block) :
    ∀ (c : Nat), (flightSeats flightID now blocks c).map (fun s => (s.Row, s.Typ))
      = specFlightTypes blocks := by
  induction blocks with
  | nil => intro c; rfl
  | cons block rest ih =>
    intro c
    unfold specFlightTypes at ih ⊢
    simp only [flightSeats, List.map_append, blockSeats_rowType, ih, List.flatMap_cons,
      rowTypes_eq_spec, loopRange, List.flatMap_map, Int.ofNat_eq_coe]

/-- C7: the seat types of every generated row follow the reference rule: with two side
entries in every block, the row numbers and types of the generated seats, in order, are
those of the rule (first side group: position n-1 Aisle, else position 0 Window, else
Middle; each middle group: positions 0 and n-1 Aisle, others Middle; second side group:
position 0 Aisle, else position n-1 Window, else Middle). A block with side counts
[1, 1] and one middle group of size 1 has exactly 3 seats per row, all Aisle. -/
theorem CreateSeats_types (flightID now : Int) (blocks : List Block)
    (hside : ∀ b ∈ blocks, b.SideSeatNumbers.length = 2) :
    ∃ seats, CreateSeats flightID now blocks = some seats ∧
      seats.map (fun s => (s.Row, s.Typ)) = specFlightTypes blocks ∧
      ∀ b ∈ blocks, b.SideSeatNumbers = [1, 1] → b.MiddleSeatNumbers = [1] →
        specRowTypes b = [SeatTypeAisle, SeatTypeAisle, SeatTypeAisle] := by
  refine ⟨flightSeats flightID now blocks 0, CreateSeats_eq flightID now blocks hside,
    flightSeats_rowType flightID now blocks 0, ?_⟩
  intro b _ hs hm
  simp only [specRowTypes, hs, hm]
  decide

/-- C7 at a flight whose second block has side counts [1, 1] and one middle group of
size 1: in its single row the three seats are Aisle. -/
theorem CreateSeats_types_witness :
    ∃ seats, CreateSeats 1 0 exampleBlocks = some seats ∧
      seats.map (fun s => (s.Row, s.Typ)) = specFlightTypes exampleBlocks ∧
      specRowTypes ⟨0, 0, 1, [1, 1], [1]⟩ = [SeatTypeAisle, SeatTypeAisle, SeatTypeAisle] := by
  obtain ⟨seats, h1, h2, h3⟩ := CreateSeats_types 1 0 exampleBlocks (by decide)
  exact ⟨seats, h1, h2, h3 ⟨0, 0, 1, [1, 1], [1]⟩ (by decide) rfl rfl⟩

/-! ## The validators on sums that leave the range of `int` -/

/-- C9 (the code departs from it): for the block `overflowBlock`, with `rows = 1` and
the two positive side entries `9223372036854775807`, the sum of the entries exceeds 20,
yet `Block.Validate` returns no error: `seat_number.TooLarge` is missing. -/
theorem Block_Validate_accepts_large_sum :
    overflowBlock.Validate = [] ∧
      0 < overflowBlock.Rows ∧ overflowBlock.SideSeatNumbers.length = 2 ∧
      (∀ n ∈ overflowBlock.SideSeatNumbers, 0 < n ∧ n ≤ maxInt) ∧
      maxLines < overflowBlock.SideSeatNumbers.sum + overflowBlock.MiddleSeatNumbers.sum := by
  decide

/-- C10 (the code departs from it): the flight `manyRowsFlight`, four blocks of
`4611686018427387904` rows each, is accepted by `FlightCreate.Validate`, yet the sum of
its rows is `2 ^ 64`, above 200. -/
theorem FlightCreate_Validate_accepts_many_rows :
    manyRowsFlight.Validate = [] ∧
      (∀ b ∈ manyRowsFlight.Blocks, 0 < b.Rows ∧ b.Rows ≤ maxInt) ∧
      (manyRowsFlight.Blocks.map Block.Rows).sum = 2 ^ 64 ∧
      maxRows < (manyRowsFlight.Blocks.map Block.Rows).sum := by
  decide

/-- C11 (the code departs from it): `FlightCreate.Validate` accepts `overflowFlight`,
whose block has 18446744073709551614 seats per row (above 20) and whose seat total
`rows * (side[0] + side[1] + sum(middle))` is above 4000; it also accepts
`manyRowsFlight`, whose blocks have 2 seats per row but whose seat total is `2 ^ 65`. -/
theorem Validate_accepts_seat_total_beyond_cap :
    overflowFlight.Validate = [] ∧
      maxRows * maxLines = 4000 ∧
      (∀ b ∈ overflowFlight.Blocks,
        b.SideSeatNumbers.getD 0 0 + b.SideSeatNumbers.getD 1 0 + b.MiddleSeatNumbers.sum
          = 18446744073709551614) ∧
      claimedTotal overflowFlight.Blocks = 18446744073709551614 ∧
      manyRowsFlight.Validate = [] ∧
      claimedTotal manyRowsFlight.Blocks = 2 ^ 65 := by
  decide

/-- C17 (the code departs from it): `Seat.Verify` accepts the tag `-` of the field
`FlightID`, and `Flight.Verify` accepts the empty name (the field `Blocks` has no
`query` tag), so the sort values `-:asc` and `:asc` are compiled instead of being
refused with `sort.UnknownField`; `GetAllSearchTags` leaves both names out. -/
theorem Verify_accepts_dash_and_empty :
    Seat.Verify "-" = true ∧
      GetSorting seatSortChecker ["-:asc"] = ((" ORDER BY - ASC" : GoString), []) ∧
      Flight.Verify "" = true ∧
      GetSorting flightSortChecker [":asc"] = ((" ORDER BY  ASC" : GoString), []) ∧
      Seat.GetAllFields
        = ["id", "index", "type", "row", "line", "assigned", "created_at", "updated_at"] ∧
      Flight.GetAllFields = ["id", "name", "created_at"] := by
  decide

/-! ## The query helpers: library lemmas -/

@[simp] theorem gostr_empty : gostr "" = [] := by decide

theorem QueryUnescape_of_plain (s : GoString) (h : ∀ c ∈ s, c ≠ 37 ∧ c ≠ 43) :
    QueryUnescape s = some s := by
  induction s with
  | nil => rfl
  | cons c rest ih =>
    have hc := h c (List.mem_cons_self _ _)
    have hr := ih (fun d hd => h d (List.mem_cons_of_mem _ hd))
    unfold QueryUnescape
    simp only [hc.1, hc.2, if_false, hr, Option.map_some']

theorem parseDigits_of_allDigits (s : GoString) (h : allDigits s) (acc : Nat) :
    parseDigits s acc = some (s.foldl (fun a c => a * 10 + (c - 48)) acc) := by
  induction s generalizing acc with
  | nil => rfl
  | cons c rest ih =>
    have hc := h c (List.mem_cons_self _ _)
    have hr := ih (fun d hd => h d (List.mem_cons_of_mem _ hd)) (acc * 10 + (c - 48))
    rw [parseDigits, if_pos hc, hr, List.foldl_cons]

theorem ParseInt_of_smallNatural (s : GoString) (hne : s ≠ []) (h : smallNatural s) :
    ParseInt s 64 = some (decimalValue s : Int) := by
  cases s with
  | nil => exact absurd rfl hne
  | cons c rest =>
    have hc := h.1 c (List.mem_cons_self _ _)
    have h43 : c ≠ 43 := by omega
    have h45 : c ≠ 45 := by omega
    have hlt : ¬ (2 ^ 63 ≤ decimalValue (c :: rest)) := by
      have := h.2
      omega
    have hp := parseDigits_of_allDigits (c :: rest) h.1 0
    simp only [ParseInt, h43, h45, or_self, if_false, hp, decide_False, Bool.false_eq_true,
      not_false_eq_true, true_and, false_and, reduceCtorEq]
    have hv := h.2
    simp only [decimalValue, List.foldl_cons, Nat.zero_mul, Nat.zero_add] at hv hlt ⊢
    simp only [hlt, if_false]

theorem formatInt_natCast (n : Nat) : formatInt (n : Int) = formatNat n := by
  unfold formatInt
  have h : ¬ ((n : Int) < 0) := by omega
  rw [if_neg h, Int.natAbs_ofNat]

theorem limitationField_of_smallNatural (name message s : GoString) (h : smallNatural s) :
    limitationField name message s = .ok (decimalValue s : Int) := by
  have hplain : ∀ c ∈ s, c ≠ 37 ∧ c ≠ 43 := by
    intro c hc
    have := h.1 c hc
    omega
  unfold limitationField
  rw [QueryUnescape_of_plain s hplain]
  by_cases hne : s = []
  · subst hne
    rfl
  · have hnn : ¬ ((decimalValue s : Int) < 0) := by omega
    simp only [ne_eq, hne, not_false_eq_true, if_true, ParseInt_of_smallNatural s hne h, hnn,
      if_false]

/-! ## The query helpers: `GetLimitation` -/

/-- C12, as stated, fails: the offset `9223372036854775808` is a non-negative base-10
integer (digits only), yet `GetLimitation` returns the error `offset.Invalid` and no
string. -/
theorem GetLimitation_rejects_large_offset :
    allDigits ("9223372036854775808" : GoString) ∧
      GetLimitation "9223372036854775808" ""
        = (("" : GoString), [⟨"offset.Invalid", "Offset is not integer", "offset"⟩]) := by
  decide

/-- C12, amended: for every request in which offset and limit are each absent/empty or
a non-negative base-10 integer below `2 ^ 63`, `GetLimitation` returns no errors and
the string ` LIMIT o, c` where `o` is the offset (0 when absent) and `c` is the limit
when it is greater than zero and 100 when the limit is absent or zero; `c` is positive. -/
theorem GetLimitation_success (offset limit : GoString)
    (ho : smallNatural offset) (hl : smallNatural limit) :
    GetLimitation offset limit
        = ((" LIMIT " : GoString) ++ formatNat (decimalValue offset) ++ ", "
            ++ formatNat (if 0 < decimalValue limit then decimalValue limit else 100), []) ∧
      0 < (if 0 < decimalValue limit then decimalValue limit else 100) := by
  constructor
  · unfold GetLimitation
    rw [limitationField_of_smallNatural _ _ offset ho,
      limitationField_of_smallNatural _ _ limit hl]
    by_cases hpos : 0 < decimalValue limit
    · have hpos2 : ((decimalValue limit : Nat) : Int) > 0 := by omega
      simp only [hpos2, hpos, if_true, formatInt_natCast]
    · have hpos2 : ¬ (((decimalValue limit : Nat) : Int) > 0) := by omega
      simp only [hpos2, hpos, if_false, formatInt_natCast]
      rfl
  · split <;> omega

/-- C12 amended, at the requests of the tests: `offset=5&limit=10` and no parameter. -/
theorem GetLimitation_success_witness :
    GetLimitation "5" "10" = ((" LIMIT 5, 10" : GoString), []) ∧
      GetLimitation "" "" = ((" LIMIT 0, 100" : GoString), []) := by
  have h1 := (GetLimitation_success "5" "10" (by decide) (by decide)).1
  have h2 := (GetLimitation_success "" "" (by decide) (by decide)).1
  exact ⟨h1.trans (by decide), h2.trans (by decide)⟩

theorem allDigits_cons (c : Nat) (rest : GoString) :
    allDigits (c :: rest) ↔ (48 ≤ c ∧ c ≤ 57) ∧ allDigits rest := by
  simp [allDigits]

theorem parseDigits_eq (s : GoString) (acc : Nat) :
    parseDigits s acc
      = if allDigits s then some (s.foldl (fun a c => a * 10 + (c - 48)) acc) else none := by
  induction s generalizing acc with
  | nil => simp [parseDigits, allDigits]
  | cons c rest ih =>
    by_cases hc : 48 ≤ c ∧ c ≤ 57
    · rw [parseDigits, if_pos hc, ih]
      by_cases hr : allDigits rest
      · have hall : allDigits (c :: rest) := (allDigits_cons c rest).mpr ⟨hc, hr⟩
        rw [if_pos hr, if_pos hall, List.foldl_cons]
      · have hall : ¬ allDigits (c :: rest) := fun h => hr ((allDigits_cons c rest).mp h).2
        rw [if_neg hr, if_neg hall]
    · have hall : ¬ allDigits (c :: rest) := fun h => hc ((allDigits_cons c rest).mp h).1
      rw [parseDigits, if_neg hc, if_neg hall]

theorem decimalValue_eq (s : GoString) :
    s.foldl (fun a c => a * 10 + (c - 48)) 0 = decimalValue s := rfl

/-- The function `strconv.ParseInt` succeeds exactly on the base-10 literals of the
signed range of `bitSize` bits, with the value of the literal. -/
theorem ParseInt_eq (s : GoString) (bitSize : Nat) :
    ParseInt s bitSize = if isIntOfSize bitSize s then some (literalValue s) else none := by
  have hcut : (0 : Int) < 2 ^ (bitSize - 1) := by positivity
  cases s with
  | nil => simp [ParseInt, isIntOfSize, isIntLiteral]
  | cons c rest =>
    by_cases h45 : c = 45
    · subst h45
      by_cases hnil : rest = []
      · subst hnil
        simp [ParseInt, isIntOfSize, isIntLiteral]
      · by_cases hd : allDigits rest
        · by_cases hr : decimalValue rest > 2 ^ (bitSize - 1)
          · have hno : ¬ isIntOfSize bitSize (45 :: rest) := by
              intro h
              have h2 := h.2.1
              simp only [literalValue, if_true] at h2
              have : ((decimalValue rest : Nat) : Int) > 2 ^ (bitSize - 1) := by exact_mod_cast hr
              omega
            simp [ParseInt, hnil, parseDigits_eq, hd, decimalValue_eq, hr, hno]
          · have hyes : isIntOfSize bitSize (45 :: rest) := by
              refine ⟨?_, ?_, ?_⟩
              · simp [isIntLiteral, hnil, hd]
              · simp only [literalValue, if_true]
                have : ((decimalValue rest : Nat) : Int) ≤ 2 ^ (bitSize - 1) := by
                  exact_mod_cast (not_lt.mp hr)
                omega
              · simp only [literalValue, if_true]
                have : (0 : Int) ≤ (decimalValue rest : Nat) := Int.ofNat_nonneg _
                omega
            simp [ParseInt, hnil, parseDigits_eq, hd, decimalValue_eq, hr, hyes, literalValue]
        · have hno : ¬ isIntOfSize bitSize (45 :: rest) := by
            intro h
            have h1 := h.1
            simp only [isIntLiteral, or_true, if_true] at h1
            exact hd h1.2
          simp [ParseInt, hnil, parseDigits_eq, hd, hno]
    · by_cases h43 : c = 43
      · subst h43
        by_cases hnil : rest = []
        · subst hnil
          simp [ParseInt, isIntOfSize, isIntLiteral]
        · by_cases hd : allDigits rest
          · by_cases hr : decimalValue rest ≥ 2 ^ (bitSize - 1)
            · have hno : ¬ isIntOfSize bitSize (43 :: rest) := by
                intro h
                have h2 := h.2.2
                simp only [literalValue] at h2
                norm_num at h2
                have : ((decimalValue rest : Nat) : Int) ≥ 2 ^ (bitSize - 1) := by
                  exact_mod_cast hr
                omega
              simp [ParseInt, hnil, parseDigits_eq, hd, decimalValue_eq, hr, hno]
            · have hyes : isIntOfSize bitSize (43 :: rest) := by
                refine ⟨?_, ?_, ?_⟩
                · simp [isIntLiteral, hnil, hd]
                · simp only [literalValue]
                  norm_num
                  have : (0 : Int) ≤ (decimalValue rest : Nat) := Int.ofNat_nonneg _
                  omega
                · simp only [literalValue]
                  norm_num
                  exact_mod_cast (not_le.mp hr)
              simp [ParseInt, hnil, parseDigits_eq, hd, decimalValue_eq, hr, hyes, literalValue]
          · have hno : ¬ isIntOfSize bitSize (43 :: rest) := by
              intro h
              have h1 := h.1
              simp only [isIntLiteral, true_or, if_true] at h1
              exact hd h1.2
            simp [ParseInt, hnil, parseDigits_eq, hd, hno]
      · by_cases hd : allDigits (c :: rest)
        · by_cases hr : decimalValue (c :: rest) ≥ 2 ^ (bitSize - 1)
          · have hno : ¬ isIntOfSize bitSize (c :: rest) := by
              intro h
              have h2 := h.2.2
              simp only [literalValue, h45, h43, if_false] at h2
              have : ((decimalValue (c :: rest) : Nat) : Int) ≥ 2 ^ (bitSize - 1) := by
                exact_mod_cast hr
              omega
            simp [ParseInt, h45, h43, parseDigits_eq, hd, decimalValue_eq, hr, hno]
            simpa [decimalValue] using hr
          · have hyes : isIntOfSize bitSize (c :: rest) := by
              refine ⟨?_, ?_, ?_⟩
              · simp [isIntLiteral, h45, h43, hd]
              · simp only [literalValue, h45, h43, if_false]
                have : (0 : Int) ≤ (decimalValue (c :: rest) : Nat) := Int.ofNat_nonneg _
                omega
              · simp only [literalValue, h45, h43, if_false]
                exact_mod_cast (not_le.mp hr)
            simp [ParseInt, h45, h43, parseDigits_eq, hd, decimalValue_eq, hr, hyes,
              literalValue]
            refine ⟨?_, ?_⟩
            · simpa [decimalValue] using hr
            · simp [decimalValue]
        · have hno : ¬ isIntOfSize bitSize (c :: rest) := by
            intro h
            have h1 := h.1
            simp only [isIntLiteral, h45, h43, or_self, if_false] at h1
            exact hd h1
          simp [ParseInt, h45, h43, parseDigits_eq, hd, hno]

theorem limitationField_eq (name message data : GoString) :
    limitationField name message data
      = match limitFault data with
        | some k => .error [limitError name message k]
        | none =>
          .ok (match QueryUnescape data with
            | some value => if value = [] then 0 else literalValue value
            | none => 0) := by
  unfold limitationField limitFault
  cases hq : QueryUnescape data with
  | none => rfl
  | some value =>
    by_cases hv : value = []
    · simp [hv]
    · by_cases hi : isIntOfSize 64 value
      · by_cases hn : literalValue value < 0
        · simp [hv, ParseInt_eq, hi, hn, limitError]
        · simp [hv, ParseInt_eq, hi, hn]
      · simp [hv, ParseInt_eq, hi, limitError]

/-- C13, as stated, fails: the offset `-9223372036854775809` is a negative base-10
integer, yet the error is `offset.Invalid`, not `offset.Negative`. -/
theorem GetLimitation_large_negative_is_invalid :
    isIntLiteral ("-9223372036854775809" : GoString) ∧
      literalValue ("-9223372036854775809" : GoString) < 0 ∧
      GetLimitation "-9223372036854775809" ""
        = (("" : GoString), [⟨"offset.Invalid", "Offset is not integer", "offset"⟩]) := by
  decide

/-- C13, amended: `GetLimitation` checks offset first and then limit and fails at the
first of them that has a fault, with the single error of that fault and no string: a
value that cannot be URL-unescaped gives `<field>.Bad`, a non-empty value that is not a
base-10 integer of the signed 64-bit range gives `<field>.Invalid`, and a negative
integer of that range gives `<field>.Negative`; with no fault there is no error. So
when both are bad the error is the offset's; `offset=-1` gives `offset.Negative` and
`offset=a` gives `offset.Invalid`. -/
theorem GetLimitation_first_fault (offset limit : GoString) :
    (match limitFault offset, limitFault limit with
      | some k, _ =>
        GetLimitation offset limit = (("" : GoString), [limitError "offset" "Offset" k])
      | none, some k =>
        GetLimitation offset limit = (("" : GoString), [limitError "limit" "Limit" k])
      | none, none => (GetLimitation offset limit).2 = []) ∧
      (GetLimitation "-1" "1").2.map Error.Code = ["offset.Negative"] ∧
      (GetLimitation "a" "1").2.map Error.Code = ["offset.Invalid"] ∧
      (GetLimitation "a" "-1").2.map Error.Code = ["offset.Invalid"] := by
  refine ⟨?_, by decide, by decide, by decide⟩
  unfold GetLimitation
  rw [limitationField_eq, limitationField_eq]
  cases ho : limitFault offset with
  | some k => rfl
  | none =>
    cases hl : limitFault limit with
    | some k => rfl
    | none =>
      simp only
      split <;> rfl

/-! ## The query helpers: `GetSorting` -/

theorem sortingLoop_cons (checker : SortFieldChecker) (order : GoString)
    (rest : List GoString) (sorts : List OrderExp) :
    sortingLoop checker (order :: rest) sorts
      = match sortFault checker order with
        | some err => .error [err]
        | none => sortingLoop checker rest (sorts ++ sortExp order) := by
  rw [sortingLoop]
  unfold sortFault sortExp
  cases hq : QueryUnescape order with
  | none => rfl
  | some element =>
    by_cases he : element = []
    · simp [he]
    · simp only [he, if_false]
      match hs : Split delimiter element with
      | [] => simp
      | [a] => simp
      | [fieldElement, orderElement] =>
        by_cases hv : checker.Verify fieldElement = true
        · by_cases ho : ToLower orderElement ≠ "asc" ∧ ToLower orderElement ≠ "desc"
          · simp [hv, ho]
          · simp [hv, ho]
        · simp [hv]
      | a :: b :: c :: more => simp

theorem sortingLoop_eq (checker : SortFieldChecker) (orders : List GoString) :
    ∀ sorts : List OrderExp,
      sortingLoop checker orders sorts
        = match orders.findSome? (sortFault checker) with
          | some err => .error [err]
          | none => .ok (sorts ++ orders.flatMap sortExp) := by
  induction orders with
  | nil => intro sorts; simp [sortingLoop]
  | cons order rest ih =>
    intro sorts
    rw [sortingLoop_cons]
    cases hf : sortFault checker order with
    | some err => simp [List.findSome?, hf]
    | none =>
      simp only [List.findSome?, hf, ih, List.flatMap_cons]
      cases List.findSome? (sortFault checker) rest with
      | some err => rfl
      | none => simp

theorem findSome?_eq_none_iff_forall {α β : Type} (f : α → Option β) (l : List α) :
    l.findSome? f = none ↔ ∀ v ∈ l, f v = none := by
  induction l with
  | nil => simp
  | cons a rest ih =>
    cases ha : f a with
    | none => simp [List.findSome?, ha, ih]
    | some b => simp [List.findSome?, ha]

/-- C16, as stated, fails: the sort value `%` is not empty and splitting it on `:`
gives one part, yet the error is `sort.Bad`, not `sort.WrongLength`. -/
theorem GetSorting_unescape_error_first :
    Split delimiter "%" = [("%" : GoString)] ∧
      GetSorting seatSortChecker ["%"]
        = (("" : GoString), [⟨"sort.Bad", "Sort can't be unescaped", "sort"⟩]) := by
  decide

/-- C16, amended: for any sort-field checker, `GetSorting` fails on the first sort
value, in client order, that has a fault, with the single error of that fault and no
string: `sort.Bad` when the value cannot be URL-unescaped, otherwise (for a non-empty
unescaped value) `sort.WrongLength` when splitting on `:` does not give exactly two
parts, otherwise `sort.UnknownField` when the checker rejects the field part, otherwise
`sort.UnknownOrder` when the direction is not `asc` or `desc` ignoring case; it
succeeds exactly when no value has a fault. -/
theorem GetSorting_first_fault (checker : SortFieldChecker) (orders : List GoString) :
    (match orders.findSome? (sortFault checker) with
      | some err => GetSorting checker orders = (("" : GoString), [err])
      | none => (GetSorting checker orders).2 = []) ∧
      ((GetSorting checker orders).2 = [] ↔ ∀ v ∈ orders, sortFault checker v = none) := by
  have hloop := sortingLoop_eq checker orders []
  have hiff := findSome?_eq_none_iff_forall (sortFault checker) orders
  unfold GetSorting
  rw [hloop]
  cases hf : orders.findSome? (sortFault checker) with
  | some err =>
    refine ⟨rfl, ?_⟩
    rw [hf] at hiff
    simp only [List.cons_ne_self, false_iff, reduceCtorEq] at hiff ⊢
    exact hiff
  | none =>
    rw [hf] at hiff
    have hall := hiff.mp rfl
    simp only [true_iff] at hiff
    constructor
    · simp only
      split <;> rfl
    · constructor
      · intro _
        exact hall
      · intro _
        simp only
        split <;> rfl

/-! ## Letter case -/

theorem ToLower_cons_cases (c : Nat) (rest : GoString) :
    ToLower (c :: rest) = lowerByte c :: ToLower rest
      ∨ (∃ r, ToLower (c :: rest) = 105 :: r) ∨ (∃ r, ToLower (c :: rest) = 107 :: r) := by
  cases rest with
  | nil => left; simp [ToLower]
  | cons d rest2 =>
    cases rest2 with
    | nil =>
      by_cases h : c = 0xC4 ∧ d = 0xB0
      · right; left
        exact ⟨[], by simp [ToLower, h]⟩
      · left
        simp [ToLower, h]
    | cons e rest3 =>
      by_cases h : c = 0xC4 ∧ d = 0xB0
      · right; left
        exact ⟨ToLower (e :: rest3), by simp [ToLower, h]⟩
      · by_cases h2 : c = 0xE2 ∧ d = 0x84 ∧ e = 0xAA
        · right; right
          exact ⟨ToLower rest3, by rw [ToLower, if_neg h, if_pos h2]⟩
        · left
          rw [ToLower, if_neg h, if_neg h2]

/-- A text whose lower case has no `i` and no `k` is lowered byte by byte. -/
theorem ToLower_eq_map (s : GoString) :
    ∀ t : GoString, ToLower s = t → (∀ b ∈ t, b ≠ 105 ∧ b ≠ 107) → s.map lowerByte = t := by
  induction s with
  | nil =>
    intro t h _
    rw [← h]
    rfl
  | cons c rest ih =>
    intro t h hplain
    rcases ToLower_cons_cases c rest with h1 | ⟨r, h1⟩ | ⟨r, h1⟩
    · rw [h1] at h
      subst h
      have hr := ih (ToLower rest) rfl (fun b hb => hplain b (List.mem_cons_of_mem _ hb))
      rw [List.map_cons, hr]
    · rw [h1] at h
      subst h
      exact absurd rfl (hplain 105 (List.mem_cons_self _ _)).1
    · rw [h1] at h
      subst h
      exact absurd rfl (hplain 107 (List.mem_cons_self _ _)).2

theorem length_eq_four {α : Type} {l : List α} (h : l.length = 4) :
    ∃ a b c d, l = [a, b, c, d] := by
  match l, h with
  | [a, b, c, d], _ => exact ⟨a, b, c, d, rfl⟩

theorem lowerByte_eq (c b : Nat) (h : lowerByte c = b) (_hb : 97 ≤ b ∧ b ≤ 122) :
    c = b ∨ c + 32 = b := by
  unfold lowerByte at h
  split at h <;> omega

/-- A direction that is `asc` or `desc` ignoring letter case contains none of the
bytes `:`, `%`, `+`, and its upper case is exactly `ASC` or `DESC`. -/
theorem direction_facts (dir : GoString)
    (h : ToLower dir = "asc" ∨ ToLower dir = "desc") :
    (∀ c ∈ dir, c ≠ 58 ∧ c ≠ 37 ∧ c ≠ 43) ∧
      ToUpper dir = (if ToLower dir = "asc" then ("ASC" : GoString) else "DESC") := by
  have hasc : ("asc" : GoString) = [97, 115, 99] := by decide
  have hdesc : ("desc" : GoString) = [100, 101, 115, 99] := by decide
  rcases h with h | h
  · have hmap := ToLower_eq_map dir _ h (by decide)
    rw [h, if_pos rfl]
    rw [hasc] at hmap
    have hlen : dir.length = 3 := by
      have := congrArg List.length hmap
      simpa using this
    obtain ⟨a, b, c, rfl⟩ := List.length_eq_three.mp hlen
    · simp only [List.map_cons, List.map_nil, List.cons.injEq, and_true] at hmap
      obtain ⟨ha, hb, hc⟩ := hmap
      have ha2 := lowerByte_eq a 97 ha (by omega)
      have hb2 := lowerByte_eq b 115 hb (by omega)
      have hc2 := lowerByte_eq c 99 hc (by omega)
      have ha3 : a = 97 ∨ a = 65 := by omega
      have hb3 : b = 115 ∨ b = 83 := by omega
      have hc3 : c = 99 ∨ c = 67 := by omega
      rcases ha3 with rfl | rfl <;> rcases hb3 with rfl | rfl <;> rcases hc3 with rfl | rfl <;>
        decide
  · have hmap := ToLower_eq_map dir _ h (by decide)
    have hne : ¬ (("desc" : GoString) = "asc") := by decide
    rw [h, if_neg hne]
    rw [hdesc] at hmap
    have hlen : dir.length = 4 := by
      have := congrArg List.length hmap
      simpa using this
    obtain ⟨a, b, c, d, rfl⟩ := length_eq_four hlen
    · simp only [List.map_cons, List.map_nil, List.cons.injEq, and_true] at hmap
      obtain ⟨ha, hb, hc, hd⟩ := hmap
      have ha2 := lowerByte_eq a 100 ha (by omega)
      have hb2 := lowerByte_eq b 101 hb (by omega)
      have hc2 := lowerByte_eq c 115 hc (by omega)
      have hd2 := lowerByte_eq d 99 hd (by omega)
      have ha3 : a = 100 ∨ a = 68 := by omega
      have hb3 : b = 101 ∨ b = 69 := by omega
      have hc3 : c = 115 ∨ c = 83 := by omega
      have hd3 : d = 99 ∨ d = 67 := by omega
      rcases ha3 with rfl | rfl <;> rcases hb3 with rfl | rfl <;> rcases hc3 with rfl | rfl <;>
        rcases hd3 with rfl | rfl <;> decide

/-! ## `strings.Split`, `strings.Join` and the schema tags -/

theorem Split_of_not_mem (sep : Nat) (s : GoString) (h : sep ∉ s) : Split sep s = [s] := by
  induction s with
  | nil => rfl
  | cons c rest ih =>
    have hc : c ≠ sep := fun e => h (e ▸ List.mem_cons_self _ _)
    have hr := ih (fun hm => h (List.mem_cons_of_mem _ hm))
    rw [Split, if_neg hc, hr]

theorem Split_ne_nil (sep : Nat) (s : GoString) : Split sep s ≠ [] := by
  induction s with
  | nil => simp [Split]
  | cons c rest ih =>
    rw [Split]
    split
    · simp
    · split
      · simp
      · simp

theorem Split_append_sep (sep : Nat) (f rest : GoString) (h : sep ∉ f) :
    Split sep (f ++ sep :: rest) = f :: Split sep rest := by
  induction f with
  | nil => simp [Split]
  | cons c f2 ih =>
    have hc : c ≠ sep := fun e => h (e ▸ List.mem_cons_self _ _)
    have hr := ih (fun hm => h (List.mem_cons_of_mem _ hm))
    rw [List.cons_append, Split, if_neg hc, hr]

theorem CheckQueryTag_iff (field : GoString) (tags : List FieldTags) :
    CheckQueryTag field tags = true ↔ field ∈ tags.map FieldTags.query := by
  induction tags with
  | nil => simp [CheckQueryTag]
  | cons t rest ih =>
    by_cases h : field = t.query
    · simp [CheckQueryTag, h]
    · simp [CheckQueryTag, h, ih]

theorem Join_singleton (e sep : GoString) : Join [e] sep = e := rfl

theorem Join_cons_cons (e e2 : GoString) (rest : List GoString) (sep : GoString) :
    Join (e :: e2 :: rest) sep = e ++ sep ++ Join (e2 :: rest) sep := rfl

theorem Join_map_space (l : List GoString) (h : l ≠ []) :
    Join (l.map (fun e => (32 : Nat) :: e)) [44] = 32 :: Join l [44, 32] := by
  induction l with
  | nil => exact absurd rfl h
  | cons e rest ih =>
    cases rest with
    | nil => rfl
    | cons e2 rest2 =>
      have hr := ih (by simp)
      simp only [List.map_cons] at hr ⊢
      rw [Join_cons_cons, hr, Join_cons_cons]
      simp

theorem sortValue_some (f d : GoString) : sortValue (some (f, d)) = f ++ 58 :: d := by
  have h : (":" : GoString) = [58] := by decide
  simp [sortValue, h]

theorem sort_item (checker : SortFieldChecker) (f d : GoString)
    (hv : checker.Verify f = true) (hclean : ∀ c ∈ f, c ≠ 58 ∧ c ≠ 37 ∧ c ≠ 43)
    (hd : ToLower d = "asc" ∨ ToLower d = "desc") :
    sortFault checker (sortValue (some (f, d))) = none ∧
      sortExp (sortValue (some (f, d)))
        = [⟨f, if ToLower d = "asc" then ("ASC" : GoString) else "DESC"⟩] := by
  obtain ⟨hdclean, hup⟩ := direction_facts d hd
  have hplain : ∀ c ∈ f ++ 58 :: d, c ≠ 37 ∧ c ≠ 43 := by
    intro c hc
    rcases List.mem_append.mp hc with h | h
    · exact ⟨(hclean c h).2.1, (hclean c h).2.2⟩
    · rcases List.mem_cons.mp h with h | h
      · subst h
        decide
      · exact ⟨(hdclean c h).2.1, (hdclean c h).2.2⟩
  have hq := QueryUnescape_of_plain _ hplain
  have hne : f ++ 58 :: d ≠ [] := by simp
  have hsplit : Split delimiter (f ++ 58 :: d) = [f, d] := by
    have hf : delimiter ∉ f := fun h => (hclean _ h).1 rfl
    have hdd : delimiter ∉ d := fun h => (hdclean _ h).1 rfl
    have := Split_append_sep delimiter f d hf
    rw [Split_of_not_mem delimiter d hdd] at this
    exact this
  have hnot : ¬ (ToLower d ≠ "asc" ∧ ToLower d ≠ "desc") := by
    rcases hd with h | h
    · exact fun hc => hc.1 h
    · exact fun hc => hc.2 h
  constructor
  · rw [sortValue_some]
    unfold sortFault
    simp only [hq, hne, if_false, hsplit, List.length_cons, List.length_nil,
      ne_eq, not_true_eq_false, List.getD_cons_zero, List.getD_cons_succ, hv, hnot,
      Nat.reduceAdd, reduceCtorEq]
  · rw [sortValue_some]
    unfold sortExp
    simp only [hq, hne, if_false, hsplit, hup]

theorem sort_items (checker : SortFieldChecker) (items : List (Option (GoString × GoString)))
    (hclean : ∀ f, checker.Verify f = true → ∀ c ∈ f, c ≠ 58 ∧ c ≠ 37 ∧ c ≠ 43)
    (hitems : ∀ item ∈ items.filterMap id,
      checker.Verify item.1 = true ∧ (ToLower item.2 = "asc" ∨ ToLower item.2 = "desc")) :
    (items.map sortValue).findSome? (sortFault checker) = none ∧
      (items.map sortValue).flatMap sortExp
        = (items.filterMap id).map (fun item =>
            ⟨item.1, if ToLower item.2 = "asc" then ("ASC" : GoString) else "DESC"⟩) := by
  induction items with
  | nil => exact ⟨rfl, rfl⟩
  | cons item rest ih =>
    cases item with
    | none =>
      have hrest := ih (fun fd h => hitems fd (by simpa using h))
      have h1 : sortFault checker (sortValue none) = none := by
        simp [sortFault, sortValue, QueryUnescape]
      have h2 : sortExp (sortValue none) = [] := by
        simp [sortExp, sortValue, QueryUnescape]
      simp only [List.map_cons, List.findSome?, h1, hrest.1, List.flatMap_cons, h2,
        List.nil_append, hrest.2, List.filterMap_cons, id_eq, true_and]
    | some fd =>
      obtain ⟨f, d⟩ := fd
      have hrest := ih (fun fd h => hitems fd (by simp [h]))
      have hfd := hitems (f, d) (by simp)
      have hi := sort_item checker f d hfd.1 (hclean f hfd.1) hfd.2
      simp only [List.map_cons, List.findSome?, hi.1, hrest.1, List.flatMap_cons, hi.2,
        hrest.2, List.filterMap_cons, id_eq, List.singleton_append, true_and]

theorem sortChecker_clean (checker : SortFieldChecker)
    (hc : checker = seatSortChecker ∨ checker = flightSortChecker) :
    ∀ f, checker.Verify f = true → ∀ c ∈ f, c ≠ 58 ∧ c ≠ 37 ∧ c ≠ 43 := by
  intro f hf
  rcases hc with rfl | rfl
  · have hm : f ∈ seatTags.map FieldTags.query :=
      (CheckQueryTag_iff f seatTags).mp hf
    have hall : ∀ g ∈ seatTags.map FieldTags.query, ∀ c ∈ g, c ≠ 58 ∧ c ≠ 37 ∧ c ≠ 43 := by
      decide
    exact hall f hm
  · have hm : f ∈ flightTags.map FieldTags.query :=
      (CheckQueryTag_iff f flightTags).mp hf
    have hall : ∀ g ∈ flightTags.map FieldTags.query, ∀ c ∈ g, c ≠ 58 ∧ c ≠ 37 ∧ c ≠ 43 := by
      decide
    exact hall f hm

/-- C15: for the Seat and the Flight schema and every list of sort values in which each
non-empty value has the form `field:dir` with `field` sortable per the schema and `dir`
equal to `asc` or `desc` ignoring letter case, `GetSorting` returns no errors and the
string ` ORDER BY ` followed by the entries `field DIR` joined by `, `, one per
non-empty value in the client's order, where `DIR` is exactly `ASC` or `DESC`; empty
values are skipped, and with no non-empty value the result is the empty string. -/
theorem GetSorting_success (checker : SortFieldChecker)
    (hc : checker = seatSortChecker ∨ checker = flightSortChecker)
    (items : List (Option (GoString × GoString)))
    (hitems : ∀ item ∈ items.filterMap id,
      checker.Verify item.1 = true ∧ (ToLower item.2 = "asc" ∨ ToLower item.2 = "desc")) :
    GetSorting checker (items.map sortValue)
      = (sortText ((items.filterMap id).map sortEntry), []) := by
  obtain ⟨h1, h2⟩ := sort_items checker items (sortChecker_clean checker hc) hitems
  unfold GetSorting
  rw [sortingLoop_eq, h1]
  simp only [List.nil_append, h2, List.length_map, ne_eq, List.length_eq_zero]
  by_cases hnil : items.filterMap id = []
  · simp [hnil, sortText]
  · have hne : (items.filterMap id).map sortEntry ≠ [] := by simp [hnil]
    have hsp : (" " : GoString) = [32] := by decide
    have hcm : ("," : GoString) = [44] := by decide
    have hcs : (", " : GoString) = [44, 32] := by decide
    have hob : (" ORDER BY" : GoString) ++ [32] = (" ORDER BY " : GoString) := by decide
    have hmap : (List.map (fun sort : OrderExp => (" " : GoString) ++ sort.Field ++ " "
          ++ sort.Order)
        (List.map (fun item : GoString × GoString =>
          (⟨item.1, if ToLower item.2 = "asc" then ("ASC" : GoString) else "DESC"⟩ : OrderExp))
          (items.filterMap id)))
        = ((items.filterMap id).map sortEntry).map (fun e => (32 : Nat) :: e) := by
      rw [List.map_map, List.map_map]
      apply List.map_congr_left
      intro item _
      simp [sortEntry, hsp]
    simp only [hnil, if_false, hmap, sortText, hne, hcm, hcs, Prod.mk.injEq, and_true,
      not_false_eq_true, if_true]
    rw [Join_map_space _ hne, ← hob]
    simp

/-- C15 at the request of the test: `sort=line:asc&sort=id:desc&sort=`. -/
theorem GetSorting_success_witness :
    GetSorting seatSortChecker ["line:asc", "id:desc", ""]
      = ((" ORDER BY line ASC, id DESC" : GoString), []) := by
  have h := GetSorting_success seatSortChecker (Or.inl rfl) exampleSortItems (by decide)
  have h1 : (["line:asc", "id:desc", ""] : List GoString) = exampleSortItems.map sortValue := by
    decide
  rw [h1, h]
  decide

/-! ## The query helpers: `GetFiltering` -/

theorem filteringLoop_cons (checker : SearchFieldChecker) (expression : GoString)
    (rest : List GoString) (filters : List FilterExp) :
    filteringLoop checker (expression :: rest) filters
      = match filterStep checker expression with
        | .error errs => .error errs
        | .ok exps => filteringLoop checker rest (filters ++ exps) := by
  rw [filteringLoop]
  unfold filterStep
  cases hq : QueryUnescape expression with
  | none => rfl
  | some element =>
    dsimp only
    cases hr : ReadAll delimiter element with
    | none => rfl
    | some records =>
      cases records with
      | nil => simp
      | cons record more =>
        dsimp only
        match record with
        | [] => rfl
        | [a] => rfl
        | [a, b] => rfl
        | a :: b :: c :: d :: e => rfl
        | [fieldElement, opElement, valueElement] =>
          dsimp only
          by_cases hall : fieldElement = "*"
          · simp only [hall, decide_True, if_true, not_true_eq_false, false_and, if_false]
            cases filterOp opElement (checker.ValidateAll valueElement) with
            | none => rfl
            | some tv => rfl
          · simp only [hall, decide_False, Bool.false_eq_true, if_false, not_false_eq_true,
              true_and]
            by_cases herr : (checker.Validate fieldElement valueElement).2.2.length = 0
            · simp only [herr, ne_eq, not_true_eq_false, if_false]
              cases filterOp opElement (checker.Validate fieldElement valueElement).2.1 with
              | none => rfl
              | some tv => rfl
            · simp only [herr, ne_eq, not_false_eq_true, if_true]

theorem filteringLoop_error (checker : SearchFieldChecker) (expressions : List GoString) :
    ∀ (filters : List FilterExp) (errs : List Error),
      filteringLoop checker expressions filters = .error errs →
      ∃ e ∈ expressions, filterStep checker e = .error errs := by
  induction expressions with
  | nil =>
    intro filters errs h
    simp [filteringLoop] at h
  | cons expression rest ih =>
    intro filters errs h
    rw [filteringLoop_cons] at h
    cases hs : filterStep checker expression with
    | error errs2 =>
      rw [hs] at h
      simp only [Except.error.injEq] at h
      subst h
      exact ⟨expression, List.mem_cons_self _ _, hs⟩
    | ok exps =>
      rw [hs] at h
      obtain ⟨e, he, hes⟩ := ih _ _ h
      exact ⟨e, List.mem_cons_of_mem _ he, hes⟩

theorem filteringLoop_ok (checker : SearchFieldChecker) (expressions : List GoString)
    (exps : GoString → List FilterExp)
    (h : ∀ e ∈ expressions, filterStep checker e = .ok (exps e)) :
    ∀ filters : List FilterExp,
      filteringLoop checker expressions filters = .ok (filters ++ expressions.flatMap exps) := by
  induction expressions with
  | nil => intro filters; simp [filteringLoop]
  | cons expression rest ih =>
    intro filters
    rw [filteringLoop_cons, h expression (List.mem_cons_self _ _)]
    dsimp only
    rw [ih (fun e he => h e (List.mem_cons_of_mem _ he))]
    simp

theorem Seat_Validate_errors (field value : GoString) :
    (Seat.Validate field value).2.2.length ≤ 1 := by
  unfold Seat.Validate
  simp only
  split
  · split <;> simp
  · split
    · split <;> simp
    · split
      · split <;> simp
      · split
        · split <;> simp
        · simp

theorem Flight_Validate_errors (field value : GoString) :
    (Flight.Validate field value).2.2.length ≤ 1 := by
  unfold Flight.Validate
  simp only
  split
  · split <;> simp
  · split <;> simp

theorem filterStep_of_record (checker : SearchFieldChecker) (expression element : GoString)
    (f o x : GoString) (more : List (List GoString))
    (hq : QueryUnescape expression = some element)
    (hr : ReadAll delimiter element = some ([f, o, x] :: more)) :
    filterStep checker expression
      = if f = "*" then
          (match filterOp o (checker.ValidateAll x) with
            | none => .error [errFilterUnknownOperation]
            | some tv => .ok [⟨checker.GetAllFields, tv.1, tv.2⟩])
        else if (checker.Validate f x).2.2.length ≠ 0 then .error (checker.Validate f x).2.2
        else
          (match filterOp o (checker.Validate f x).2.1 with
            | none => .error [errFilterUnknownOperation]
            | some tv => .ok [⟨[(checker.Validate f x).1], tv.1, tv.2⟩]) := by
  unfold filterStep
  rw [hq]
  dsimp only
  rw [hr]
  dsimp only
  by_cases hall : f = "*"
  · simp only [hall, decide_True, if_true, not_true_eq_false, false_and, if_false]
    cases filterOp o (checker.ValidateAll x) with
    | none => rfl
    | some tv => rfl
  · simp only [hall, decide_False, Bool.false_eq_true, if_false, not_false_eq_true, true_and]
    by_cases herr : (checker.Validate f x).2.2.length = 0
    · simp only [herr, ne_eq, not_true_eq_false, if_false]
      cases filterOp o (checker.Validate f x).2.1 with
      | none => rfl
      | some tv => rfl
    · simp only [herr, ne_eq, not_false_eq_true, if_true]

theorem filterStep_of_other (checker : SearchFieldChecker) (expression element : GoString)
    (record : List GoString) (more : List (List GoString))
    (hq : QueryUnescape expression = some element)
    (hr : ReadAll delimiter element = some (record :: more)) (hlen : record.length ≠ 3) :
    filterStep checker expression = .error [errFilterWrongLength] := by
  unfold filterStep
  rw [hq]
  dsimp only
  rw [hr]
  dsimp only
  match record, hlen with
  | [], _ => rfl
  | [a], _ => rfl
  | [a, b], _ => rfl
  | a :: b :: c :: d :: e, _ => rfl
  | [a, b, c], hlen => exact absurd rfl hlen

theorem filterStep_error_length (checker : SearchFieldChecker)
    (hval : ∀ f v, (checker.Validate f v).2.2.length ≤ 1) (expression : GoString)
    (errs : List Error) (h : filterStep checker expression = .error errs) :
    errs.length = 1 := by
  cases hq : QueryUnescape expression with
  | none =>
    unfold filterStep at h
    rw [hq] at h
    simp only [Except.error.injEq] at h
    rw [← h]
    rfl
  | some element =>
    cases hr : ReadAll delimiter element with
    | none =>
      unfold filterStep at h
      rw [hq] at h
      dsimp only at h
      rw [hr] at h
      simp only [Except.error.injEq] at h
      rw [← h]
      rfl
    | some records =>
      cases records with
      | nil =>
        unfold filterStep at h
        rw [hq] at h
        dsimp only at h
        rw [hr] at h
        simp at h
      | cons record more =>
        by_cases hlen : record.length = 3
        · obtain ⟨f, o, x, rfl⟩ := List.length_eq_three.mp hlen
          rw [filterStep_of_record checker expression element f o x more hq hr] at h
          by_cases hall : f = "*"
          · rw [if_pos hall] at h
            cases hop : filterOp o (checker.ValidateAll x) with
            | none =>
              rw [hop] at h
              simp only [Except.error.injEq] at h
              rw [← h]
              rfl
            | some tv =>
              rw [hop] at h
              simp at h
          · rw [if_neg hall] at h
            by_cases herr : (checker.Validate f x).2.2.length ≠ 0
            · rw [if_pos herr] at h
              simp only [Except.error.injEq] at h
              have := hval f x
              rw [← h]
              omega
            · rw [if_neg herr] at h
              cases hop : filterOp o (checker.Validate f x).2.1 with
              | none =>
                rw [hop] at h
                simp only [Except.error.injEq] at h
                rw [← h]
                rfl
              | some tv =>
                rw [hop] at h
                simp at h
        · rw [filterStep_of_other checker expression element record more hq hr hlen] at h
          simp only [Except.error.injEq] at h
          rw [← h]
          rfl

theorem GetFiltering_singleError (checker : SearchFieldChecker)
    (hval : ∀ f v, (checker.Validate f v).2.2.length ≤ 1) (expressions : List GoString) :
    singleError (GetFiltering checker expressions) := by
  unfold GetFiltering singleError
  cases hl : filteringLoop checker expressions [] with
  | error errs =>
    obtain ⟨e, _, hes⟩ := filteringLoop_error checker expressions [] errs hl
    have := filterStep_error_length checker hval e errs hes
    simp [this]
  | ok filters =>
    simp only
    split <;> simp

/-- C14: for `GetLimitation`, `GetSorting` (any checker, so the Seat and the Flight
schema) and `GetFiltering` against the Seat and the Flight schema, on every input:
when the error list is not empty it has exactly one element and the string is empty,
whatever values came before in the list; when the string is not empty the error list
is empty. -/
theorem query_helpers_singleError (offset limit : GoString) (sortChecker : SortFieldChecker)
    (orders expressions : List GoString) :
    singleError (GetLimitation offset limit) ∧
      singleError (GetSorting sortChecker orders) ∧
      singleError (GetFiltering seatSearchChecker expressions) ∧
      singleError (GetFiltering flightSearchChecker expressions) := by
  refine ⟨?_, ?_, GetFiltering_singleError _ Seat_Validate_errors _,
    GetFiltering_singleError _ Flight_Validate_errors _⟩
  · unfold singleError GetLimitation
    rw [limitationField_eq, limitationField_eq]
    cases limitFault offset with
    | some k => simp
    | none =>
      cases limitFault limit with
      | some k => simp
      | none =>
        simp only
        split <;> simp
  · unfold singleError GetSorting
    rw [sortingLoop_eq]
    cases orders.findSome? (sortFault sortChecker) with
    | some err => simp
    | none =>
      simp only
      split <;> simp

theorem filterOp_eq (op value : GoString) :
    filterOp op value = (opToken op).map (fun token => (token, likeValue op value)) := by
  unfold filterOp opToken likeValue
  generalize ToLower op = t
  have n_eq_lt : ¬ (("eq" : GoString) = "lt") := by decide
  have n_eq_le : ¬ (("eq" : GoString) = "le") := by decide
  have n_eq_gt : ¬ (("eq" : GoString) = "gt") := by decide
  have n_eq_ge : ¬ (("eq" : GoString) = "ge") := by decide
  have n_eq_ne : ¬ (("eq" : GoString) = "ne") := by decide
  have n_eq_lk : ¬ (("eq" : GoString) = "lk") := by decide
  have n_lt_eq : ¬ (("lt" : GoString) = "eq") := by decide
  have n_lt_le : ¬ (("lt" : GoString) = "le") := by decide
  have n_lt_gt : ¬ (("lt" : GoString) = "gt") := by decide
  have n_lt_ge : ¬ (("lt" : GoString) = "ge") := by decide
  have n_lt_ne : ¬ (("lt" : GoString) = "ne") := by decide
  have n_lt_lk : ¬ (("lt" : GoString) = "lk") := by decide
  have n_le_eq : ¬ (("le" : GoString) = "eq") := by decide
  have n_le_lt : ¬ (("le" : GoString) = "lt") := by decide
  have n_le_gt : ¬ (("le" : GoString) = "gt") := by decide
  have n_le_ge : ¬ (("le" : GoString) = "ge") := by decide
  have n_le_ne : ¬ (("le" : GoString) = "ne") := by decide
  have n_le_lk : ¬ (("le" : GoString) = "lk") := by decide
  have n_gt_eq : ¬ (("gt" : GoString) = "eq") := by decide
  have n_gt_lt : ¬ (("gt" : GoString) = "lt") := by decide
  have n_gt_le : ¬ (("gt" : GoString) = "le") := by decide
  have n_gt_ge : ¬ (("gt" : GoString) = "ge") := by decide
  have n_gt_ne : ¬ (("gt" : GoString) = "ne") := by decide
  have n_gt_lk : ¬ (("gt" : GoString) = "lk") := by decide
  have n_ge_eq : ¬ (("ge" : GoString) = "eq") := by decide
  have n_ge_lt : ¬ (("ge" : GoString) = "lt") := by decide
  have n_ge_le : ¬ (("ge" : GoString) = "le") := by decide
  have n_ge_gt : ¬ (("ge" : GoString) = "gt") := by decide
  have n_ge_ne : ¬ (("ge" : GoString) = "ne") := by decide
  have n_ge_lk : ¬ (("ge" : GoString) = "lk") := by decide
  have n_ne_eq : ¬ (("ne" : GoString) = "eq") := by decide
  have n_ne_lt : ¬ (("ne" : GoString) = "lt") := by decide
  have n_ne_le : ¬ (("ne" : GoString) = "le") := by decide
  have n_ne_gt : ¬ (("ne" : GoString) = "gt") := by decide
  have n_ne_ge : ¬ (("ne" : GoString) = "ge") := by decide
  have n_ne_lk : ¬ (("ne" : GoString) = "lk") := by decide
  have n_lk_eq : ¬ (("lk" : GoString) = "eq") := by decide
  have n_lk_lt : ¬ (("lk" : GoString) = "lt") := by decide
  have n_lk_le : ¬ (("lk" : GoString) = "le") := by decide
  have n_lk_gt : ¬ (("lk" : GoString) = "gt") := by decide
  have n_lk_ge : ¬ (("lk" : GoString) = "ge") := by decide
  have n_lk_ne : ¬ (("lk" : GoString) = "ne") := by decide
  by_cases h0 : t = "eq"
  · subst h0
    simp only [n_eq_lt, n_eq_le, n_eq_gt, n_eq_ge, n_eq_ne, n_eq_lk, n_lt_eq, n_lt_le, n_lt_gt,
      n_lt_ge, n_lt_ne, n_lt_lk, n_le_eq, n_le_lt, n_le_gt, n_le_ge, n_le_ne, n_le_lk, n_gt_eq,
      n_gt_lt, n_gt_le, n_gt_ge, n_gt_ne, n_gt_lk, n_ge_eq, n_ge_lt, n_ge_le, n_ge_gt, n_ge_ne,
      n_ge_lk, n_ne_eq, n_ne_lt, n_ne_le, n_ne_gt, n_ne_ge, n_ne_lk, n_lk_eq, n_lk_lt, n_lk_le,
      n_lk_gt, n_lk_ge, n_lk_ne, if_true, if_false, Option.map_some']
  · by_cases h1 : t = "lt"
    · subst h1
      simp only [n_eq_lt, n_eq_le, n_eq_gt, n_eq_ge, n_eq_ne, n_eq_lk, n_lt_eq, n_lt_le,
        n_lt_gt, n_lt_ge, n_lt_ne, n_lt_lk, n_le_eq, n_le_lt, n_le_gt, n_le_ge, n_le_ne, n_le_lk,
        n_gt_eq, n_gt_lt, n_gt_le, n_gt_ge, n_gt_ne, n_gt_lk, n_ge_eq, n_ge_lt, n_ge_le, n_ge_gt,
        n_ge_ne, n_ge_lk, n_ne_eq, n_ne_lt, n_ne_le, n_ne_gt, n_ne_ge, n_ne_lk, n_lk_eq, n_lk_lt,
        n_lk_le, n_lk_gt, n_lk_ge, n_lk_ne, if_true, if_false, Option.map_some']
    · by_cases h2 : t = "le"
      · subst h2
        simp only [n_eq_lt, n_eq_le, n_eq_gt, n_eq_ge, n_eq_ne, n_eq_lk, n_lt_eq, n_lt_le,
          n_lt_gt, n_lt_ge, n_lt_ne, n_lt_lk, n_le_eq, n_le_lt, n_le_gt, n_le_ge, n_le_ne,
          n_le_lk, n_gt_eq, n_gt_lt, n_gt_le, n_gt_ge, n_gt_ne, n_gt_lk, n_ge_eq, n_ge_lt,
          n_ge_le, n_ge_gt, n_ge_ne, n_ge_lk, n_ne_eq, n_ne_lt, n_ne_le, n_ne_gt, n_ne_ge,
          n_ne_lk, n_lk_eq, n_lk_lt, n_lk_le, n_lk_gt, n_lk_ge, n_lk_ne, if_true, if_false,
          Option.map_some']
      · by_cases h3 : t = "gt"
        · subst h3
          simp only [n_eq_lt, n_eq_le, n_eq_gt, n_eq_ge, n_eq_ne, n_eq_lk, n_lt_eq, n_lt_le,
            n_lt_gt, n_lt_ge, n_lt_ne, n_lt_lk, n_le_eq, n_le_lt, n_le_gt, n_le_ge, n_le_ne,
            n_le_lk, n_gt_eq, n_gt_lt, n_gt_le, n_gt_ge, n_gt_ne, n_gt_lk, n_ge_eq, n_ge_lt,
            n_ge_le, n_ge_gt, n_ge_ne, n_ge_lk, n_ne_eq, n_ne_lt, n_ne_le, n_ne_gt, n_ne_ge,
            n_ne_lk, n_lk_eq, n_lk_lt, n_lk_le, n_lk_gt, n_lk_ge, n_lk_ne, if_true, if_false,
            Option.map_some']
        · by_cases h4 : t = "ge"
          · subst h4
            simp only [n_eq_lt, n_eq_le, n_eq_gt, n_eq_ge, n_eq_ne, n_eq_lk, n_lt_eq, n_lt_le,
              n_lt_gt, n_lt_ge, n_lt_ne, n_lt_lk, n_le_eq, n_le_lt, n_le_gt, n_le_ge, n_le_ne,
              n_le_lk, n_gt_eq, n_gt_lt, n_gt_le, n_gt_ge, n_gt_ne, n_gt_lk, n_ge_eq, n_ge_lt,
              n_ge_le, n_ge_gt, n_ge_ne, n_ge_lk, n_ne_eq, n_ne_lt, n_ne_le, n_ne_gt, n_ne_ge,
              n_ne_lk, n_lk_eq, n_lk_lt, n_lk_le, n_lk_gt, n_lk_ge, n_lk_ne, if_true, if_false,
              Option.map_some']
          · by_cases h5 : t = "ne"
            · subst h5
              simp only [n_eq_lt, n_eq_le, n_eq_gt, n_eq_ge, n_eq_ne, n_eq_lk, n_lt_eq, n_lt_le,
                n_lt_gt, n_lt_ge, n_lt_ne, n_lt_lk, n_le_eq, n_le_lt, n_le_gt, n_le_ge, n_le_ne,
                n_le_lk, n_gt_eq, n_gt_lt, n_gt_le, n_gt_ge, n_gt_ne, n_gt_lk, n_ge_eq, n_ge_lt,
                n_ge_le, n_ge_gt, n_ge_ne, n_ge_lk, n_ne_eq, n_ne_lt, n_ne_le, n_ne_gt, n_ne_ge,
                n_ne_lk, n_lk_eq, n_lk_lt, n_lk_le, n_lk_gt, n_lk_ge, n_lk_ne, if_true, if_false,
                Option.map_some']
            · by_cases h6 : t = "lk"
              · subst h6
                simp only [n_eq_lt, n_eq_le, n_eq_gt, n_eq_ge, n_eq_ne, n_eq_lk, n_lt_eq,
                  n_lt_le, n_lt_gt, n_lt_ge, n_lt_ne, n_lt_lk, n_le_eq, n_le_lt, n_le_gt, n_le_ge,
                  n_le_ne, n_le_lk, n_gt_eq, n_gt_lt, n_gt_le, n_gt_ge, n_gt_ne, n_gt_lk, n_ge_eq,
                  n_ge_lt, n_ge_le, n_ge_gt, n_ge_ne, n_ge_lk, n_ne_eq, n_ne_lt, n_ne_le, n_ne_gt,
                  n_ne_ge, n_ne_lk, n_lk_eq, n_lk_lt, n_lk_le, n_lk_gt, n_lk_ge, n_lk_ne, if_true,
                  if_false, Option.map_some']
              · simp only [h0, h1, h2, h3, h4, h5, h6, if_false, Option.map_none']

theorem filterRecord_eq_some {expression : GoString} {record : List GoString}
    (h : filterRecord expression = some record) :
    ∃ element more, QueryUnescape expression = some element ∧
      ReadAll delimiter element = some (record :: more) := by
  unfold filterRecord at h
  cases hq : QueryUnescape expression with
  | none => rw [hq] at h; simp at h
  | some element =>
    rw [hq] at h
    dsimp only at h
    cases hr : ReadAll delimiter element with
    | none => rw [hr] at h; simp at h
    | some records =>
      rw [hr] at h
      cases records with
      | nil => simp at h
      | cons r more =>
        simp only [Option.some.injEq] at h
        subst h
        exact ⟨element, more, rfl, hr⟩

theorem filteringLoop_first_error (checker : SearchFieldChecker) (pre : List GoString)
    (expression : GoString) (post : List GoString) (errs : List Error)
    (hpre : ∀ e ∈ pre, ∃ exps, filterStep checker e = .ok exps)
    (herr : filterStep checker expression = .error errs) :
    ∀ filters : List FilterExp,
      filteringLoop checker (pre ++ expression :: post) filters = .error errs := by
  induction pre with
  | nil =>
    intro filters
    rw [List.nil_append, filteringLoop_cons, herr]
  | cons e rest ih =>
    intro filters
    obtain ⟨exps, he⟩ := hpre e (List.mem_cons_self _ _)
    rw [List.cons_append, filteringLoop_cons, he]
    exact ih (fun e2 h2 => hpre e2 (List.mem_cons_of_mem _ h2)) _

/-- C20, as stated, fails: the three-part values `test:zz:1` and `id:zz:x` have an
operator code that is none of the seven, yet the errors are `field.Unknown` and
`id.Invalid`, not `filter.UnknownOperation`. -/
theorem GetFiltering_validation_error_first :
    opToken "zz" = none ∧
      filterRecord "test:zz:1" = some [gostr "test", gostr "zz", gostr "1"] ∧
      (GetFiltering seatSearchChecker ["test:zz:1"]).2.map Error.Code = ["field.Unknown"] ∧
      filterRecord "id:zz:x" = some [gostr "id", gostr "zz", gostr "x"] ∧
      (GetFiltering seatSearchChecker ["id:zz:x"]).2.map Error.Code = ["id.Invalid"] := by
  decide

/-- C20, amended: for any checker, when the values before it pass, a filter value that
parses to three parts `field:op:value` whose operator code is not one of `eq`, `ne`,
`lt`, `le`, `gt`, `ge`, `lk` (ignoring letter case) makes `GetFiltering` fail with no
string and with the error `filter.UnknownOperation` when the field is `*` or the value
is valid for the field; when the field is not `*` and its validation fails, the errors
of the validation are returned instead. -/
theorem GetFiltering_unknown_operation (checker : SearchFieldChecker)
    (pre post : List GoString) (expression f o x : GoString)
    (hpre : ∀ e ∈ pre, ∃ exps, filterStep checker e = .ok exps)
    (hrec : filterRecord expression = some [f, o, x]) (hop : opToken o = none) :
    GetFiltering checker (pre ++ expression :: post)
      = (("" : GoString),
          if f ≠ "*" ∧ (checker.Validate f x).2.2.length ≠ 0 then (checker.Validate f x).2.2
          else [errFilterUnknownOperation]) := by
  obtain ⟨element, more, hq, hr⟩ := filterRecord_eq_some hrec
  have hstep := filterStep_of_record checker expression element f o x more hq hr
  simp only [filterOp_eq, hop, Option.map_none'] at hstep
  have herr : filterStep checker expression
      = .error (if f ≠ "*" ∧ (checker.Validate f x).2.2.length ≠ 0 then
          (checker.Validate f x).2.2 else [errFilterUnknownOperation]) := by
    rw [hstep]
    by_cases hall : f = "*"
    · simp [hall]
    · by_cases hv : (checker.Validate f x).2.2.length = 0
      · simp [hall, hv]
      · simp [hall, hv]
  unfold GetFiltering
  rw [filteringLoop_first_error checker pre expression post _ hpre herr]

/-- C20 amended, at the request of the test: `filter=line:test:1`. -/
theorem GetFiltering_unknown_operation_witness :
    GetFiltering seatSearchChecker ["line:test:1"]
      = (("" : GoString),
          [⟨"filter.UnknownOperation", "Filter contains unknown operation", "filter"⟩]) := by
  have h := GetFiltering_unknown_operation seatSearchChecker [] [] "line:test:1"
    "line" "test" "1" (by simp) (by decide) (by decide)
  rw [List.nil_append] at h
  rw [h]
  decide

/-! ## Filters that succeed -/

theorem Seat_Validate_field (field value : GoString)
    (h : (Seat.Validate field value).2.2 = []) : (Seat.Validate field value).1 = field := by
  have h1 : (Seat.Validate field value).1 = GetSearchTag field seatTags := by
    unfold Seat.Validate
    simp only
    split
    · split <;> rfl
    · split
      · split <;> rfl
      · split
        · split <;> rfl
        · split
          · split <;> rfl
          · rfl
  have h2 : field ∈ [gostr "id", gostr "created_at", gostr "updated_at", gostr "index",
      gostr "type", gostr "row", gostr "line", gostr "assigned"] := by
    unfold Seat.Validate at h
    simp only at h
    split at h
    · rename_i hf
      rcases hf with hf | hf | hf <;> simp [hf]
    · split at h
      · rename_i hf
        rcases hf with hf | hf | hf <;> simp [hf]
      · split at h
        · rename_i hf
          simp [hf]
        · split at h
          · rename_i hf
            simp [hf]
          · simp at h
  rw [h1]
  simp only [List.mem_cons, List.mem_singleton, List.not_mem_nil, or_false] at h2
  rcases h2 with h2 | h2 | h2 | h2 | h2 | h2 | h2 | h2 <;> rw [h2] <;> decide

theorem Flight_Validate_field (field value : GoString)
    (h : (Flight.Validate field value).2.2 = []) : (Flight.Validate field value).1 = field := by
  have h1 : (Flight.Validate field value).1 = GetSearchTag field flightTags := by
    unfold Flight.Validate
    simp only
    split
    · split <;> rfl
    · split <;> rfl
  have h2 : field ∈ [gostr "id", gostr "created_at", gostr "name"] := by
    unfold Flight.Validate at h
    simp only at h
    split at h
    · rename_i hf
      rcases hf with hf | hf <;> simp [hf]
    · split at h
      · rename_i hf
        simp [hf]
      · simp at h
  rw [h1]
  simp only [List.mem_cons, List.mem_singleton, List.not_mem_nil, or_false] at h2
  rcases h2 with h2 | h2 | h2 <;> rw [h2] <;> decide

theorem filterStep_nil (checker : SearchFieldChecker) : filterStep checker [] = .ok [] := by
  have hq : QueryUnescape [] = some [] := by decide
  have hr : ReadAll delimiter [] = some [] := by decide
  unfold filterStep
  rw [hq]
  dsimp only
  rw [hr]

theorem filterStep_specific (checker : SearchFieldChecker)
    (hfield : ∀ f x, (checker.Validate f x).2.2 = [] → (checker.Validate f x).1 = f)
    (expression : GoString) (h : specificFilter checker expression = true) :
    filterStep checker expression = .ok (specificExps checker expression) := by
  unfold specificFilter at h
  unfold specificExps
  split at h
  · rename_i f o x hrec
    simp only [Bool.and_eq_true, decide_eq_true_eq, Option.isSome_iff_exists] at h
    obtain ⟨⟨hf, hv⟩, token, hop⟩ := h
    obtain ⟨element, more, hq, hr⟩ := filterRecord_eq_some hrec
    rw [filterStep_of_record checker expression element f o x more hq hr, if_neg hf]
    have hlen : ¬ ((checker.Validate f x).2.2.length ≠ 0) := by simp [hv]
    rw [if_neg hlen, filterOp_eq, hop, hfield f x hv]
    rfl
  · rename_i hrec
    have he : expression = [] := by simpa using h
    subst he
    rw [filterStep_nil]

theorem filterText_groups (filters : List FilterExp) :
    (if filters.length ≠ 0 then
        ((" AND " : GoString) ++ Join (filters.map (fun filter =>
          "(" ++ Join (filter.Fields.map (fun field =>
            field ++ " " ++ filter.Op ++ " " ++ filter.Value)) " OR " ++ ")")) " AND ",
          ([] : List Error))
      else ("", []))
      = (filterText (filters.map (fun filter =>
          wildcardGroup filter.Fields filter.Op filter.Value)), []) := by
  unfold filterText wildcardGroup
  cases filters with
  | nil => simp
  | cons f rest => simp

/-- C18: for the Seat and the Flight schema, and every list of filter values each of
which is empty or parses to three parts `field:op:value` with a field other than `*`, a
value valid for the field and an operator code equal to one of `eq`, `ne`, `lt`, `le`,
`gt`, `ge`, `lk` ignoring letter case, `GetFiltering` returns no errors and the text that
is empty when no value gives a group and else ` AND ` followed by the groups
`(field TOKEN value)`, one per non-empty value in client order, joined by ` AND `; TOKEN
is the token of the operator code and the value is the validated value of the field, in
which for `lk` every `*` is rewritten to `%`. -/
theorem GetFiltering_success (checker : SearchFieldChecker)
    (hc : checker = seatSearchChecker ∨ checker = flightSearchChecker)
    (expressions : List GoString)
    (h : ∀ e ∈ expressions, specificFilter checker e = true) :
    GetFiltering checker expressions
      = (filterText (expressions.flatMap (specificGroups checker)), []) := by
  have hfield : ∀ f x, (checker.Validate f x).2.2 = [] → (checker.Validate f x).1 = f := by
    rcases hc with rfl | rfl
    · exact Seat_Validate_field
    · exact Flight_Validate_field
  have hloop := filteringLoop_ok checker expressions (specificExps checker)
    (fun e he => filterStep_specific checker hfield e (h e he)) []
  unfold GetFiltering
  rw [hloop]
  dsimp only
  rw [List.nil_append, filterText_groups]
  congr 2
  rw [List.map_flatMap]
  congr 1
  funext e
  unfold specificGroups specificExps
  split
  · simp [wildcardGroup, specificGroup, Join]
  · rfl

/-- C18 at the request of the test, with an empty value added: the seven groups in
client order. -/
theorem GetFiltering_success_witness :
    (∀ e ∈ exampleFilters, specificFilter seatSearchChecker e = true) ∧
      GetFiltering seatSearchChecker exampleFilters
        = (gostr (" AND (line = 'v') AND (id > 100) AND (id < 2) AND (id <= 3)"
            ++ " AND (id >= 4) AND (id != 5) AND (id LIKE 6)"), []) := by
  refine ⟨by decide, ?_⟩
  rw [GetFiltering_success seatSearchChecker (Or.inl rfl) exampleFilters (by decide)]
  decide

/-- C19: for the Seat and the Flight schema, a filter value that parses to the three
parts `*:op:v` with one of the seven operator codes, `v` any text, gives no errors and
` AND ` followed by exactly one group: one atom `field TOKEN value` for each filterable
field of the schema in declaration order, joined by ` OR `, all with the token of the
operator and the same value, `v` quoted as a string (each `'` doubled, the whole in
`'...'`) and, for `lk`, with every `*` rewritten to `%`. For Seat the fields are id,
index, type, row, line, assigned, created_at, updated_at. -/
theorem GetFiltering_wildcard (checker : SearchFieldChecker)
    (hc : checker = seatSearchChecker ∨ checker = flightSearchChecker)
    (expression o v token : GoString)
    (hrec : filterRecord expression = some [gostr "*", o, v])
    (hop : opToken o = some token) :
    GetFiltering checker [expression]
        = ((" AND " : GoString)
            ++ wildcardGroup checker.GetAllFields token (likeValue o (quoteValue v)), []) ∧
      seatSearchChecker.GetAllFields
        = [gostr "id", gostr "index", gostr "type", gostr "row", gostr "line",
            gostr "assigned", gostr "created_at", gostr "updated_at"] ∧
      flightSearchChecker.GetAllFields = [gostr "id", gostr "name", gostr "created_at"] := by
  refine ⟨?_, by decide, by decide⟩
  have hall : checker.ValidateAll v = quoteValue v := by
    rcases hc with rfl | rfl <;> rfl
  obtain ⟨element, more, hq, hr⟩ := filterRecord_eq_some hrec
  have hstep : filterStep checker expression
      = .ok [⟨checker.GetAllFields, token, likeValue o (quoteValue v)⟩] := by
    rw [filterStep_of_record checker expression element _ o v more hq hr, if_pos rfl,
      filterOp_eq, hop, hall]
    rfl
  have hloop := filteringLoop_ok checker [expression]
    (fun _ => [⟨checker.GetAllFields, token, likeValue o (quoteValue v)⟩])
    (by
      intro e he
      rw [List.mem_singleton] at he
      rw [he, hstep]) []
  unfold GetFiltering
  rw [hloop]
  dsimp only
  rw [filterText_groups]
  simp [filterText, Join]

/-- C19 at the request of the test: `*:lk:"*v' s"` against the Seat schema gives one
group of eight atoms. -/
theorem GetFiltering_wildcard_witness :
    GetFiltering seatSearchChecker [gostr "*:lk:\"*v' s\""]
      = (gostr (" AND (id LIKE '%v'' s' OR index LIKE '%v'' s' OR type LIKE '%v'' s'"
          ++ " OR row LIKE '%v'' s' OR line LIKE '%v'' s' OR assigned LIKE '%v'' s'"
          ++ " OR created_at LIKE '%v'' s' OR updated_at LIKE '%v'' s')"), []) := by
  rw [(GetFiltering_wildcard seatSearchChecker (Or.inl rfl) (gostr "*:lk:\"*v' s\"")
    (gostr "lk") (gostr "*v' s") (gostr "LIKE") (by decide) (by decide)).1]
  rfl

/-! ## Fields of a filter -/

theorem filteringLoop_mem_error (checker : SearchFieldChecker) (expressions : List GoString)
    (e : GoString) (errs : List Error) (he : e ∈ expressions)
    (hs : filterStep checker e = .error errs) :
    ∀ filters : List FilterExp,
      ∃ errs2, filteringLoop checker expressions filters = .error errs2 := by
  induction expressions with
  | nil => simp at he
  | cons expression rest ih =>
    intro filters
    rw [filteringLoop_cons]
    cases hx : filterStep checker expression with
    | error errs2 => exact ⟨errs2, rfl⟩
    | ok exps =>
      dsimp only
      rcases List.mem_cons.mp he with h | h
      · rw [← h, hs] at hx
        simp at hx
      · exact ih h _



theorem Seat_Validate_unknown (field value : GoString) (h : field ∉ Seat.GetAllFields) :
    (Seat.Validate field value).2.2
      = [⟨"field.Unknown", field ++ " field is unknown", "field"⟩] := by
  have hfields : Seat.GetAllFields = [gostr "id", gostr "index", gostr "type", gostr "row",
      gostr "line", gostr "assigned", gostr "created_at", gostr "updated_at"] := by decide
  rw [hfields] at h
  simp only [List.mem_cons, List.mem_singleton, List.not_mem_nil, or_false, not_or] at h
  obtain ⟨h1, h2, h3, h4, h5, h6, h7, h8⟩ := h
  unfold Seat.Validate
  simp only [h1, h2, h3, h4, h5, h6, h7, h8, or_self, if_false]

theorem Flight_Validate_unknown (field value : GoString) (h : field ∉ Flight.GetAllFields) :
    (Flight.Validate field value).2.2
      = [⟨"field.Unknown", field ++ " field is unknown", "field"⟩] := by
  have hfields : Flight.GetAllFields = [gostr "id", gostr "name", gostr "created_at"] := by
    decide
  rw [hfields] at h
  simp only [List.mem_cons, List.mem_singleton, List.not_mem_nil, or_false, not_or] at h
  obtain ⟨h1, h2, h3⟩ := h
  unfold Flight.Validate
  simp only [h1, h2, h3, or_self, if_false]

theorem checker_Validate_unknown (checker : SearchFieldChecker)
    (hc : checker = seatSearchChecker ∨ checker = flightSearchChecker)
    (field value : GoString) (h : field ∉ checker.GetAllFields) :
    (checker.Validate field value).2.2
      = [⟨"field.Unknown", field ++ " field is unknown", "field"⟩] := by
  rcases hc with rfl | rfl
  · exact Seat_Validate_unknown field value h
  · exact Flight_Validate_unknown field value h

theorem checker_Validate_field (checker : SearchFieldChecker)
    (hc : checker = seatSearchChecker ∨ checker = flightSearchChecker)
    (field value : GoString) (h : (checker.Validate field value).2.2 = []) :
    (checker.Validate field value).1 = field := by
  rcases hc with rfl | rfl
  · exact Seat_Validate_field field value h
  · exact Flight_Validate_field field value h



/-! ## The string literal of a value -/

theorem Replace_nil (old : Nat) (new : GoString) : Replace [] old new = [] := rfl

theorem Replace_cons (c : Nat) (s : GoString) (old : Nat) (new : GoString) :
    Replace (c :: s) old new = (if c = old then new else [c]) ++ Replace s old new := by
  unfold Replace
  rw [List.flatMap_cons]

theorem Replace_append (s t : GoString) (old : Nat) (new : GoString) :
    Replace (s ++ t) old new = Replace s old new ++ Replace t old new := by
  unfold Replace
  rw [List.flatMap_append]

theorem Replace_of_not_mem (s : GoString) (old : Nat) (new : GoString) (h : old ∉ s) :
    Replace s old new = s := by
  induction s with
  | nil => rfl
  | cons c rest ih =>
    rw [List.mem_cons, not_or] at h
    rw [Replace_cons, ih h.2, if_neg (fun hc => h.1 hc.symm)]
    rfl

theorem quoteValue_eq (v : GoString) :
    quoteValue v = 39 :: (Replace v 39 [39, 39] ++ [39]) := by
  have h1 : gostr "'" = [39] := by decide
  have h2 : gostr "''" = [39, 39] := by decide
  unfold quoteValue
  simp only [h1, h2]
  by_cases h : 39 ∈ v
  · rw [if_pos h]
    rfl
  · rw [if_neg h, Replace_of_not_mem v 39 [39, 39] h]
    rfl

theorem stripOuter_quoteValue (v : GoString) :
    stripOuter (quoteValue v) = Replace v 39 [39, 39] := by
  rw [quoteValue_eq]
  unfold stripOuter
  rw [List.drop_one, List.tail_cons, List.dropLast_concat]

theorem unescapeQuotes_cons_of_ne (c : Nat) (s : GoString) (h : c ≠ 39) :
    unescapeQuotes (c :: s) = c :: unescapeQuotes s := by
  cases s with
  | nil => rfl
  | cons d rest =>
    rw [unescapeQuotes, if_neg (fun hc => h hc.1)]

theorem unescapeQuotes_Replace (v : GoString) :
    unescapeQuotes (Replace v 39 [39, 39]) = v := by
  induction v with
  | nil => rfl
  | cons c rest ih =>
    rw [Replace_cons]
    by_cases h : c = 39
    · rw [if_pos h, h]
      show unescapeQuotes (39 :: 39 :: Replace rest 39 [39, 39]) = 39 :: rest
      rw [unescapeQuotes, if_pos ⟨rfl, rfl⟩, ih]
    · rw [if_neg h]
      show unescapeQuotes (c :: Replace rest 39 [39, 39]) = c :: rest
      rw [unescapeQuotes_cons_of_ne c _ h, ih]

theorem quotesPaired_cons_of_ne (c : Nat) (s : GoString) (h : c ≠ 39) :
    quotesPaired (c :: s) = quotesPaired s := by
  cases s with
  | nil => simp [quotesPaired, h]
  | cons d rest => rw [quotesPaired, if_neg h]

theorem quotesPaired_Replace (v : GoString) :
    quotesPaired (Replace v 39 [39, 39]) = true := by
  induction v with
  | nil => rfl
  | cons c rest ih =>
    rw [Replace_cons]
    by_cases h : c = 39
    · rw [if_pos h]
      show quotesPaired (39 :: 39 :: Replace rest 39 [39, 39]) = true
      rw [quotesPaired, if_pos rfl, if_pos rfl, ih]
    · rw [if_neg h]
      show quotesPaired (c :: Replace rest 39 [39, 39]) = true
      rw [quotesPaired_cons_of_ne c _ h, ih]

/-- C22: for every text `v`, `ValidateAll` of Seat and of Flight, and `Validate` of
Flight on the field `name`, give `v` with every `'` replaced by `''`, wrapped in single
quotes, and no error. The escaping is reversible: removing the outer quotes and
replacing each `''` by `'` gives `v` back, so two values with the same literal are
equal, and between the outer quotes no quote is unpaired. -/
theorem quoteValue_reversible (v : GoString) :
    Seat.ValidateAll v = "'" ++ Replace v 39 "''" ++ "'" ∧
      Flight.ValidateAll v = "'" ++ Replace v 39 "''" ++ "'" ∧
      Flight.Validate "name" v = (gostr "name", "'" ++ Replace v 39 "''" ++ "'", []) ∧
      unescapeQuotes (stripOuter (Seat.ValidateAll v)) = v ∧
      quotesPaired (stripOuter (Seat.ValidateAll v)) = true ∧
      ∀ w : GoString, Seat.ValidateAll v = Seat.ValidateAll w → v = w := by
  have h1 : gostr "'" = [39] := by decide
  have h2 : gostr "''" = [39, 39] := by decide
  have hq : quoteValue v = gostr "'" ++ Replace v 39 (gostr "''") ++ gostr "'" := by
    rw [quoteValue_eq, h1, h2]
    rfl
  have hname : Flight.Validate (gostr "name") v = (gostr "name", quoteValue v, []) := by
    have hn1 : ¬ (gostr "name" = gostr "id" ∨ gostr "name" = gostr "created_at") := by
      decide
    have hn2 : GetSearchTag (gostr "name") flightTags = gostr "name" := by decide
    unfold Flight.Validate
    simp only [hn1, if_false, if_true, hn2]
  refine ⟨hq, hq, ?_, ?_, ?_, ?_⟩
  · rw [hname, hq]
  · show unescapeQuotes (stripOuter (quoteValue v)) = v
    rw [stripOuter_quoteValue, unescapeQuotes_Replace]
  · show quotesPaired (stripOuter (quoteValue v)) = true
    rw [stripOuter_quoteValue, quotesPaired_Replace]
  · intro w hw
    have h3 : stripOuter (quoteValue v) = stripOuter (quoteValue w) := congrArg stripOuter hw
    rw [stripOuter_quoteValue, stripOuter_quoteValue] at h3
    have h4 := congrArg unescapeQuotes h3
    rw [unescapeQuotes_Replace, unescapeQuotes_Replace] at h4
    exact h4

/-! ## The field `line` -/

theorem Seat_Validate_line (v : GoString) :
    Seat.Validate "line" v
      = if v.length = 1 then (gostr "line", quoteValue v, [])
        else (gostr "line", gostr "",
          [⟨"line.Invalid", "line is not one character", "line"⟩]) := by
  have hn1 : ¬ (gostr "line" = gostr "id" ∨ gostr "line" = gostr "created_at"
      ∨ gostr "line" = gostr "updated_at") := by decide
  have hn2 : ¬ (gostr "line" = gostr "index" ∨ gostr "line" = gostr "type"
      ∨ gostr "line" = gostr "row") := by decide
  have hn3 : GetSearchTag (gostr "line") seatTags = gostr "line" := by decide
  have hn4 : gostr "line" ++ gostr ".Invalid" = gostr "line.Invalid" := by decide
  have hn5 : gostr "line" ++ gostr " is not one character"
      = gostr "line is not one character" := by decide
  unfold Seat.Validate
  simp only [hn1, hn2, hn3, hn4, hn5, if_false, if_true]
  by_cases h : v.length = 1
  · simp [h]
  · simp [h]

/-- C23 (the code departs from it): the value `é` consists of exactly one character, yet
`Seat.Validate` rejects it for the field `line` with `line.Invalid`, "line is not one
character", and so does `GetFiltering` for `line:eq:é`: the test `len(value) != 1`
counts the bytes of the value, two for `é`. In general the value is accepted exactly
when it is one byte long, and is then rendered quote-escaped in single quotes. -/
theorem Seat_Validate_line_counts_bytes :
    ("é" : String).length = 1 ∧
      gostr "é" = [195, 169] ∧
      Seat.Validate "line" (gostr "é")
        = (gostr "line", gostr "", [⟨"line.Invalid", "line is not one character", "line"⟩]) ∧
      GetFiltering seatSearchChecker [gostr "line:eq:é"]
        = (gostr "", [⟨"line.Invalid", "line is not one character", "line"⟩]) ∧
      (∀ v : GoString, ((Seat.Validate "line" v).2.2 = [] ↔ v.length = 1) ∧
        (v.length = 1 → Seat.Validate "line" v = (gostr "line", quoteValue v, []))) ∧
      Seat.Validate "line" (gostr "v") = (gostr "line", gostr "'v'", []) := by
  refine ⟨by decide, by decide, by decide, by decide, ?_, by decide⟩
  intro v
  rw [Seat_Validate_line]
  by_cases h : v.length = 1
  · simp [h]
  · simp [h]

/-! ## The integer fields -/

theorem Seat_Validate_integer_eq (field value : GoString) (bits : Nat)
    (hbits : seatIntegerBits field = some bits) :
    Seat.Validate field value
      = if isIntOfSize bits value then (field, value, [])
        else (field, gostr "", [⟨field ++ ".Invalid", field ++ " is not integer", field⟩]) := by
  unfold seatIntegerBits at hbits
  by_cases h1 : field = "id" ∨ field = "created_at" ∨ field = "updated_at"
  · rw [if_pos h1] at hbits
    have hb : bits = 64 := (Option.some.inj hbits).symm
    subst hb
    have htag : GetSearchTag field seatTags = field := by
      rcases h1 with h | h | h <;> rw [h] <;> decide
    unfold Seat.Validate
    simp only [if_pos h1, htag, ParseInt_eq]
    by_cases hi : isIntOfSize 64 value
    · simp only [if_pos hi]
    · simp only [if_neg hi]
  · rw [if_neg h1] at hbits
    by_cases h2 : field = "index" ∨ field = "type" ∨ field = "row"
    · rw [if_pos h2] at hbits
      have hb : bits = 32 := (Option.some.inj hbits).symm
      subst hb
      have htag : GetSearchTag field seatTags = field := by
        rcases h2 with h | h | h <;> rw [h] <;> decide
      unfold Seat.Validate
      simp only [if_neg h1, if_pos h2, htag, ParseInt_eq]
      by_cases hi : isIntOfSize 32 value
      · simp only [if_pos hi]
      · simp only [if_neg hi]
    · rw [if_neg h2] at hbits
      simp at hbits

/-- C24: for the integer fields of Seat (`id`, `created_at`, `updated_at` of 64 bits;
`index`, `type`, `row` of 32 bits), `Validate` succeeds exactly when the value is a
base-10 integer literal (an optional sign, then decimal digits) within the signed range
of the width, and then renders the value verbatim; otherwise it returns the single error
`<field>.Invalid`, no value, and `GetFiltering` returns that error unchanged with the
empty string for a filter `field:op:value` reached after values that pass. -/
theorem Seat_Validate_integer (field value : GoString) (bits : Nat)
    (hbits : seatIntegerBits field = some bits) :
    ((Seat.Validate field value).2.2 = [] ↔ isIntOfSize bits value) ∧
      (isIntOfSize bits value →
        Seat.Validate field value = (field, value, []) ∧ isIntLiteral value) ∧
      (¬ isIntOfSize bits value →
        Seat.Validate field value
          = (field, gostr "", [⟨field ++ ".Invalid", field ++ " is not integer", field⟩]) ∧
        ∀ (pre post : List GoString) (expression o : GoString),
          (∀ e ∈ pre, ∃ exps, filterStep seatSearchChecker e = .ok exps) →
          filterRecord expression = some [field, o, value] →
          GetFiltering seatSearchChecker (pre ++ expression :: post)
            = (gostr "",
                [⟨field ++ ".Invalid", field ++ " is not integer", field⟩])) := by
  have heq := Seat_Validate_integer_eq field value bits hbits
  refine ⟨?_, ?_, ?_⟩
  · rw [heq]
    by_cases hi : isIntOfSize bits value
    · simp [hi]
    · simp [hi]
  · intro hi
    rw [heq, if_pos hi]
    exact ⟨rfl, hi.1⟩
  · intro hi
    rw [heq, if_neg hi]
    refine ⟨rfl, ?_⟩
    intro pre post expression o hpre hrec
    obtain ⟨element, more, hq, hr⟩ := filterRecord_eq_some hrec
    have hstar : field ≠ "*" := by
      intro hs
      have hnone : seatIntegerBits (gostr "*") = none := by decide
      rw [hs, hnone] at hbits
      simp at hbits
    have hv : seatSearchChecker.Validate field value
        = (field, gostr "", [⟨field ++ ".Invalid", field ++ " is not integer", field⟩]) := by
      show Seat.Validate field value = _
      rw [heq, if_neg hi]
    have hstep : filterStep seatSearchChecker expression
        = .error [⟨field ++ ".Invalid", field ++ " is not integer", field⟩] := by
      rw [filterStep_of_record seatSearchChecker expression element field o value more hq hr,
        if_neg hstar, hv]
      rfl
    unfold GetFiltering
    rw [filteringLoop_first_error seatSearchChecker pre expression post _ hpre hstep]

/-- C24 at the request of the test: `filter=id:eq:test` gives `id.Invalid`. -/
theorem Seat_Validate_integer_witness :
    GetFiltering seatSearchChecker [gostr "id:eq:test"]
      = (gostr "", [⟨"id.Invalid", "id is not integer", "id"⟩]) := by
  have h := ((Seat_Validate_integer (gostr "id") (gostr "test") 64 (by decide)).2.2
    (by decide)).2 [] [] (gostr "id:eq:test") (gostr "eq") (by simp) (by decide)
  rw [List.nil_append] at h
  rw [h]
  decide

/-! ## The number of parts of a filter value -/

theorem filteringLoop_skip_empty (checker : SearchFieldChecker) (post : List GoString)
    (pre : List GoString) :
    ∀ filters : List FilterExp,
      filteringLoop checker (pre ++ [] :: post) filters
        = filteringLoop checker (pre ++ post) filters := by
  induction pre with
  | nil =>
    intro filters
    rw [List.nil_append, List.nil_append, filteringLoop_cons, filterStep_nil]
    dsimp only
    rw [List.append_nil]
  | cons e rest ih =>
    intro filters
    rw [List.cons_append, List.cons_append, filteringLoop_cons, filteringLoop_cons]
    cases filterStep checker e with
    | error errs => rfl
    | ok exps => exact ih _

/-- C25: for any checker, a filter value whose first record has a number of parts other
than three, reached after values that pass, makes `GetFiltering` fail with the single
error `filter.WrongLength` and no string; an empty filter value is skipped: the result
is that of the list without it. -/
theorem GetFiltering_wrong_length (checker : SearchFieldChecker)
    (pre post : List GoString) (expression : GoString) (record : List GoString)
    (hpre : ∀ e ∈ pre, ∃ exps, filterStep checker e = .ok exps)
    (hrec : filterRecord expression = some record) (hlen : record.length ≠ 3) :
    GetFiltering checker (pre ++ expression :: post)
        = (gostr "",
            [⟨"filter.WrongLength", "Filter has wrong length of elements", "filter"⟩]) ∧
      GetFiltering checker (pre ++ gostr "" :: post) = GetFiltering checker (pre ++ post) := by
  constructor
  · obtain ⟨element, more, hq, hr⟩ := filterRecord_eq_some hrec
    have hstep := filterStep_of_other checker expression element record more hq hr hlen
    unfold GetFiltering
    rw [filteringLoop_first_error checker pre expression post _ hpre hstep]
    rfl
  · unfold GetFiltering
    rw [gostr_empty, filteringLoop_skip_empty]

/-- C25 at the requests of the tests: `filter=line:eq` has two parts, and the empty
value of `filter=` is skipped. -/
theorem GetFiltering_wrong_length_witness :
    filterRecord (gostr "line:eq") = some [gostr "line", gostr "eq"] ∧
      GetFiltering seatSearchChecker [gostr "line:eq"]
        = (gostr "",
            [⟨"filter.WrongLength", "Filter has wrong length of elements", "filter"⟩]) ∧
      GetFiltering seatSearchChecker [gostr ""] = (gostr "", []) := by
  have h := GetFiltering_wrong_length seatSearchChecker [] [] (gostr "line:eq")
    [gostr "line", gostr "eq"] (by simp) (by decide) (by decide)
  rw [List.nil_append, List.nil_append] at h
  refine ⟨by decide, h.1, ?_⟩
  rw [h.2]
  decide

/-! ## Quoted values -/

theorem normalizeLines_append_quote (s : GoString) (h : 10 ∉ s) :
    normalizeLines (s ++ [34]) = s ++ [34] := by
  induction s with
  | nil => decide
  | cons c rest ih =>
    rw [List.mem_cons, not_or] at h
    have ih2 := ih h.2
    cases rest with
    | nil =>
      show normalizeLines [c, 34] = [c, 34]
      rw [normalizeLines, if_neg (by simp)]
      rfl
    | cons d more =>
      have hd : d ≠ 10 := by
        intro hd
        apply h.2
        rw [hd]
        exact List.mem_cons_self _ _
      show normalizeLines (c :: d :: (more ++ [34])) = c :: d :: (more ++ [34])
      rw [normalizeLines, if_neg (fun hc => hd hc.2)]
      exact congrArg (List.cons c) ih2

theorem csvRecords_quoted (comma : Nat) (v : GoString) :
    ∀ (field : GoString) (record : List GoString),
      csvRecords comma .quoted field record (Replace v 34 [34, 34] ++ [34])
        = [record ++ [field ++ v]] := by
  induction v with
  | nil =>
    intro field record
    show csvRecords comma .quoted field record [34] = _
    rw [csvRecords, if_pos rfl, csvRecords, List.append_nil]
    simp
  | cons c rest ih =>
    intro field record
    rw [Replace_cons]
    by_cases h : c = 34
    · rw [if_pos h, h]
      show csvRecords comma .quoted field record (34 :: 34 :: (Replace rest 34 [34, 34] ++ [34]))
        = _
      rw [csvRecords, if_pos rfl, csvRecords, if_pos rfl, ih, List.append_assoc]
      rfl
    · rw [if_neg h]
      show csvRecords comma .quoted field record (c :: (Replace rest 34 [34, 34] ++ [34])) = _
      rw [csvRecords, if_neg h, ih, List.append_assoc]
      rfl

theorem not_mem_Replace (v : GoString) (c old : Nat) (new : GoString) (hv : c ∉ v)
    (hnew : c ∉ new) : c ∉ Replace v old new := by
  induction v with
  | nil => simp [Replace]
  | cons d rest ih =>
    rw [List.mem_cons, not_or] at hv
    rw [Replace_cons, List.mem_append, not_or]
    refine ⟨?_, ih hv.2⟩
    by_cases h : d = old
    · rw [if_pos h]
      exact hnew
    · rw [if_neg h, List.mem_singleton]
      exact hv.1

theorem ReadAll_quotedFilter (f v : GoString) (hf : f = "name" ∨ f = "*") (hv : 10 ∉ v) :
    ReadAll delimiter (quotedFilter f v) = some [[f, gostr "eq", v]] := by
  have h1 : gostr "\"" = [34] := by decide
  have h2 : gostr "\"\"" = [34, 34] := by decide
  have h3 : gostr ":eq:\"" = [58, 101, 113, 58, 34] := by decide
  have h4 : gostr "name" = [110, 97, 109, 101] := by decide
  have h5 : gostr "*" = [42] := by decide
  have h6 : gostr "eq" = [101, 113] := by decide
  have hw : 10 ∉ Replace v 34 [34, 34] := not_mem_Replace v 10 34 [34, 34] hv (by decide)
  unfold ReadAll quotedFilter
  rw [h1, h2, h3, h6]
  rcases hf with hf | hf
  · rw [hf, h4]
    have hn : 10 ∉ ([110, 97, 109, 101] ++ [58, 101, 113, 58, 34] ++ Replace v 34 [34, 34]) := by
      simp only [List.mem_append, not_or]
      exact ⟨⟨by decide, by decide⟩, hw⟩
    rw [normalizeLines_append_quote _ hn]
    have hc : csvRecords delimiter .recordStart [] []
        ([110, 97, 109, 101] ++ [58, 101, 113, 58, 34] ++ Replace v 34 [34, 34] ++ [34])
        = [[[110, 97, 109, 101], [101, 113], v]] := by
      have := csvRecords_quoted 58 v [] [[110, 97, 109, 101], [101, 113]]
      simp only [List.nil_append, List.cons_append, List.append_assoc] at this ⊢
      simp [csvRecords, delimiter, this]
    rw [hc]
    rfl
  · rw [hf, h5]
    have hn : 10 ∉ ([42] ++ [58, 101, 113, 58, 34] ++ Replace v 34 [34, 34]) := by
      simp only [List.mem_append, not_or]
      exact ⟨⟨by decide, by decide⟩, hw⟩
    rw [normalizeLines_append_quote _ hn]
    have hc : csvRecords delimiter .recordStart [] []
        ([42] ++ [58, 101, 113, 58, 34] ++ Replace v 34 [34, 34] ++ [34])
        = [[[42], [101, 113], v]] := by
      have := csvRecords_quoted 58 v [] [[42], [101, 113]]
      simp only [List.nil_append, List.cons_append, List.append_assoc] at this ⊢
      simp [csvRecords, delimiter, this]
    rw [hc]
    rfl


theorem GetFiltering_single (checker : SearchFieldChecker) (expression : GoString)
    (filter : FilterExp) (h : filterStep checker expression = .ok [filter]) :
    GetFiltering checker [expression]
      = ((" AND " : GoString) ++ wildcardGroup filter.Fields filter.Op filter.Value, []) := by
  have hloop := filteringLoop_ok checker [expression] (fun _ => [filter])
    (by
      intro e he
      rw [List.mem_singleton] at he
      rw [he, h]) []
  unfold GetFiltering
  rw [hloop]
  dsimp only
  rw [filterText_groups]
  simp [filterText, Join]

theorem filterOp_eq_code (value : GoString) :
    filterOp (gostr "eq") value = some (gostr "=", value) := by
  have h : ToLower (gostr "eq") = gostr "eq" := by decide
  unfold filterOp
  rw [if_pos h]

/-- C26: for every text `v` without a line feed (it may hold `:` and `"`), the filter
value `f:eq:"w"`, `w` being `v` with each `"` doubled, is read by the csv reader as the
one record of the three parts `f`, `eq`, `v`, for `f` the String field `name` and for
the wildcard `*`. So a filter that unescapes to it compares with the string literal of
`v` (each `'` doubled, in single quotes): `name` in the Flight schema, and every
filterable field of the Seat or the Flight schema for the wildcard. -/
theorem quotedFilter_roundtrip (v : GoString) (hv : 10 ∉ v) :
    (∀ f : GoString, f = "name" ∨ f = "*" →
        ReadAll delimiter (quotedFilter f v) = some [[f, gostr "eq", v]]) ∧
      (∀ expression : GoString, QueryUnescape expression = some (quotedFilter "name" v) →
        GetFiltering flightSearchChecker [expression]
          = ((" AND " : GoString) ++ specificGroup "name" "=" (quoteValue v), [])) ∧
      (∀ checker : SearchFieldChecker,
        checker = seatSearchChecker ∨ checker = flightSearchChecker →
        ∀ expression : GoString, QueryUnescape expression = some (quotedFilter "*" v) →
          GetFiltering checker [expression]
            = ((" AND " : GoString)
                ++ wildcardGroup checker.GetAllFields "=" (quoteValue v), [])) := by
  refine ⟨fun f hf => ReadAll_quotedFilter f v hf hv, ?_, ?_⟩
  · intro expression hq
    have hr := ReadAll_quotedFilter (gostr "name") v (Or.inl rfl) hv
    have hname : Flight.Validate (gostr "name") v = (gostr "name", quoteValue v, []) := by
      have hn1 : ¬ (gostr "name" = gostr "id" ∨ gostr "name" = gostr "created_at") := by
        decide
      have hn2 : GetSearchTag (gostr "name") flightTags = gostr "name" := by decide
      unfold Flight.Validate
      simp only [hn1, if_false, if_true, hn2]
    have hstar : ¬ (gostr "name" = gostr "*") := by decide
    have hstep : filterStep flightSearchChecker expression
        = .ok [⟨[gostr "name"], gostr "=", quoteValue v⟩] := by
      have hname2 : flightSearchChecker.Validate (gostr "name") v
          = (gostr "name", quoteValue v, []) := hname
      rw [filterStep_of_record flightSearchChecker expression _ _ _ _ [] hq hr, if_neg hstar,
        hname2]
      simp only [List.length_nil, ne_eq, not_true_eq_false, if_false, filterOp_eq_code]
    rw [GetFiltering_single flightSearchChecker expression _ hstep]
    simp [wildcardGroup, specificGroup, Join]
  · intro checker hc expression hq
    have hr := ReadAll_quotedFilter (gostr "*") v (Or.inr rfl) hv
    have hall : checker.ValidateAll v = quoteValue v := by
      rcases hc with rfl | rfl <;> rfl
    have hstep : filterStep checker expression
        = .ok [⟨checker.GetAllFields, gostr "=", quoteValue v⟩] := by
      rw [filterStep_of_record checker expression _ _ _ _ [] hq hr, if_pos rfl, hall,
        filterOp_eq_code]
    rw [GetFiltering_single checker expression _ hstep]

/-- C26 at a value with a colon, a double quote and a single quote: the Flight filter
`name:eq:"a:b""c'"` compares `name` with the literal of `a:b"c'`. -/
theorem quotedFilter_roundtrip_witness :
    quotedFilter (gostr "name") (gostr "a:b\"c'") = gostr "name:eq:\"a:b\"\"c'\"" ∧
      GetFiltering flightSearchChecker [gostr "name:eq:\"a:b\"\"c'\""]
        = (gostr " AND (name = 'a:b\"c''')", []) := by
  refine ⟨by decide, ?_⟩
  rw [(quotedFilter_roundtrip (gostr "a:b\"c'") (by decide)).2.1
    (gostr "name:eq:\"a:b\"\"c'\"") (by decide)]
  decide


/-! ## The operator `lk` -/

theorem Replace_star_length (v : GoString) : (Replace v 42 [37]).length = v.length := by
  induction v with
  | nil => rfl
  | cons c rest ih =>
    rw [Replace_cons, List.length_append, ih]
    by_cases h : c = 42
    · rw [if_pos h, List.length_cons, List.length_cons, List.length_nil]
      omega
    · rw [if_neg h, List.length_cons, List.length_cons, List.length_nil]
      omega

theorem mem_Replace_star (v : GoString) (h : 42 ∈ v) : 37 ∈ Replace v 42 [37] := by
  induction v with
  | nil => simp at h
  | cons c rest ih =>
    rw [Replace_cons, List.mem_append]
    rcases List.mem_cons.mp h with h1 | h1
    · left
      rw [if_pos h1.symm]
      exact List.mem_singleton.mpr rfl
    · right
      exact ih h1

theorem isIntLiteral_bytes (s : GoString) (h : isIntLiteral s) :
    ∀ c ∈ s, c = 43 ∨ c = 45 ∨ (48 ≤ c ∧ c ≤ 57) := by
  cases s with
  | nil => simp [isIntLiteral] at h
  | cons c rest =>
    unfold isIntLiteral at h
    dsimp only at h
    by_cases hs : c = 43 ∨ c = 45
    · rw [if_pos hs] at h
      intro d hd
      rcases List.mem_cons.mp hd with hd | hd
      · rcases hs with hs | hs
        · left
          rw [hd, hs]
        · right
          left
          rw [hd, hs]
      · right
        right
        exact h.2 d hd
    · rw [if_neg hs] at h
      intro d hd
      right
      right
      exact h d hd

theorem ParseInt_star (v : GoString) (bitSize : Nat) :
    (ParseInt (Replace v 42 [37]) bitSize = none ∧ ParseInt v bitSize = none) ∨
      (Replace v 42 [37] = v ∧ ∃ n, ParseInt v bitSize = some n) := by
  by_cases h : 42 ∈ v
  · left
    constructor
    · rw [ParseInt_eq, if_neg]
      intro hi
      have := isIntLiteral_bytes _ hi.1 37 (mem_Replace_star v h)
      omega
    · rw [ParseInt_eq, if_neg]
      intro hi
      have := isIntLiteral_bytes _ hi.1 42 h
      omega
  · rw [Replace_of_not_mem v 42 [37] h]
    cases hp : ParseInt v bitSize with
    | none => exact Or.inl ⟨rfl, rfl⟩
    | some n => exact Or.inr ⟨rfl, n, rfl⟩

theorem ParseBool_bytes (s : GoString) (b : Bool) (h : ParseBool s = some b) :
    42 ∉ s ∧ 37 ∉ s := by
  unfold ParseBool at h
  split at h
  · rename_i hs
    rcases hs with hs | hs | hs | hs | hs | hs <;> rw [hs] <;> decide
  · split at h
    · rename_i hs
      rcases hs with hs | hs | hs | hs | hs | hs <;> rw [hs] <;> decide
    · simp at h

theorem ParseBool_star (v : GoString) :
    (ParseBool (Replace v 42 [37]) = none ∧ ParseBool v = none) ∨
      (Replace v 42 [37] = v ∧ ∃ b, ParseBool v = some b) := by
  by_cases h : 42 ∈ v
  · left
    constructor
    · cases hp : ParseBool (Replace v 42 [37]) with
      | none => rfl
      | some b => exact absurd (mem_Replace_star v h) (ParseBool_bytes _ b hp).2
    · cases hp : ParseBool v with
      | none => rfl
      | some b => exact absurd h (ParseBool_bytes _ b hp).1
  · rw [Replace_of_not_mem v 42 [37] h]
    cases hp : ParseBool v with
    | none => exact Or.inl ⟨rfl, rfl⟩
    | some b => exact Or.inr ⟨rfl, b, rfl⟩

theorem Replace_quote_star (v : GoString) :
    Replace (Replace v 39 [39, 39]) 42 [37] = Replace (Replace v 42 [37]) 39 [39, 39] := by
  induction v with
  | nil => rfl
  | cons c rest ih =>
    rw [Replace_cons, Replace_cons, Replace_append, Replace_append, ih]
    congr 1
    by_cases h1 : c = 39
    · rw [h1]
      decide
    · by_cases h2 : c = 42
      · rw [h2]
        decide
      · rw [if_neg h1, if_neg h2, Replace_cons, Replace_cons, if_neg h1, if_neg h2]
        rfl

theorem quoteValue_star (v : GoString) :
    Replace (quoteValue v) 42 [37] = quoteValue (Replace v 42 [37]) := by
  rw [quoteValue_eq, quoteValue_eq, Replace_cons, Replace_append, Replace_quote_star]
  rfl

theorem formatBool_star (b : Bool) : Replace (formatBool b) 42 [37] = formatBool b := by
  cases b <;> decide

theorem Seat_Validate_star (f v : GoString) :
    Seat.Validate f (Replace v 42 [37])
      = ((Seat.Validate f v).1, Replace (Seat.Validate f v).2.1 42 [37],
          (Seat.Validate f v).2.2) := by
  have he : Replace (gostr "") 42 [37] = gostr "" := by decide
  unfold Seat.Validate
  dsimp only
  by_cases h1 : f = "id" ∨ f = "created_at" ∨ f = "updated_at"
  · simp only [if_pos h1]
    rcases ParseInt_star v 64 with ⟨ha, hb⟩ | ⟨ha, n, hb⟩
    · rw [ha, hb]
      dsimp only
      rw [he]
    · rw [ha, hb]
      dsimp only
      rw [ha]
  · simp only [if_neg h1]
    by_cases h2 : f = "index" ∨ f = "type" ∨ f = "row"
    · simp only [if_pos h2]
      rcases ParseInt_star v 32 with ⟨ha, hb⟩ | ⟨ha, n, hb⟩
      · rw [ha, hb]
        dsimp only
        rw [he]
      · rw [ha, hb]
        dsimp only
        rw [ha]
    · simp only [if_neg h2]
      by_cases h3 : f = "line"
      · simp only [if_pos h3, Replace_star_length]
        by_cases h4 : v.length = 1
        · simp only [h4, ne_eq, not_true_eq_false, if_false, quoteValue_star]
        · simp only [h4, ne_eq, not_false_eq_true, if_true, he]
      · simp only [if_neg h3]
        by_cases h4 : f = "assigned"
        · simp only [if_pos h4]
          rcases ParseBool_star v with ⟨ha, hb⟩ | ⟨ha, b, hb⟩
          · rw [ha, hb]
            dsimp only
            rw [he]
          · rw [ha, hb]
            dsimp only
            rw [formatBool_star]
        · simp only [if_neg h4, he]

theorem Flight_Validate_star (f v : GoString) :
    Flight.Validate f (Replace v 42 [37])
      = ((Flight.Validate f v).1, Replace (Flight.Validate f v).2.1 42 [37],
          (Flight.Validate f v).2.2) := by
  have he : Replace (gostr "") 42 [37] = gostr "" := by decide
  unfold Flight.Validate
  dsimp only
  by_cases h1 : f = "id" ∨ f = "created_at"
  · simp only [if_pos h1]
    rcases ParseInt_star v 64 with ⟨ha, hb⟩ | ⟨ha, n, hb⟩
    · rw [ha, hb]
      dsimp only
      rw [he]
    · rw [ha, hb]
      dsimp only
      rw [ha]
  · simp only [if_neg h1]
    by_cases h2 : f = "name"
    · simp only [if_pos h2, quoteValue_star]
    · simp only [if_neg h2, he]

theorem checker_Validate_star (checker : SearchFieldChecker)
    (hc : checker = seatSearchChecker ∨ checker = flightSearchChecker) (f v : GoString) :
    checker.Validate f (Replace v 42 [37])
        = ((checker.Validate f v).1, Replace (checker.Validate f v).2.1 42 [37],
            (checker.Validate f v).2.2) ∧
      checker.ValidateAll (Replace v 42 [37]) = Replace (checker.ValidateAll v) 42 [37] := by
  rcases hc with rfl | rfl
  · exact ⟨Seat_Validate_star f v, (quoteValue_star v).symm⟩
  · exact ⟨Flight_Validate_star f v, (quoteValue_star v).symm⟩

theorem filterOp_like (o value : GoString) (ho : ToLower o = "lk") :
    filterOp o value = some (gostr "LIKE", Replace value 42 [37]) := by
  have hp : gostr "%" = [37] := by decide
  have n1 : ¬ (gostr "lk" = gostr "eq") := by decide
  have n2 : ¬ (gostr "lk" = gostr "lt") := by decide
  have n3 : ¬ (gostr "lk" = gostr "le") := by decide
  have n4 : ¬ (gostr "lk" = gostr "gt") := by decide
  have n5 : ¬ (gostr "lk" = gostr "ge") := by decide
  have n6 : ¬ (gostr "lk" = gostr "ne") := by decide
  unfold filterOp
  rw [ho, if_neg n1, if_neg n2, if_neg n3, if_neg n4, if_neg n5, if_neg n6, if_pos rfl, hp]

/-- C27: for the Seat and the Flight schema, every field `f` (the wildcard `*` too) and
every value `v`: a filter value that parses to `f:lk:v`, the operator code equal to `lk`
ignoring letter case, gives the result of the order of the specification, in which every
`*` of `v` is rewritten to `%` before the validation and escaping: the same errors when
the rewritten value is not valid for the field, and else the group with `LIKE` and the
validated, escaped form of the rewritten value. -/
theorem GetFiltering_like_rewrite (checker : SearchFieldChecker)
    (hc : checker = seatSearchChecker ∨ checker = flightSearchChecker)
    (expression f o v : GoString)
    (hrec : filterRecord expression = some [f, o, v]) (ho : ToLower o = "lk") :
    GetFiltering checker [expression] = likeFilterSpec checker f v ∧
      ((GetFiltering checker [expression]).2 = [] ↔
        f = "*" ∨ (checker.Validate f (Replace v 42 "%")).2.2 = []) := by
  have hp : gostr "%" = [37] := by decide
  obtain ⟨element, more, hq, hr⟩ := filterRecord_eq_some hrec
  obtain ⟨hstar, hall⟩ := checker_Validate_star checker hc f v
  have hstep := filterStep_of_record checker expression element f o v more hq hr
  simp only [filterOp_like _ _ ho] at hstep
  have hmain : GetFiltering checker [expression] = likeFilterSpec checker f v := by
    unfold likeFilterSpec
    dsimp only
    rw [hp]
    by_cases hf : f = "*"
    · rw [if_pos hf] at hstep
      rw [if_pos hf, GetFiltering_single checker expression _ hstep, hall]
    · rw [if_neg hf] at hstep
      rw [if_neg hf, hstar]
      dsimp only
      by_cases herr : (checker.Validate f v).2.2 = []
      · have hlen : ¬ ((checker.Validate f v).2.2.length ≠ 0) := by simp [herr]
        rw [if_neg hlen] at hstep
        rw [GetFiltering_single checker expression _ hstep]
        simp [herr, wildcardGroup, specificGroup, Join]
      · have hlen : (checker.Validate f v).2.2.length ≠ 0 := by
          simpa [List.length_eq_zero] using herr
        rw [if_pos hlen] at hstep
        have hloop := filteringLoop_first_error checker [] expression [] _
          (by simp) hstep []
        rw [List.nil_append] at hloop
        unfold GetFiltering
        rw [hloop]
        simp [herr]
  refine ⟨hmain, ?_⟩
  rw [hmain]
  unfold likeFilterSpec
  dsimp only
  by_cases hf : f = "*"
  · simp [hf]
  · by_cases herr : (checker.Validate f (Replace v 42 (gostr "%"))).2.2 = []
    · simp [hf, herr]
    · simp [hf, herr]

/-- C27 at the filters `line:LK:*` and `id:lk:1*` against the Seat schema: the star
becomes `%` inside the literal; the value `1*` is no integer before or after the
rewriting. -/
theorem GetFiltering_like_rewrite_witness :
    GetFiltering seatSearchChecker [gostr "line:LK:*"] = (gostr " AND (line LIKE '%')", []) ∧
      GetFiltering seatSearchChecker [gostr "id:lk:1*"]
        = (gostr "", [⟨"id.Invalid", "id is not integer", "id"⟩]) := by
  constructor
  · rw [(GetFiltering_like_rewrite seatSearchChecker (Or.inl rfl) (gostr "line:LK:*")
      (gostr "line") (gostr "LK") (gostr "*") (by decide) (by decide)).1]
    decide
  · rw [(GetFiltering_like_rewrite seatSearchChecker (Or.inl rfl) (gostr "id:lk:1*")
      (gostr "id") (gostr "lk") (gostr "1*") (by decide) (by decide)).1]
    decide


/-! ## The create-seat endpoint -/

/-- C28 (the code departs from it): when the flight exists and `Assign` finds no
unassigned seat (no seat and no error), `SeatController.Create` responds with the
status 201 Created and the body `null`, not with a 404-class empty response; it never
responds 404 once the flight is found. -/
theorem Create_responds_created_without_seat (flightId : GoString)
    (retrieve : Int → Except DBError (Option Flight)) (flight : Flight) (db : DB) (now : Int)
    (hf : getFlight flightId retrieve = .ok flight)
    (ha : (Assign db now flight.ID).1 = (none, none)) :
    (SeatController.Create flightId retrieve db now).1 = ⟨201, Body.seat none⟩ ∧
      ∀ db2 now2, (SeatController.Create flightId retrieve db2 now2).1.status ≠ 404 := by
  constructor
  · unfold SeatController.Create
    rw [hf]
    dsimp only
    rcases hr : Assign db now flight.ID with ⟨⟨seat, err⟩, db1⟩
    rw [hr] at ha
    simp only [Prod.mk.injEq] at ha
    obtain ⟨h1, h2⟩ := ha
    subst h1
    subst h2
    rfl
  · intro db2 now2
    unfold SeatController.Create
    rw [hf]
    dsimp only
    rcases Assign db2 now2 flight.ID with ⟨⟨seat, err⟩, db1⟩
    cases err with
    | none =>
      show StatusCreated ≠ 404
      decide
    | some e =>
      show StatusInternalServerError ≠ 404
      decide

/-- C28 at a store in which the only seat of flight 7 is taken: no seat is assigned,
and the response is 201 Created with the body `null`. -/
theorem Create_responds_created_without_seat_witness :
    (Assign fullDB 100 7).1 = (none, none) ∧
      (SeatController.Create (gostr "7") retrieveAny fullDB 100).1
        = ⟨201, Body.seat none⟩ :=
  ⟨by decide,
    (Create_responds_created_without_seat (gostr "7") retrieveAny ⟨7, "F", 0, []⟩ fullDB 100
      (by rfl) (by decide)).1⟩


/-! ## Generation on validated flights -/

theorem checkNumbers_fst (err : Error) (numbers : List Int) :
    ∀ st : List Error × Int, ∃ extra, (checkNumbers err numbers st).1 = st.1 ++ extra := by
  induction numbers with
  | nil => intro st; exact ⟨[], by simp [checkNumbers]⟩
  | cons number rest ih =>
    intro st
    rw [checkNumbers]
    obtain ⟨extra, he⟩ := ih (if number ≤ 0 then st.1 ++ [err] else st.1, wrapInt (st.2 + number))
    rw [he]
    by_cases h : number ≤ 0
    · exact ⟨[err] ++ extra, by simp [h]⟩
    · exact ⟨extra, by simp [h]⟩

theorem Block_Validate_sides (block : Block) (h : block.Validate = []) :
    block.SideSeatNumbers.length = 2 := by
  by_contra hlen
  unfold Block.Validate at h
  dsimp only at h
  rw [if_pos hlen] at h
  obtain ⟨e1, h1⟩ := checkNumbers_fst errSideTooSmall block.SideSeatNumbers
    ((if block.Rows ≤ 0 then [] ++ [errRowsTooSmall] else []) ++ [errSideInvalid], 0)
  obtain ⟨e2, h2⟩ := checkNumbers_fst errMiddleTooSmall block.MiddleSeatNumbers
    (checkNumbers errSideTooSmall block.SideSeatNumbers
      ((if block.Rows ≤ 0 then [] ++ [errRowsTooSmall] else []) ++ [errSideInvalid], 0))
  rw [h2, h1] at h
  split at h <;> split at h <;> simp at h

theorem checkBlocks_fst (blocks : List Block) :
    ∀ st : List Error × Int,
      (checkBlocks blocks st).1 = st.1 ++ blocks.flatMap Block.Validate := by
  induction blocks with
  | nil => intro st; simp [checkBlocks]
  | cons block rest ih =>
    intro st
    rw [checkBlocks, ih]
    simp

theorem FlightCreate_Validate_blocks (flight : FlightCreate) (h : flight.Validate = []) :
    ∀ b ∈ flight.Blocks, b.Validate = [] := by
  unfold FlightCreate.Validate at h
  dsimp only at h
  rw [checkBlocks_fst] at h
  have h2 : flight.Blocks.flatMap Block.Validate = [] := by
    by_cases hn : flight.Name.length > maxFieldLength
    · rw [if_pos hn] at h
      split at h <;> simp at h
    · rw [if_neg hn] at h
      split at h
      · simp at h
      · simpa using h
  intro b hb
  by_contra hne
  obtain ⟨e, rest, he⟩ := List.exists_cons_of_ne_nil hne
  have hmem : e ∈ flight.Blocks.flatMap Block.Validate := by
    rw [List.mem_flatMap]
    exact ⟨b, hb, by rw [he]; exact List.mem_cons_self _ _⟩
  rw [h2] at hmem
  simp at hmem

theorem genSeat_place (flightID now i : Int) (ty : SeatType) (l c : Int) :
    (genSeat flightID now i ty l c).place = genSeat 0 0 i ty l c := by
  simp only [genSeat, Seat.place]

theorem layoutSeats_place (flightID now i : Int) (types : List SeatType) :
    ∀ l c : Nat, (layoutSeats flightID now i types l c).map Seat.place
      = layoutSeats 0 0 i types l c := by
  induction types with
  | nil => intro l c; rfl
  | cons ty rest ih =>
    intro l c
    rw [layoutSeats, layoutSeats, List.map_cons, ih, genSeat_place]

theorem blockSeats_place (flightID now : Int) (types : List SeatType) (rows : List Int) :
    ∀ c : Nat, (blockSeats flightID now types rows c).map Seat.place
      = blockSeats 0 0 types rows c := by
  induction rows with
  | nil => intro c; rfl
  | cons i later ih =>
    intro c
    rw [blockSeats, blockSeats, List.map_append, layoutSeats_place, ih]

theorem flightSeats_place (flightID now : Int) (blocks : List Block) :
    ∀ c : Nat, (flightSeats flightID now blocks c).map Seat.place
      = flightSeats 0 0 blocks c := by
  induction blocks with
  | nil => intro c; rfl
  | cons block rest ih =>
    intro c
    rw [flightSeats, flightSeats, List.map_append, blockSeats_place, ih]



/-! ## Seats with the same row and line -/


/-! ## Rows held in slices -/

theorem Block.rowTypes_count (block : Block) : block.rowTypes.length = block.rowCount := by
  unfold Block.rowTypes Block.rowCount
  rw [Booking.rowTypes_length]

theorem rowsSlices_of_fits (flightID now : Int) (block : Block)
    (hfit : ((block.rowCount : Nat) : Int) ≤ maxInt) :
    ∀ (rows : List Int) (index : Int),
      rowsSlices flightID now block rows index = rowsLoop flightID now block rows index := by
  have hrow : ∀ i index, rowSlice flightID now block i index
      = rowSeats flightID now block i index := by
    intro i index
    unfold rowSlice
    rw [if_neg (not_lt.mpr hfit)]
  intro rows
  induction rows with
  | nil => intro index; rfl
  | cons i later ih =>
    intro index
    rw [rowsSlices, rowsLoop, hrow]
    cases rowSeats flightID now block i index with
    | none => rfl
    | some r =>
      dsimp only
      rw [ih]

theorem rowsSlices_of_not_fits (flightID now : Int) (block : Block)
    (hfit : ¬ ((block.rowCount : Nat) : Int) ≤ maxInt) (i : Int) (later : List Int)
    (index : Int) :
    rowsSlices flightID now block (i :: later) index = none := by
  rw [rowsSlices]
  unfold rowSlice
  rw [if_pos (not_le.mp hfit)]

theorem loopRange_of_pos (n : Int) (h : 0 < n) : ∃ later, loopRange n = 0 :: later := by
  obtain ⟨r, hr⟩ : ∃ r, n.toNat = r + 1 := ⟨n.toNat - 1, by omega⟩
  refine ⟨((List.range r).map Nat.succ).map Int.ofNat, ?_⟩
  unfold loopRange
  rw [hr, List.range_succ_eq_map]
  rfl

theorem blocksSlices_of_fits (flightID now : Int) :
    ∀ (blocks : List Block), (∀ b ∈ blocks, ((b.rowCount : Nat) : Int) ≤ maxInt) →
      ∀ index : Int, blocksSlices flightID now blocks index
        = blocksLoop flightID now blocks index := by
  intro blocks
  induction blocks with
  | nil => intro _ index; rfl
  | cons block rest ih =>
    intro hfit index
    rw [blocksSlices, blocksLoop,
      rowsSlices_of_fits flightID now block (hfit block (List.mem_cons_self _ _))]
    cases rowsLoop flightID now block (loopRange block.Rows) index with
    | none => rfl
    | some r =>
      dsimp only
      rw [ih (fun b hb => hfit b (List.mem_cons_of_mem _ hb))]

theorem blocksSlices_of_not_fits (flightID now : Int) :
    ∀ (blocks : List Block), (∀ b ∈ blocks, 0 < b.Rows) →
      (∃ b ∈ blocks, ¬ ((b.rowCount : Nat) : Int) ≤ maxInt) →
      ∀ index : Int, blocksSlices flightID now blocks index = none := by
  intro blocks
  induction blocks with
  | nil =>
    intro _ h
    obtain ⟨b, hb, _⟩ := h
    simp at hb
  | cons block rest ih =>
    intro hrows h index
    rw [blocksSlices]
    by_cases hfit : ((block.rowCount : Nat) : Int) ≤ maxInt
    · have hrest : ∃ b ∈ rest, ¬ ((b.rowCount : Nat) : Int) ≤ maxInt := by
        obtain ⟨b, hb, hnot⟩ := h
        rcases List.mem_cons.mp hb with hb | hb
        · rw [hb] at hnot
          exact absurd hfit hnot
        · exact ⟨b, hb, hnot⟩
      cases rowsSlices flightID now block (loopRange block.Rows) index with
      | none => rfl
      | some r =>
        dsimp only
        rw [ih (fun b hb => hrows b (List.mem_cons_of_mem _ hb)) hrest]
    · obtain ⟨later, hl⟩ := loopRange_of_pos block.Rows (hrows block (List.mem_cons_self _ _))
      rw [hl, rowsSlices_of_not_fits flightID now block hfit]

/-- With two side entries and at least one row in every block, the generation comes to
its end exactly when every row fits its slice, and its seats are then those of the
position-by-position layout. -/
theorem GenerateSeats_eq_some_iff (flightID now : Int) (blocks : List Block)
    (hside : ∀ b ∈ blocks, b.SideSeatNumbers.length = 2) (hrows : ∀ b ∈ blocks, 0 < b.Rows)
    (seats : List Seat) :
    GenerateSeats flightID now blocks = some seats ↔
      (∀ b ∈ blocks, ((b.rowCount : Nat) : Int) ≤ maxInt) ∧
        seats = flightSeats flightID now blocks 0 := by
  have h0 : (0 : Int) = wrapInt ((0 : Nat) : Int) := by decide
  by_cases hfit : ∀ b ∈ blocks, ((b.rowCount : Nat) : Int) ≤ maxInt
  · have hg : GenerateSeats flightID now blocks = some (flightSeats flightID now blocks 0) := by
      unfold GenerateSeats
      rw [blocksSlices_of_fits flightID now blocks hfit, h0,
        blocksLoop_eq flightID now blocks 0 hside]
      rfl
    rw [hg]
    constructor
    · intro h
      exact ⟨hfit, (Option.some.inj h).symm⟩
    · intro h
      rw [h.2]
  · have hg : GenerateSeats flightID now blocks = none := by
      unfold GenerateSeats
      rw [blocksSlices_of_not_fits flightID now blocks hrows (by
        by_contra hne
        apply hfit
        intro b hb
        by_contra hb2
        exact hne ⟨b, hb, hb2⟩)]
      rfl
    rw [hg]
    constructor
    · intro h
      simp at h
    · intro h
      exact absurd h.1 hfit

theorem rowsSlices_some (flightID now : Int) (block : Block) :
    ∀ (rows : List Int) (index : Int) (r : List Seat × Int),
      rowsSlices flightID now block rows index = some r →
      rowsLoop flightID now block rows index = some r := by
  intro rows
  induction rows with
  | nil => intro index r h; exact h
  | cons i later ih =>
    intro index r h
    rw [rowsSlices] at h
    rw [rowsLoop]
    unfold rowSlice at h
    by_cases hfit : ((block.rowCount : Nat) : Int) > maxInt
    · rw [if_pos hfit] at h
      simp at h
    · rw [if_neg hfit] at h
      cases hrow : rowSeats flightID now block i index with
      | none =>
        rw [hrow] at h
        simp at h
      | some r1 =>
        rw [hrow] at h
        dsimp only at h ⊢
        cases hrest : rowsSlices flightID now block later r1.2 with
        | none =>
          rw [hrest] at h
          simp at h
        | some r2 =>
          rw [hrest] at h
          rw [ih r1.2 r2 hrest]
          exact h

theorem blocksSlices_some (flightID now : Int) :
    ∀ (blocks : List Block) (index : Int) (r : List Seat × Int),
      blocksSlices flightID now blocks index = some r →
      blocksLoop flightID now blocks index = some r := by
  intro blocks
  induction blocks with
  | nil => intro index r h; exact h
  | cons block rest ih =>
    intro index r h
    rw [blocksSlices] at h
    rw [blocksLoop]
    cases hrows : rowsSlices flightID now block (loopRange block.Rows) index with
    | none =>
      rw [hrows] at h
      simp at h
    | some r1 =>
      rw [hrows] at h
      rw [rowsSlices_some flightID now block _ index r1 hrows]
      dsimp only at h ⊢
      cases hrest : blocksSlices flightID now rest r1.2 with
      | none =>
        rw [hrest] at h
        simp at h
      | some r2 =>
        rw [hrest] at h
        rw [ih r1.2 r2 hrest]
        exact h

/-- The seats the generation hands over, when it comes to its end, are the seats of the
loops. -/
theorem GenerateSeats_some_CreateSeats (flightID now : Int) (blocks : List Block)
    (seats : List Seat) (h : GenerateSeats flightID now blocks = some seats) :
    CreateSeats flightID now blocks = some seats := by
  unfold GenerateSeats at h
  unfold CreateSeats
  cases hb : blocksSlices flightID now blocks 0 with
  | none =>
    rw [hb] at h
    simp at h
  | some r =>
    rw [hb] at h
    rw [blocksSlices_some flightID now blocks 0 r hb]
    exact h

/-! ## What `Block.Validate` accepts -/

theorem checkNumbers_eq (err : Error) (numbers : List Int) :
    ∀ st : List Error × Int,
      checkNumbers err numbers st
        = (st.1 ++ (numbers.filter (fun n => decide (n ≤ 0))).map (fun _ => err),
            numbers.foldl (fun acc n => wrapInt (acc + n)) st.2) := by
  induction numbers with
  | nil => intro st; simp [checkNumbers]
  | cons number rest ih =>
    intro st
    rw [checkNumbers, ih]
    by_cases h : number ≤ 0
    · simp [h, List.filter_cons]
    · simp [h, List.filter_cons]

theorem foldl_wrapInt_sum (numbers : List Int) :
    ∀ a : Int, numbers.foldl (fun acc n => wrapInt (acc + n)) (wrapInt a)
      = wrapInt (a + numbers.sum) := by
  induction numbers with
  | nil => intro a; simp
  | cons number rest ih =>
    intro a
    rw [List.foldl_cons, wrapInt_wrapInt_add, ih, List.sum_cons, add_assoc]

/-- What an accepted block is: at least one row, two side entries, every entry above
zero, and the sum of the entries, as the machine adds it, at most 20. -/
theorem Block_Validate_accepts (block : Block) (h : block.Validate = []) :
    0 < block.Rows ∧ block.SideSeatNumbers.length = 2 ∧
      (∀ n ∈ block.SideSeatNumbers, 0 < n) ∧ (∀ n ∈ block.MiddleSeatNumbers, 0 < n) ∧
      wrapInt (block.SideSeatNumbers.sum + block.MiddleSeatNumbers.sum) ≤ maxLines := by
  have h0 : (0 : Int) = wrapInt 0 := by decide
  unfold Block.Validate at h
  dsimp only at h
  rw [checkNumbers_eq, checkNumbers_eq] at h
  dsimp only at h
  have e1 := foldl_wrapInt_sum block.SideSeatNumbers 0
  rw [← h0] at e1
  rw [e1, foldl_wrapInt_sum, zero_add] at h
  have hall : ∀ l : List Int, (l.filter (fun n => decide (n ≤ 0))) = [] → ∀ n ∈ l, 0 < n := by
    intro l hl n hn
    by_contra hneg
    have : n ∈ l.filter (fun n => decide (n ≤ 0)) := by
      rw [List.mem_filter]
      exact ⟨hn, by simpa using hneg⟩
    rw [hl] at this
    simp at this
  by_cases hsum : wrapInt (block.SideSeatNumbers.sum + block.MiddleSeatNumbers.sum) > maxLines
  · rw [if_pos hsum] at h
    simp at h
  · rw [if_neg hsum] at h
    simp only [List.append_eq_nil, List.map_eq_nil_iff] at h
    obtain ⟨⟨h1, h2⟩, h3⟩ := h
    by_cases hlen : block.SideSeatNumbers.length ≠ 2
    · rw [if_pos hlen] at h1
      simp at h1
    · rw [if_neg hlen] at h1
      by_cases hr : block.Rows ≤ 0
      · rw [if_pos hr] at h1
        simp at h1
      · exact ⟨not_le.mp hr, not_not.mp hlen, hall _ h2, hall _ h3, not_lt.mp hsum⟩

/-- The row of an accepted block has at most 20 seats, or more than a slice holds. -/
theorem Block_Validate_rowCount (block : Block) (h : block.Validate = []) :
    block.rowCount ≤ 20 ∨ ¬ ((block.rowCount : Nat) : Int) ≤ maxInt := by
  obtain ⟨_, hlen, hs, hm, hsum⟩ := Block_Validate_accepts block h
  obtain ⟨n0, n1, hsn⟩ := List.length_eq_two.mp hlen
  have h0 : 0 < n0 := hs n0 (by rw [hsn]; simp)
  have h1 : 0 < n1 := hs n1 (by rw [hsn]; simp)
  have hmid := sum_map_toNat (fun n hn => le_of_lt (hm n hn))
  have hcount : ((block.rowCount : Nat) : Int)
      = block.SideSeatNumbers.sum + block.MiddleSeatNumbers.sum := by
    unfold Block.rowCount
    rw [hsn]
    simp only [List.getD_cons_zero, List.getD_cons_succ, Nat.cast_add, hmid,
      Int.toNat_of_nonneg (le_of_lt h0), Int.toNat_of_nonneg (le_of_lt h1), List.sum_cons,
      List.sum_nil]
    ring
  by_cases hfit : ((block.rowCount : Nat) : Int) ≤ maxInt
  · left
    rw [← hcount, wrapInt_of_inRange (by omega) hfit] at hsum
    unfold maxLines at hsum
    omega
  · exact Or.inr hfit

theorem Block_Validate_rowCount_pos (block : Block) (h : block.Validate = []) :
    0 < block.rowCount := by
  obtain ⟨_, hlen, hs, _, _⟩ := Block_Validate_accepts block h
  obtain ⟨n0, n1, hsn⟩ := List.length_eq_two.mp hlen
  have h0 : 0 < n0 := hs n0 (by rw [hsn]; simp)
  unfold Block.rowCount
  rw [hsn]
  simp only [List.getD_cons_zero]
  omega


/-! ## Rows and lines of the generated seats -/

theorem stringOfInt_letter (k : Nat) (hk : k < 20) :
    stringOfInt (wrapInt ((65 + k : Nat) : Int)) = lineLetter k := by
  have h1 : wrapInt ((65 + k : Nat) : Int) = ((65 + k : Nat) : Int) :=
    wrapInt_of_inRange (by omega) (by unfold maxInt; omega)
  rw [h1]
  unfold stringOfInt lineLetter
  rw [if_pos (by omega)]
  rfl

theorem layoutSeats_key (flightID now i : Int) (types : List SeatType) :
    ∀ (l c : Nat), (layoutSeats flightID now i types l c).map (fun s => (s.Row, s.Line))
      = (List.range' l types.length).map
          (fun (k : Nat) => (i + 1, stringOfInt (wrapInt (k : Int)))) := by
  induction types with
  | nil => intro l c; rfl
  | cons ty rest ih =>
    intro l c
    simp only [layoutSeats, List.map_cons, ih, List.length_cons, List.range'_succ, genSeat]

theorem layoutSeats_key_letters (flightID now i : Int) (types : List SeatType) (c : Nat)
    (hlen : types.length ≤ 20) :
    (layoutSeats flightID now i types 65 c).map (fun s => (s.Row, s.Line))
      = (List.range types.length).map (fun k => (i + 1, lineLetter k)) := by
  rw [layoutSeats_key, List.range'_eq_map_range, List.map_map]
  apply List.map_congr_left
  intro k hk
  rw [List.mem_range] at hk
  show (i + 1, stringOfInt (wrapInt ((65 + k : Nat) : Int))) = (i + 1, lineLetter k)
  rw [stringOfInt_letter k (by omega)]

theorem blockSeats_key (flightID now : Int) (types : List SeatType) (hlen : types.length ≤ 20)
    (rows : List Int) :
    ∀ c : Nat, (blockSeats flightID now types rows c).map (fun s => (s.Row, s.Line))
      = rows.flatMap (fun i => (List.range types.length).map (fun k => (i + 1, lineLetter k))) := by
  induction rows with
  | nil => intro c; rfl
  | cons i later ih =>
    intro c
    rw [blockSeats, List.map_append, layoutSeats_key_letters flightID now i types c hlen, ih,
      List.flatMap_cons]

theorem flightSeats_key (flightID now : Int) (blocks : List Block)
    (hlen : ∀ b ∈ blocks, b.rowCount ≤ 20) :
    ∀ c : Nat, (flightSeats flightID now blocks c).map (fun s => (s.Row, s.Line))
      = specFlightLines blocks := by
  induction blocks with
  | nil => intro c; rfl
  | cons block rest ih =>
    intro c
    have hb : block.rowTypes.length ≤ 20 := by
      rw [Block.rowTypes_count]
      exact hlen block (List.mem_cons_self _ _)
    unfold specFlightLines at ih ⊢
    rw [flightSeats, List.map_append, blockSeats_key flightID now block.rowTypes hb,
      ih (fun b hb => hlen b (List.mem_cons_of_mem _ hb)), List.flatMap_cons,
      Block.rowTypes_count, loopRange, List.flatMap_map]
    rfl

/-- The seats generated for accepted blocks: every row has at most 20 seats, and the
rows and lines are those of the specification. -/
theorem GenerateSeats_keys (flightID now : Int) (blocks : List Block)
    (hvalid : ∀ b ∈ blocks, b.Validate = []) (seats : List Seat)
    (hgen : GenerateSeats flightID now blocks = some seats) :
    (∀ b ∈ blocks, b.rowCount ≤ 20) ∧
      seats = flightSeats flightID now blocks 0 ∧
      seats.map (fun s => (s.Row, s.Line)) = specFlightLines blocks := by
  have hside : ∀ b ∈ blocks, b.SideSeatNumbers.length = 2 :=
    fun b hb => (Block_Validate_accepts b (hvalid b hb)).2.1
  have hrows : ∀ b ∈ blocks, 0 < b.Rows := fun b hb => (Block_Validate_accepts b (hvalid b hb)).1
  obtain ⟨hfit, hseats⟩ := (GenerateSeats_eq_some_iff flightID now blocks hside hrows seats).mp hgen
  have hlen : ∀ b ∈ blocks, b.rowCount ≤ 20 := by
    intro b hb
    rcases Block_Validate_rowCount b (hvalid b hb) with h | h
    · exact h
    · exact absurd (hfit b hb) h
  refine ⟨hlen, hseats, ?_⟩
  rw [hseats]
  exact flightSeats_key flightID now blocks hlen 0

theorem rowSlice_key (flightID now : Int) (block : Block) (hvalid : block.Validate = [])
    (i : Int) (c : Nat) (row : List Seat) (index : Int)
    (h : rowSlice flightID now block i (wrapInt c) = some (row, index)) :
    block.rowCount ≤ 20 ∧
      row.map (fun s => (s.Row, s.Line))
        = (List.range block.rowCount).map (fun k => (i + 1, lineLetter k)) := by
  have hside := (Block_Validate_accepts block hvalid).2.1
  unfold rowSlice at h
  by_cases hfit : ((block.rowCount : Nat) : Int) > maxInt
  · rw [if_pos hfit] at h
    simp at h
  · rw [if_neg hfit, rowSeats_eq flightID now block i c hside] at h
    have hlen : block.rowCount ≤ 20 := by
      rcases Block_Validate_rowCount block hvalid with h2 | h2
      · exact h2
      · exact absurd (not_lt.mp hfit) h2
    refine ⟨hlen, ?_⟩
    simp only [Option.some.injEq, Prod.mk.injEq] at h
    rw [← h.1, layoutSeats_key_letters flightID now i block.rowTypes c
      (by rw [Block.rowTypes_count]; exact hlen), Block.rowTypes_count]

theorem exampleFlight_generated :
    GenerateSeats 7 100 exampleFlight.Blocks = some (flightSeats 7 100 exampleFlight.Blocks 0) :=
  (GenerateSeats_eq_some_iff 7 100 exampleFlight.Blocks (by decide) (by decide) _).mpr
    ⟨by decide, rfl⟩

/-- C6: for every flight accepted by `FlightCreate.Validate`, every row the generation
completes (the slice of row `i` of a block, wherever the counter stands) has as many
seats as the per-row count `k` of its block, `k` at most 20, all in row `i + 1`, with
the lines `A`, `B`, ... consecutively, the first `k` letters, starting again at `A` in
every row; when the generation comes to its end, the rows and lines of all the seats in
order are those of the specification. The first 20 letters are `A` to `T`. -/
theorem generated_rows_lettered (flight : FlightCreate) (hvalid : flight.Validate = []) :
    (∀ b ∈ flight.Blocks, ∀ (flightID now i : Int) (c : Nat) (row : List Seat) (index : Int),
        rowSlice flightID now b i (wrapInt c) = some (row, index) →
        b.rowCount ≤ 20 ∧ row.length = b.rowCount ∧
          row.map (fun s => (s.Row, s.Line))
            = (List.range b.rowCount).map (fun k => (i + 1, lineLetter k))) ∧
      (∀ (flightID now : Int) (seats : List Seat),
        GenerateSeats flightID now flight.Blocks = some seats →
        (∀ b ∈ flight.Blocks, b.rowCount ≤ 20) ∧
          seats.map (fun s => (s.Row, s.Line)) = specFlightLines flight.Blocks) ∧
      (List.range 20).map lineLetter
        = ["A", "B", "C", "D", "E", "F", "G", "H", "I", "J", "K", "L", "M", "N", "O", "P",
            "Q", "R", "S", "T"] := by
  have hblocks := FlightCreate_Validate_blocks flight hvalid
  refine ⟨?_, ?_, by decide⟩
  · intro b hb flightID now i c row index h
    obtain ⟨h1, h2⟩ := rowSlice_key flightID now b (hblocks b hb) i c row index h
    refine ⟨h1, ?_, h2⟩
    have h3 := congrArg List.length h2
    simpa using h3
  · intro flightID now seats hgen
    obtain ⟨h1, _, h3⟩ := GenerateSeats_keys flightID now flight.Blocks hblocks seats hgen
    exact ⟨h1, h3⟩

/-- C6 at the flight `exampleFlight`: it is accepted, its generation comes to its end
with 23 seats, and their rows and lines are those of the specification. -/
theorem generated_rows_lettered_witness :
    exampleFlight.Validate = [] ∧
      (flightSeats 7 100 exampleFlight.Blocks 0).length = 23 ∧
      (flightSeats 7 100 exampleFlight.Blocks 0).map (fun s => (s.Row, s.Line))
        = specFlightLines exampleFlight.Blocks :=
  ⟨by decide, by decide,
    ((generated_rows_lettered exampleFlight (by decide)).2.1 7 100 _
      exampleFlight_generated).2⟩


theorem lineLetter_nodup (n : Nat) (hn : n ≤ 20) : ((List.range n).map lineLetter).Nodup := by
  have h20 : ((List.range 20).map lineLetter).Nodup := by decide
  exact List.Nodup.sublist ((List.range_sublist.mpr hn).map lineLetter) h20

theorem specBlockLines_nodup (rows n : Nat) (hn : n ≤ 20) :
    ((List.range rows).flatMap (fun i =>
      (List.range n).map (fun k => ((i : Int) + 1, lineLetter k)))).Nodup := by
  rw [List.nodup_flatMap]
  constructor
  · intro i _
    apply List.Nodup.of_map Prod.snd
    rw [List.map_map]
    exact lineLetter_nodup n hn
  · apply List.Nodup.pairwise_of_forall_ne (List.nodup_range rows)
    intro a _ b _ hab
    show List.Disjoint _ _
    rw [List.disjoint_left]
    intro x hxa hxb
    rw [List.mem_map] at hxa hxb
    obtain ⟨k1, _, h1⟩ := hxa
    obtain ⟨k2, _, h2⟩ := hxb
    have h3 : ((a : Int) + 1) = ((b : Int) + 1) := by
      have := congrArg Prod.fst (h1.trans h2.symm)
      exact this
    apply hab
    omega

/-- The seats generated for one accepted block: no two of them have the same row and
line, and the rows are those of the specification. -/
theorem singleBlock_keys (flightID now : Int) (block : Block) (hvalid : block.Validate = [])
    (seats : List Seat) (hgen : GenerateSeats flightID now [block] = some seats) :
    block.rowCount ≤ 20 ∧
      seats.map (fun s => (s.Row, s.Line)) = specFlightLines [block] ∧
      (seats.map (fun s => (s.Row, s.Line))).Nodup := by
  have hv : ∀ b ∈ [block], b.Validate = [] := by
    intro b hb
    rw [List.mem_singleton] at hb
    rw [hb]
    exact hvalid
  obtain ⟨h1, _, h3⟩ := GenerateSeats_keys flightID now [block] hv seats hgen
  have hn := h1 block (List.mem_singleton.mpr rfl)
  refine ⟨hn, h3, ?_⟩
  rw [h3]
  unfold specFlightLines
  rw [List.flatMap_cons, List.flatMap_nil, List.append_nil]
  exact specBlockLines_nodup block.Rows.toNat block.rowCount hn

theorem singleBlock_generated (flightID now : Int) (block : Block)
    (hvalid : block.Validate = []) :
    block.rowCount ≤ 20 ↔ ∃ seats, GenerateSeats flightID now [block] = some seats := by
  have hacc := Block_Validate_accepts block hvalid
  have hside : ∀ b ∈ [block], b.SideSeatNumbers.length = 2 := by
    intro b hb
    rw [List.mem_singleton] at hb
    rw [hb]
    exact hacc.2.1
  have hrows : ∀ b ∈ [block], 0 < b.Rows := by
    intro b hb
    rw [List.mem_singleton] at hb
    rw [hb]
    exact hacc.1
  constructor
  · intro hn
    refine ⟨flightSeats flightID now [block] 0,
      (GenerateSeats_eq_some_iff flightID now [block] hside hrows _).mpr ⟨?_, rfl⟩⟩
    intro b hb
    rw [List.mem_singleton] at hb
    rw [hb]
    unfold maxInt
    omega
  · rintro ⟨seats, hgen⟩
    exact (singleBlock_keys flightID now block hvalid seats hgen).1

/-- C8: within the seats generated for a single block accepted by `Block.Validate`, no
two seats share the same (row, line) pair, and the row numbers used are exactly
1, ..., `rows` of the block. The generation comes to its end exactly when the row of
the block has at most 20 seats. -/
theorem generated_block_rowLine_nodup (block : Block) (hvalid : block.Validate = [])
    (flightID now : Int) :
    (block.rowCount ≤ 20 ↔ ∃ seats, GenerateSeats flightID now [block] = some seats) ∧
      ∀ seats, GenerateSeats flightID now [block] = some seats →
        (seats.map (fun s => (s.Row, s.Line))).Nodup ∧
        (∀ s1 ∈ seats, ∀ s2 ∈ seats, s1.Row = s2.Row → s1.Line = s2.Line → s1 = s2) ∧
        ∀ r : Int, (∃ s ∈ seats, s.Row = r) ↔ (1 ≤ r ∧ r ≤ block.Rows) := by
  refine ⟨singleBlock_generated flightID now block hvalid, ?_⟩
  intro seats hgen
  obtain ⟨hn, hkeys, hnodup⟩ := singleBlock_keys flightID now block hvalid seats hgen
  have hpos := Block_Validate_rowCount_pos block hvalid
  have hrows := (Block_Validate_accepts block hvalid).1
  refine ⟨hnodup, ?_, ?_⟩
  · intro s1 h1 s2 h2 hr hl
    exact List.inj_on_of_nodup_map hnodup h1 h2 (by rw [hr, hl])
  · intro r
    have hmem : (∃ s ∈ seats, s.Row = r) ↔
        ∃ p ∈ seats.map (fun s => (s.Row, s.Line)), p.1 = r := by
      constructor
      · rintro ⟨s, hs, hr⟩
        exact ⟨(s.Row, s.Line), List.mem_map.mpr ⟨s, hs, rfl⟩, hr⟩
      · rintro ⟨p, hp, hr⟩
        obtain ⟨s, hs, hsp⟩ := List.mem_map.mp hp
        exact ⟨s, hs, by rw [← hr, ← hsp]⟩
    rw [hmem, hkeys]
    unfold specFlightLines
    rw [List.flatMap_cons, List.flatMap_nil, List.append_nil]
    constructor
    · rintro ⟨p, hp, hr⟩
      rw [List.mem_flatMap] at hp
      obtain ⟨i, hi, hp⟩ := hp
      rw [List.mem_map] at hp
      obtain ⟨k, _, hp⟩ := hp
      rw [List.mem_range] at hi
      have : p.1 = (i : Int) + 1 := by rw [← hp]
      omega
    · rintro ⟨h1, h2⟩
      refine ⟨(r, lineLetter 0), ?_, rfl⟩
      rw [List.mem_flatMap]
      refine ⟨(r - 1).toNat, List.mem_range.mpr (by omega), ?_⟩
      rw [List.mem_map]
      refine ⟨0, List.mem_range.mpr hpos, ?_⟩
      have : (((r - 1).toNat : Nat) : Int) + 1 = r := by omega
      rw [this]

/-- C8 at the first block of `exampleBlocks`, two rows of ten seats: the generation
comes to its end, and no two of the twenty seats share row and line. -/
theorem generated_block_rowLine_nodup_witness :
    (⟨0, 0, 2, [3, 2], [1, 4]⟩ : Block).Validate = [] ∧
      ∃ seats, GenerateSeats 7 100 [⟨0, 0, 2, [3, 2], [1, 4]⟩] = some seats ∧
        seats.length = 20 ∧ (seats.map (fun s => (s.Row, s.Line))).Nodup :=
  ⟨by decide, flightSeats 7 100 [⟨0, 0, 2, [3, 2], [1, 4]⟩] 0,
    (GenerateSeats_eq_some_iff 7 100 _ (by decide) (by decide) _).mpr ⟨by decide, rfl⟩,
    by decide,
    ((generated_block_rowLine_nodup ⟨0, 0, 2, [3, 2], [1, 4]⟩ (by decide) 7 100).2 _
      ((GenerateSeats_eq_some_iff 7 100 _ (by decide) (by decide) _).mpr
        ⟨by decide, rfl⟩)).1⟩

/-- C30: in every single-block flight accepted by `FlightCreate.Validate`, among the
seats generated the key (row, line) of `SeatService.Find`, and so the key (row, type,
line) of the allocator's ordering, belongs to at most one seat. Not so in general: the
flight `twoBlockFlight` of two blocks is accepted, its four seats are generated, and
the seats of index 1 and 3 are both the Aisle seat of row 1, line `A`: the query of
`Find` for row 1, line `A` has two rows, and the two have the same place in the
allocator's order. -/
theorem rowLine_key_single_block :
    (∀ (flight : FlightCreate) (block : Block), flight.Blocks = [block] →
        flight.Validate = [] → ∀ (flightID now : Int) (seats : List Seat),
        GenerateSeats flightID now flight.Blocks = some seats →
        ∀ s1 ∈ seats, ∀ s2 ∈ seats,
          (s1.Row = s2.Row → s1.Line = s2.Line → s1 = s2) ∧
          (orderKey s1 = orderKey s2 → s1 = s2)) ∧
      twoBlockFlight.Validate = [] ∧
      GenerateSeats 1 0 twoBlockFlight.Blocks
        = some [⟨0, 1, 1, SeatTypeAisle, 1, "A", false, 0, 0⟩,
            ⟨0, 1, 2, SeatTypeAisle, 1, "B", false, 0, 0⟩,
            ⟨0, 1, 3, SeatTypeAisle, 1, "A", false, 0, 0⟩,
            ⟨0, 1, 4, SeatTypeAisle, 1, "B", false, 0, 0⟩] ∧
      orderKey ⟨0, 1, 1, SeatTypeAisle, 1, "A", false, 0, 0⟩
        = orderKey ⟨0, 1, 3, SeatTypeAisle, 1, "A", false, 0, 0⟩ ∧
      ((SeatQuery.ByRowLine 1 1 "A").run
          [⟨1, 1, 1, SeatTypeAisle, 1, "A", false, 0, 0⟩,
            ⟨2, 1, 2, SeatTypeAisle, 1, "B", false, 0, 0⟩,
            ⟨3, 1, 3, SeatTypeAisle, 1, "A", false, 0, 0⟩,
            ⟨4, 1, 4, SeatTypeAisle, 1, "B", false, 0, 0⟩]).length = 2 := by
  refine ⟨?_, by decide, by decide, rfl, by decide⟩
  intro flight block hb hvalid flightID now seats hgen s1 h1 s2 h2
  have hbv : block.Validate = [] :=
    FlightCreate_Validate_blocks flight hvalid block (by rw [hb]; exact List.mem_singleton.mpr rfl)
  rw [hb] at hgen
  obtain ⟨_, _, hnodup⟩ := singleBlock_keys flightID now block hbv seats hgen
  have hkey : s1.Row = s2.Row → s1.Line = s2.Line → s1 = s2 := fun hr hl =>
    List.inj_on_of_nodup_map hnodup h1 h2 (by rw [hr, hl])
  refine ⟨hkey, ?_⟩
  intro ho
  unfold orderKey at ho
  have ho2 := congrArg ofLex ho
  simp only [ofLex_toLex, Prod.mk.injEq] at ho2
  have ho3 := congrArg ofLex ho2.2
  simp only [ofLex_toLex, Prod.mk.injEq] at ho3
  exact hkey ho2.1 ho3.2

/-- C29 (the code departs from it): the flight `overflowFlight` is accepted by
`FlightCreate.Validate`, yet its generation does not come to its end, whatever the
flight id and the clock: the row of its block has 18446744073709551614 seats, more than
the slice `seats` holds. For every accepted flight the two side entries of every block
exist; the generation comes to its end exactly when no block has more than 20 seats in a
row, and its seats, flight id and timestamp left out, are then the layout of the
blocks, the same for every flight id and clock. -/
theorem GenerateSeats_fails_on_accepted :
    overflowFlight.Validate = [] ∧
      (∀ b ∈ overflowFlight.Blocks, b.rowCount = 18446744073709551614) ∧
      (∀ flightID now : Int, GenerateSeats flightID now overflowFlight.Blocks = none) ∧
      ∀ flight : FlightCreate, flight.Validate = [] →
        (∀ b ∈ flight.Blocks, ∃ n0 n1,
          b.SideSeatNumbers[0]? = some n0 ∧ b.SideSeatNumbers[1]? = some n1) ∧
        ∀ flightID now : Int,
          ((∀ b ∈ flight.Blocks, b.rowCount ≤ 20) →
            ∃ seats, GenerateSeats flightID now flight.Blocks = some seats ∧
              seats.map Seat.place = flightSeats 0 0 flight.Blocks 0) ∧
          ((∃ b ∈ flight.Blocks, ¬ b.rowCount ≤ 20) →
            GenerateSeats flightID now flight.Blocks = none) := by
  refine ⟨by decide, by decide, ?_, ?_⟩
  · intro flightID now
    have h : ∀ seats, ¬ GenerateSeats flightID now overflowFlight.Blocks = some seats := by
      intro seats hs
      have := ((GenerateSeats_eq_some_iff flightID now overflowFlight.Blocks (by decide)
        (by decide) seats).mp hs).1
      revert this
      decide
    cases hg : GenerateSeats flightID now overflowFlight.Blocks with
    | none => rfl
    | some seats => exact absurd hg (h seats)
  · intro flight hvalid
    have hblocks := FlightCreate_Validate_blocks flight hvalid
    have hside : ∀ b ∈ flight.Blocks, b.SideSeatNumbers.length = 2 :=
      fun b hb => (Block_Validate_accepts b (hblocks b hb)).2.1
    have hrows : ∀ b ∈ flight.Blocks, 0 < b.Rows :=
      fun b hb => (Block_Validate_accepts b (hblocks b hb)).1
    constructor
    · intro b hb
      obtain ⟨n0, n1, hs⟩ := List.length_eq_two.mp (hside b hb)
      exact ⟨n0, n1, by rw [hs]; rfl, by rw [hs]; rfl⟩
    · intro flightID now
      constructor
      · intro hlen
        refine ⟨flightSeats flightID now flight.Blocks 0,
          (GenerateSeats_eq_some_iff flightID now flight.Blocks hside hrows _).mpr ⟨?_, rfl⟩,
          flightSeats_place flightID now flight.Blocks 0⟩
        intro b hb
        have := hlen b hb
        unfold maxInt
        omega
      · rintro ⟨b, hb, hnot⟩
        cases hg : GenerateSeats flightID now flight.Blocks with
        | none => rfl
        | some seats =>
          exact absurd ((GenerateSeats_keys flightID now flight.Blocks hblocks seats hg).1 b hb)
            hnot


/-! ## The field names of a successful filtering -/

theorem flatMap_congr_mem {α β : Type} (l : List α) (f g : α → List β)
    (h : ∀ a ∈ l, f a = g a) : l.flatMap f = l.flatMap g := by
  induction l with
  | nil => rfl
  | cons a rest ih =>
    rw [List.flatMap_cons, List.flatMap_cons, h a (List.mem_cons_self _ _),
      ih (fun b hb => h b (List.mem_cons_of_mem _ hb))]

theorem filteringLoop_ok_steps (checker : SearchFieldChecker) (expressions : List GoString)
    (filters out : List FilterExp)
    (h : filteringLoop checker expressions filters = .ok out) :
    ∀ e ∈ expressions, ∃ exps, filterStep checker e = .ok exps := by
  intro e he
  cases hs : filterStep checker e with
  | ok exps => exact ⟨exps, rfl⟩
  | error errs =>
    obtain ⟨errs2, h2⟩ := filteringLoop_mem_error checker expressions e errs he hs filters
    rw [h2] at h
    simp at h

theorem filterStep_ok_groups (checker : SearchFieldChecker)
    (hc : checker = seatSearchChecker ∨ checker = flightSearchChecker)
    (expression : GoString) (exps : List FilterExp)
    (h : filterStep checker expression = .ok exps) :
    exps.map (fun filter => wildcardGroup filter.Fields filter.Op filter.Value)
        = filterGroups checker expression ∧
      ∀ field ∈ filterFields checker expression, field ∈ checker.GetAllFields := by
  cases hq : QueryUnescape expression with
  | none =>
    unfold filterStep at h
    rw [hq] at h
    simp at h
  | some element =>
    cases hr : ReadAll delimiter element with
    | none =>
      unfold filterStep at h
      rw [hq] at h
      dsimp only at h
      rw [hr] at h
      simp at h
    | some records =>
      cases records with
      | nil =>
        have hrec : filterRecord expression = none := by
          unfold filterRecord
          rw [hq]
          dsimp only
          rw [hr]
        unfold filterStep at h
        rw [hq] at h
        dsimp only at h
        rw [hr] at h
        simp only [Except.ok.injEq] at h
        rw [← h]
        unfold filterGroups filterFields
        rw [hrec]
        simp
      | cons record more =>
        have hrec : filterRecord expression = some record := by
          unfold filterRecord
          rw [hq]
          dsimp only
          rw [hr]
        by_cases hlen : record.length = 3
        · obtain ⟨f, o, x, rfl⟩ := List.length_eq_three.mp hlen
          rw [filterStep_of_record checker expression element f o x more hq hr,
            filterOp_eq, filterOp_eq] at h
          unfold filterGroups filterFields
          rw [hrec]
          dsimp only
          by_cases hall : f = "*"
          · rw [if_pos hall] at h
            rw [if_pos hall, if_pos hall]
            cases hop : opToken o with
            | none =>
              rw [hop] at h
              simp at h
            | some token =>
              rw [hop] at h
              simp only [Option.map_some', Except.ok.injEq] at h
              rw [← h]
              exact ⟨rfl, fun field hfield => hfield⟩
          · rw [if_neg hall] at h
            rw [if_neg hall, if_neg hall]
            by_cases herr : (checker.Validate f x).2.2.length ≠ 0
            · rw [if_pos herr] at h
              simp at h
            · rw [if_neg herr] at h
              have herrs : (checker.Validate f x).2.2 = [] :=
                List.length_eq_zero.mp (not_not.mp herr)
              have hfield := checker_Validate_field checker hc f x herrs
              have hmem : f ∈ checker.GetAllFields := by
                by_contra hnot
                rw [checker_Validate_unknown checker hc f x hnot] at herrs
                simp at herrs
              cases hop : opToken o with
              | none =>
                rw [hop] at h
                simp at h
              | some token =>
                rw [hop] at h
                simp only [Option.map_some', Except.ok.injEq] at h
                rw [← h, hfield]
                refine ⟨rfl, ?_⟩
                intro field hf
                rw [List.mem_singleton] at hf
                rw [hf]
                exact hmem
        · rw [filterStep_of_other checker expression element record more hq hr hlen] at h
          simp at h


/-- C21: for the Seat and the Flight schema. A filter value that parses to three parts
`field:op:value` whose field is not `*` and is not one of the filterable field names of
the schema makes `GetFiltering` return a non-empty error list and the empty string,
wherever the value stands in the list. And whenever `GetFiltering` returns no error, its
text is exactly ` AND ` and the groups of the values joined by ` AND `, the group of a
value being its atoms `name TOKEN value` joined by ` OR ` in brackets, where the names
are every filterable field of the schema for `*` and else the field part of the value,
and every such name is a filterable field name of the schema (for Seat: id, index,
type, row, line, assigned, created_at, updated_at). -/
theorem GetFiltering_fields_filterable (checker : SearchFieldChecker)
    (hc : checker = seatSearchChecker ∨ checker = flightSearchChecker) :
    (∀ (expressions : List GoString) (e f o x : GoString), e ∈ expressions →
        filterRecord e = some [f, o, x] → f ≠ "*" → f ∉ checker.GetAllFields →
        (GetFiltering checker expressions).2 ≠ [] ∧ (GetFiltering checker expressions).1 = []) ∧
      (∀ expressions : List GoString, (GetFiltering checker expressions).2 = [] →
        (GetFiltering checker expressions).1
            = filterText (expressions.flatMap (filterGroups checker)) ∧
          ∀ e ∈ expressions, ∀ field ∈ filterFields checker e,
            field ∈ checker.GetAllFields) ∧
      seatSearchChecker.GetAllFields
        = [gostr "id", gostr "index", gostr "type", gostr "row", gostr "line",
            gostr "assigned", gostr "created_at", gostr "updated_at"] := by
  have hval : ∀ f v, (checker.Validate f v).2.2.length ≤ 1 := by
    rcases hc with rfl | rfl
    · exact Seat_Validate_errors
    · exact Flight_Validate_errors
  refine ⟨?_, ?_, by decide⟩
  · intro expressions e f o x he hrec hstar hf
    obtain ⟨element, more, hq, hr⟩ := filterRecord_eq_some hrec
    have hunknown := checker_Validate_unknown checker hc f x hf
    have hstep : filterStep checker e
        = .error [⟨"field.Unknown", f ++ " field is unknown", "field"⟩] := by
      rw [filterStep_of_record checker e element f o x more hq hr, if_neg hstar, hunknown]
      rfl
    obtain ⟨errs2, h2⟩ := filteringLoop_mem_error checker expressions e _ he hstep []
    obtain ⟨e2, _, h3⟩ := filteringLoop_error checker expressions [] errs2 h2
    have hlen := filterStep_error_length checker hval e2 errs2 h3
    unfold GetFiltering
    rw [h2]
    refine ⟨?_, rfl⟩
    intro hnil
    dsimp only at hnil
    rw [hnil] at hlen
    simp at hlen
  · intro expressions hok
    cases hl : filteringLoop checker expressions [] with
    | error errs =>
      obtain ⟨e2, _, h3⟩ := filteringLoop_error checker expressions [] errs hl
      have hlen := filterStep_error_length checker hval e2 errs h3
      unfold GetFiltering at hok
      rw [hl] at hok
      dsimp only at hok
      rw [hok] at hlen
      simp at hlen
    | ok filters =>
      have hsteps := filteringLoop_ok_steps checker expressions [] filters hl
      have hexps : ∀ e ∈ expressions, filterStep checker e
          = .ok ((fun e => match filterStep checker e with
              | .ok exps => exps
              | .error _ => []) e) := by
        intro e he
        obtain ⟨exps, h1⟩ := hsteps e he
        dsimp only
        rw [h1]
      have hloop := filteringLoop_ok checker expressions _ hexps []
      rw [hl, List.nil_append] at hloop
      have hfilters := Except.ok.inj hloop
      constructor
      · have hmap : filters.map (fun filter =>
            wildcardGroup filter.Fields filter.Op filter.Value)
            = expressions.flatMap (filterGroups checker) := by
          rw [hfilters, List.map_flatMap]
          apply flatMap_congr_mem
          intro e he
          obtain ⟨exps, h1⟩ := hsteps e he
          rw [h1]
          exact (filterStep_ok_groups checker hc e exps h1).1
        unfold GetFiltering
        rw [hl]
        dsimp only
        rw [filterText_groups, hmap]
      · intro e he
        obtain ⟨exps, h1⟩ := hsteps e he
        exact (filterStep_ok_groups checker hc e exps h1).2

/-- C21 at a request against the Seat schema: the field `flight_id` is not filterable,
also after a value that passes. -/
theorem GetFiltering_fields_filterable_witness :
    (GetFiltering seatSearchChecker [gostr "id:eq:1", gostr "flight_id:eq:7"]).2 ≠ [] ∧
      (GetFiltering seatSearchChecker [gostr "id:eq:1", gostr "flight_id:eq:7"]).1 = [] :=
  (GetFiltering_fields_filterable seatSearchChecker (Or.inl rfl)).1
    [gostr "id:eq:1", gostr "flight_id:eq:7"] (gostr "flight_id:eq:7")
    (gostr "flight_id") (gostr "eq") (gostr "7") (by decide) (by decide) (by decide)
    (by decide)

end Booking
